import Mathlib

/-!
# mav_active_3d_planning: tree updaters and the RandomLinear generator

A shallow embedding of

* `generator_updaters/default_generator_updaters.cpp`
  (`ResetTree`, `UpdateNothing`, `RecheckCollision`), and
* `trajectory_generators/random_linear.cpp` (`RandomLinear`).

Conventions of the embedding.

* A value of type `double` is a rational number, and the result of every floating-point
  operation of `random_linear.cpp` passes through the rounding function `round` of the
  environment `Env`. Two roundings are used: the identity, which is exact arithmetic, and
  `roundDouble`, the rounding to nearest with ties to even of IEEE 754 binary64, with its
  53-bit significand and gradual underflow (`Env.ieee`).
* Infinities and NaN are not represented. A quotient with divisor zero has the value `0` of
  `ℚ`, and `roundDouble` rounds a value beyond the largest finite double as if the exponent
  range had no upper end. Statements about computed numbers therefore speak about runs in
  which no divisor is zero and every result is finite; the concrete runs below are of that
  kind.
* A `TrajectorySegment*` handed out by `spawnChild` is modelled by the index of
  the child inside `target.children`.
* Undefined behaviour of the C++ code (out-of-range `operator[]`, `back()` or
  `pop_back()` on an empty vector) and running out of simulation fuel are
  modelled by the result `none`. The one exception is the conversion
  `static_cast<int64_t>` of a value outside the range of `int64_t`, see `toInt64`.
* The collision oracle `checkTraversable`, `rand()`, `RAND_MAX`, `M_PI`, `sin`, `cos`,
  `defaults::angleScaled` and the base-class check `TrajectoryGenerator::checkParamsValid`
  live outside the two source files and are parameters.
-/

namespace mav_active_3d_planning

/-! ## Data model -/

/-- Stand-in for `Eigen::Vector3d`: three coordinates of type `double`. -/
structure Vec3 where
  x : ℚ
  y : ℚ
  z : ℚ
deriving DecidableEq, Repr

namespace Vec3

/-- Componentwise sum; the `+` of `Eigen::Vector3d` is this sum with every coordinate
rounded, see `map`. -/
def add (a b : Vec3) : Vec3 := ⟨a.x + b.x, a.y + b.y, a.z + b.z⟩

/-- Scalar multiple; the `double * Vector3d` of Eigen is this product with every coordinate
rounded, see `map`. -/
def smul (c : ℚ) (a : Vec3) : Vec3 := ⟨c * a.x, c * a.y, c * a.z⟩

/-- A function applied to each coordinate; used to round the coordinates of the result of a
vector operation. -/
def map (f : ℚ → ℚ) (a : Vec3) : Vec3 := ⟨f a.x, f a.y, f a.z⟩

end Vec3

/-- The fields of `mav_msgs::EigenTrajectoryPoint` written by the code:
position, the yaw handed to `setFromYaw`, and the time stamp. -/
structure TrajectoryPoint where
  position_W : Vec3
  yaw : ℚ
  time_from_start_ns : Int
deriving DecidableEq, Repr

/-- A node of the expansion tree: the fields of `TrajectorySegment` that the two
source files read or write. A parent owns its children. -/
inductive TrajectorySegment where
  | mk (trajectory : List TrajectoryPoint) (children : List TrajectorySegment)
      (tg_visited : Bool)
deriving Repr

namespace TrajectorySegment

/-- Field `trajectory`. -/
def trajectory : TrajectorySegment → List TrajectoryPoint
  | mk t _ _ => t

/-- Field `children`. -/
def children : TrajectorySegment → List TrajectorySegment
  | mk _ c _ => c

/-- Field `tg_visited`. -/
def tg_visited : TrajectorySegment → Bool
  | mk _ _ v => v

/-- Modelled from the spec: the constructor `TrajectorySegment()` of the header, which is
not among the sources; a freshly spawned segment has an empty trajectory, no children and
has not been visited. -/
def fresh : TrajectorySegment := mk [] [] false

/-- Modelled from the spec: `TrajectorySegment::spawnChild()` of the header, which is not
among the sources; it appends a fresh empty child at the end of `children` and returns a
handle to it (here: its index). -/
def spawnChild : TrajectorySegment → TrajectorySegment × Nat
  | mk t cs v => (mk t (cs ++ [fresh]) v, cs.length)

end TrajectorySegment

/-- The collision oracle `checkTraversable(position)`. -/
abbrev Oracle := Vec3 → Bool

/-! ## `generator_updaters` -/

namespace generator_updaters

namespace ResetTree

/-- `ResetTree::updateSegments`: `root->children.clear(); return true;`. -/
def updateSegments : TrajectorySegment → Bool × TrajectorySegment
  | .mk t _ v => (true, .mk t [] v)

end ResetTree

namespace UpdateNothing

/-- `UpdateNothing::updateSegments`: `return true;`. -/
def updateSegments (root : TrajectorySegment) : Bool × TrajectorySegment := (true, root)

end UpdateNothing

namespace RecheckCollision

/-- `RecheckCollision::isCollided`: scan the waypoints in order and answer `true` at the
first one that is not traversable. -/
def isCollided (orc : Oracle) : List TrajectoryPoint → Bool
  | [] => false
  | p :: rest => if !orc p.position_W then true else isCollided orc rest

/-- The first loop of `RecheckCollision::checkSingle`, started in the state `(i, j)`:

    for (; i < children.size(); ++i)
      if (isCollided(children[j]->trajectory)) children.erase(children.begin() + j);
      else j++;

The bound `children.size()` is re-read at every iteration. An access `children[j]` outside
the vector gives `none`. -/
def eraseLoop (orc : Oracle) (children : List TrajectorySegment) (i j : Nat) :
    Option (List TrajectorySegment) :=
  if i < children.length then
    match children[j]? with
    | none => none
    | some c =>
      if isCollided orc c.trajectory then eraseLoop orc (children.eraseIdx j) (i + 1) j
      else eraseLoop orc children (i + 1) (j + 1)
  else some children
termination_by children.length - i
decreasing_by
  all_goals simp_wf
  · have := List.length_eraseIdx_le children j
    omega
  · omega

/-- Whatever the first loop of `checkSingle` leaves in the vector was in it before. -/
theorem eraseLoop_mem (orc : Oracle) :
    ∀ (n : Nat) (children : List TrajectorySegment) (i j : Nat) (r : List TrajectorySegment),
      children.length - i ≤ n → eraseLoop orc children i j = some r →
      ∀ c ∈ r, c ∈ children := by
  intro n
  induction n with
  | zero =>
    intro children i j r hn h c hc
    rw [eraseLoop] at h
    have hlt : ¬ i < children.length := by omega
    simp only [hlt, if_false, Option.some.injEq] at h
    subst h
    exact hc
  | succ n ih =>
    intro children i j r hn h c hc
    rw [eraseLoop] at h
    split at h
    · split at h
      · simp at h
      · split at h
        · have hlen := List.length_eraseIdx_le children j
          exact List.mem_of_mem_eraseIdx (ih _ _ _ _ (by omega) h c hc)
        · exact ih _ _ _ _ (by omega) h c hc
    · simp only [Option.some.injEq] at h
      subst h
      exact hc

/-- `RecheckCollision::checkSingle`: run the erase loop on the children of `segment`, then
call `checkSingle` on every child that is left, in order. -/
def checkSingle (orc : Oracle) : TrajectorySegment → Option TrajectorySegment
  | .mk t cs v =>
    match h : eraseLoop orc cs 0 0 with
    | none => none
    | some remaining =>
      match remaining.attach.mapM (fun c => checkSingle orc c.1) with
      | none => none
      | some checked => some (.mk t checked v)
termination_by s => sizeOf s
decreasing_by
  simp_wf
  have hm := eraseLoop_mem orc _ _ 0 0 remaining (le_refl _) h c.1 c.2
  have := List.sizeOf_lt_of_mem hm
  omega

/-- `RecheckCollision::updateSegments`: `checkSingle(root); return true;`. -/
def updateSegments (orc : Oracle) (root : TrajectorySegment) :
    Option (Bool × TrajectorySegment) :=
  match checkSingle orc root with
  | none => none
  | some r => some (true, r)

end RecheckCollision

end generator_updaters

/-! ## Arithmetic of `double` -/

/-- Rounding of a rational number to the nearest integer, a tie going to the even
neighbour. -/
def roundHalfEven (m : ℚ) : Int :=
  if m - ⌊m⌋ < 1 / 2 then ⌊m⌋
  else if 1 / 2 < m - ⌊m⌋ then ⌊m⌋ + 1
  else if ⌊m⌋ % 2 = 0 then ⌊m⌋ else ⌊m⌋ + 1

/-- The exponent `e` of the binade `2 ^ e <= |q| < 2 ^ (e + 1)` of `q`, but not less than
`-1022`, the exponent of the smallest normal doubles: below it the doubles are the
subnormal ones, which all have the spacing of that binade. -/
def doubleExponent (q : ℚ) : Int := max (Int.log 2 |q|) (-1022)

/-- The double nearest to `q`, a tie going to the double with an even significand: the
rounding of IEEE 754 binary64. The doubles of the binade with exponent `e` are the integer
multiples of `2 ^ (e - 52)`. Overflow to an infinity is not modelled. -/
def roundDouble (q : ℚ) : ℚ :=
  roundHalfEven (q / 2 ^ (doubleExponent q - 52)) * 2 ^ (doubleExponent q - 52)

/-- Conversion `static_cast<int64_t>(d)`: truncation towards zero when the truncated value
is an `int64_t`. For other values the conversion is undefined in C++; the conversion
instruction of x86-64 then yields the smallest `int64_t`, and so does the model. -/
def toInt64 (d : ℚ) : Int :=
  if -9223372036854775809 < d ∧ d < 9223372036854775808 then Int.tdiv d.num d.den
  else -9223372036854775808

/-! ## `trajectory_generators::RandomLinear` -/

namespace TrajectorySegment

/-- Assignment `s->tg_visited = b`. -/
def setVisited (s : TrajectorySegment) (b : Bool) : TrajectorySegment :=
  match s with
  | mk t cs _ => mk t cs b

/-- Assignment `s->trajectory = t`. -/
def setTrajectory (s : TrajectorySegment) (t : List TrajectoryPoint) : TrajectorySegment :=
  match s with
  | mk _ cs v => mk t cs v

/-- Writing through a child handle: the child of `s` at index `idx` becomes `c`. -/
def setChild (s : TrajectorySegment) (idx : Nat) (c : TrajectorySegment) : TrajectorySegment :=
  match s with
  | mk t cs v => mk t (cs.set idx c) v

/-- Call `children.pop_back()` on a non-empty `children`. -/
def popChild : TrajectorySegment → TrajectorySegment
  | mk t cs v => mk t cs.dropLast v

end TrajectorySegment

namespace trajectory_generators

/-- What `random_linear.cpp` takes from outside the two source files: the rounding of the
results of the operations on `double`, the constants and functions of the C library,
`defaults::angleScaled`, and the values returned by the successive calls of `rand()`
(`rand k` is the value of call number `k`). -/
structure Env where
  round : ℚ → ℚ
  M_PI : ℚ
  RAND_MAX : ℚ
  sin : ℚ → ℚ
  cos : ℚ → ℚ
  angleScaled : ℚ → ℚ
  rand : Nat → ℚ

/-- The environment `env` with exact arithmetic: no result is rounded. -/
def Env.exact (env : Env) : Env := { env with round := fun q => q }

/-- The environment `env` with the arithmetic of IEEE 754 binary64: every result is rounded
to the nearest double. -/
def Env.ieee (env : Env) : Env := { env with round := roundDouble }

/-- The parameters of `class RandomLinear`. -/
structure RandomLinear where
  p_min_distance_ : ℚ
  p_max_distance_ : ℚ
  p_v_max_ : ℚ
  p_a_max_ : ℚ
  p_sampling_rate_ : ℚ
  p_n_segments_ : Int
  p_max_tries_ : Int
  p_planar_ : Bool
  p_sample_yaw_ : Bool

/-- The three outputs of `sampleTarget`. -/
structure Target where
  direction : Vec3
  yaw : ℚ
  decelleration_distance : ℚ

namespace RandomLinear

/-- `RandomLinear::checkParamsValid`: the returned flag and the contents of
`*error_message` after the call. The base-class check
`TrajectoryGenerator::checkParamsValid(error_message)` is not part of the two source files;
it works on the state of the base class, which has no access to the members of
`RandomLinear`, and is the parameter `base`. -/
def checkParamsValid (cfg : RandomLinear) (base : String → Bool × String)
    (error_message : String) : Bool × String :=
  if cfg.p_max_distance_ ≤ 0 then (false, "max_distance expected > 0.0")
  else if cfg.p_max_distance_ < cfg.p_min_distance_ then
    (false, "max_distance needs to be larger than min_distance")
  else if cfg.p_n_segments_ < 1 then (false, "n_segments expected > 0")
  else if cfg.p_max_tries_ < 1 then (false, "max_tries expected > 0")
  else base error_message

/-- `RandomLinear::sampleTarget`, when `calls` calls of `rand()` have been made before it;
returns the sampled target and the number of calls of `rand()` made so far. Every product,
quotient, sum and difference of the C++ expressions is rounded, in the order in which C++
evaluates them. -/
def sampleTarget (cfg : RandomLinear) (env : Env) (calls : Nat) : Target × Nat :=
  let yaw := env.round (env.round (env.round (env.rand calls * 2) * env.M_PI) / env.RAND_MAX)
  let theta := env.round (env.round (env.rand (calls + 1) * env.M_PI) / env.RAND_MAX)
  let distance := env.round (cfg.p_min_distance_ +
    env.round (env.round (env.rand (calls + 2) / env.RAND_MAX) *
      env.round (cfg.p_max_distance_ - cfg.p_min_distance_)))
  let decelleration_distance := env.round (distance -
    env.round (min (env.round (env.round (cfg.p_v_max_ * cfg.p_v_max_) / cfg.p_a_max_))
      distance / 2))
  let theta := if cfg.p_planar_ then env.round ((1 / 2) * env.M_PI) else theta
  let direction : Vec3 :=
    ⟨env.round (env.sin theta * env.cos yaw), env.round (env.sin theta * env.sin yaw),
      env.cos theta⟩
  if cfg.p_sample_yaw_ then
    (⟨direction,
        env.round (env.round (env.round (env.rand (calls + 3) * 2) * env.M_PI) / env.RAND_MAX),
        decelleration_distance⟩,
      calls + 4)
  else (⟨direction, yaw, decelleration_distance⟩, calls + 3)

/-- The loop of `RandomLinear::buildTrajectory`, entered with the local variables
`x_curr`, `v_curr`, `t_curr` and the segment behind `new_segment`. Every pass through the
body uses one unit of `fuel`; `none` means that the fuel ran out before the loop was
left. The result of every operation on `double` is rounded. -/
def buildLoop (cfg : RandomLinear) (env : Env) (orc : Oracle) (start_pos direction : Vec3)
    (yaw decelleration_distance : ℚ) :
    Nat → ℚ → ℚ → ℚ → TrajectorySegment → Option (Bool × TrajectorySegment)
  | fuel, x_curr, v_curr, t_curr, new_segment =>
    if 0 ≤ v_curr then
      match fuel with
      | 0 => none
      | fuel + 1 =>
        let v_curr :=
          if x_curr < decelleration_distance then
            min (env.round (v_curr + env.round (cfg.p_a_max_ / cfg.p_sampling_rate_)))
              cfg.p_v_max_
          else env.round (v_curr - env.round (cfg.p_a_max_ / cfg.p_sampling_rate_))
        let t_curr := env.round (t_curr + env.round (1 / cfg.p_sampling_rate_))
        let x_curr := env.round (x_curr + env.round (v_curr / cfg.p_sampling_rate_))
        let current_pos :=
          (start_pos.add ((Vec3.smul x_curr direction).map env.round)).map env.round
        if !orc current_pos then some (false, new_segment.setTrajectory [])
        else
          buildLoop cfg env orc start_pos direction yaw decelleration_distance fuel
            x_curr v_curr t_curr
            (new_segment.setTrajectory (new_segment.trajectory ++
              [⟨current_pos, env.angleScaled yaw,
                toInt64 (env.round (t_curr * 1000000000))⟩]))
    else some (true, new_segment)

/-- `RandomLinear::buildTrajectory`: the returned flag and the segment behind
`new_segment` after the call. -/
def buildTrajectory (cfg : RandomLinear) (env : Env) (orc : Oracle) (start_pos direction : Vec3)
    (yaw decelleration_distance : ℚ) (fuel : Nat) (new_segment : TrajectorySegment) :
    Option (Bool × TrajectorySegment) :=
  buildLoop cfg env orc start_pos direction yaw decelleration_distance fuel 0 0 0 new_segment

/-- The local state of `RandomLinear::expandSegment` inside its `while` loop. `calls` counts
the calls of `rand()` made so far. -/
structure ExpandState where
  target : TrajectorySegment
  new_segments : List Nat
  new_segment : Nat
  valid_segments : Int
  counter : Int
  calls : Nat

/-- The `while` loop of `RandomLinear::expandSegment`. Each call of `buildTrajectory` gets
`fuel` units of fuel. -/
def expandLoop (cfg : RandomLinear) (env : Env) (orc : Oracle) (fuel : Nat) (start_pos : Vec3)
    (st : ExpandState) : Option ExpandState :=
  if st.valid_segments < cfg.p_n_segments_ ∧ st.counter < cfg.p_max_tries_ then
    let counter := st.counter + 1
    let sample := sampleTarget cfg env st.calls
    match st.target.children[st.new_segment]? with
    | none => none
    | some seg =>
      match buildTrajectory cfg env orc start_pos sample.1.direction sample.1.yaw
          sample.1.decelleration_distance fuel seg with
      | none => none
      | some (true, seg1) =>
        let spawned := (st.target.setChild st.new_segment seg1).spawnChild
        expandLoop cfg env orc fuel start_pos
          ⟨spawned.1, st.new_segments ++ [st.new_segment], spawned.2,
            st.valid_segments + 1, counter, sample.2⟩
      | some (false, seg1) =>
        expandLoop cfg env orc fuel start_pos
          ⟨st.target.setChild st.new_segment seg1, st.new_segments, st.new_segment,
            st.valid_segments, counter, sample.2⟩
  else some st
termination_by (cfg.p_max_tries_ - st.counter).toNat
decreasing_by
  all_goals simp_wf
  all_goals omega

/-- What a call of `RandomLinear::expandSegment` leaves behind: the returned flag, the
target, the vector `new_segments`, and the final values of the two counters. -/
structure ExpandResult where
  result : Bool
  target : TrajectorySegment
  new_segments : List Nat
  valid_segments : Int
  counter : Int

/-- `RandomLinear::expandSegment`. `none` stands for `back()` on an empty trajectory, an
invalid child handle, `pop_back()` on an empty vector, or a `buildTrajectory` that used up
its fuel. -/
def expandSegment (cfg : RandomLinear) (env : Env) (orc : Oracle) (fuel : Nat)
    (target : TrajectorySegment) (new_segments : List Nat) : Option ExpandResult :=
  let spawned := (target.setVisited true).spawnChild
  match spawned.1.trajectory.getLast? with
  | none => none
  | some last =>
    match expandLoop cfg env orc fuel last.position_W
        ⟨spawned.1, new_segments, spawned.2, 0, 0, 0⟩ with
    | none => none
    | some st =>
      if st.target.children.isEmpty then none
      else some ⟨decide (0 < st.valid_segments), st.target.popChild, st.new_segments,
        st.valid_segments, st.counter⟩

end RandomLinear

end trajectory_generators

/-! ## Auxiliary definitions

Closed forms of the loops, the relations and predicates used to state the properties, and
the concrete inputs of the examples. -/

/-- An oracle for the examples: a point is traversable iff its `x` coordinate is at most
zero. -/
def halfSpace : Oracle := fun p => decide (p.x ≤ 0)

/-- A waypoint on the `x` axis. -/
def wp (x : ℚ) : TrajectoryPoint := ⟨⟨x, 0, 0⟩, 0, 0⟩

/-- A leaf segment with the single waypoint `wp x`. -/
def leafAt (x : ℚ) : TrajectorySegment := .mk [wp x] [] false

namespace generator_updaters

namespace RecheckCollision

/-- Closed form of the erase loop: `e` children have been erased so far and `rest` is the
part of the vector that has not been examined. The loop goes on exactly as long as
`e < rest.length`. -/
def eraseScan (orc : Oracle) : Nat → List TrajectorySegment → List TrajectorySegment
  | _, [] => []
  | e, c :: rest =>
    if e < rest.length + 1 then
      (if isCollided orc c.trajectory then eraseScan orc (e + 1) rest
       else c :: eraseScan orc e rest)
    else c :: rest

mutual
/-- Closed form of `checkSingle`. -/
def checkedTree (orc : Oracle) : TrajectorySegment → TrajectorySegment
  | .mk t cs v => .mk t (checkedScan orc 0 cs) v
/-- Closed form of both loops of `checkSingle` on the unexamined part of the vector. -/
def checkedScan (orc : Oracle) : Nat → List TrajectorySegment → List TrajectorySegment
  | _, [] => []
  | e, c :: rest =>
    if e < rest.length + 1 then
      (if isCollided orc c.trajectory then checkedScan orc (e + 1) rest
       else checkedTree orc c :: checkedScan orc e rest)
    else checkedTree orc c :: checkedAll orc rest
/-- Closed form of the second loop of `checkSingle`. -/
def checkedAll (orc : Oracle) : List TrajectorySegment → List TrajectorySegment
  | [] => []
  | c :: rest => checkedTree orc c :: checkedAll orc rest
end

mutual
/-- `PrunedFrom del s r`: the tree `r` is the tree `s` with whole subtrees deleted, where
only children satisfying `del` are deleted: root flags and trajectory agree, and the
children of `r` are, in the same order, prunings of those children of `s` that were kept. -/
def PrunedFrom (del : TrajectorySegment → Prop) :
    TrajectorySegment → TrajectorySegment → Prop
  | .mk t cs v, r => r.trajectory = t ∧ r.tg_visited = v ∧ PrunedListFrom del cs r.children
/-- `PrunedListFrom del cs rs`: going through `cs` from the left, each child is either
deleted (allowed only if `del` holds of it) or kept as the next element of `rs`, itself
pruned. -/
def PrunedListFrom (del : TrajectorySegment → Prop) :
    List TrajectorySegment → List TrajectorySegment → Prop
  | [], rs => rs = []
  | c :: cs, rs =>
    (del c ∧ PrunedListFrom del cs rs) ∨
      (∃ r rest, rs = r :: rest ∧ PrunedFrom del c r ∧ PrunedListFrom del cs rest)
end

/-- The segment reached from `s` by following child indices. -/
def descend : TrajectorySegment → List Nat → Option TrajectorySegment
  | s, [] => some s
  | s, k :: path =>
    match s.children[k]? with
    | none => none
    | some c => descend c path

/-- Every segment on the path `path` strictly below `s` exists and has only traversable
waypoints. -/
def CleanBelow (orc : Oracle) : TrajectorySegment → List Nat → Prop
  | _, [] => True
  | s, k :: path =>
    ∃ c, s.children[k]? = some c ∧ (∀ p ∈ c.trajectory, orc p.position_W = true) ∧
      CleanBelow orc c path

mutual
/-- The pruning described by the specification: remove every collided child, keep the
others in order and recurse into each of them. -/
def specPrune (orc : Oracle) : TrajectorySegment → TrajectorySegment
  | .mk t cs v => .mk t (specPruneList orc cs) v
/-- The pruning of the specification on a list of children. -/
def specPruneList (orc : Oracle) : List TrajectorySegment → List TrajectorySegment
  | [] => []
  | c :: cs =>
    if isCollided orc c.trajectory then specPruneList orc cs
    else specPrune orc c :: specPruneList orc cs
end

mutual
/-- Every segment of the tree has at most one collided direct child. -/
def AtMostOneCollided (orc : Oracle) : TrajectorySegment → Prop
  | .mk _ cs _ =>
    (cs.filter (fun c => isCollided orc c.trajectory)).length ≤ 1 ∧ AtMostOneCollidedAll orc cs
/-- Every segment of every tree of the list has at most one collided direct child. -/
def AtMostOneCollidedAll (orc : Oracle) : List TrajectorySegment → Prop
  | [] => True
  | c :: cs => AtMostOneCollided orc c ∧ AtMostOneCollidedAll orc cs
end

end RecheckCollision

end generator_updaters

namespace trajectory_generators

/-- What the statements about rounded numbers use of the rounding of `double` results:
zero is a double, rounding is monotone, and a rounded value is a double, which rounding
leaves as it is. Exact arithmetic and `roundDouble` both have these properties. -/
def Env.RoundingLaws (env : Env) : Prop :=
  env.round 0 = 0 ∧ (∀ a b, a ≤ b → env.round a ≤ env.round b) ∧
    ∀ q, env.round (env.round q) = env.round q

namespace RandomLinear

/-- The velocity update of one tick of `buildTrajectory`. -/
def nextVelocity (cfg : RandomLinear) (env : Env) (decel x v : ℚ) : ℚ :=
  if x < decel then
    min (env.round (v + env.round (cfg.p_a_max_ / cfg.p_sampling_rate_))) cfg.p_v_max_
  else env.round (v - env.round (cfg.p_a_max_ / cfg.p_sampling_rate_))

/-- The position `start_pos + x_curr * direction` computed by `buildTrajectory`. -/
def positionAt (env : Env) (start_pos direction : Vec3) (x : ℚ) : Vec3 :=
  (start_pos.add ((Vec3.smul x direction).map env.round)).map env.round

/-- The update of `(x_curr, v_curr, t_curr)` by one pass through the loop body of
`buildTrajectory`. -/
def tickStep (cfg : RandomLinear) (env : Env) (decel : ℚ) (q : ℚ × ℚ × ℚ) : ℚ × ℚ × ℚ :=
  (env.round (q.1 + env.round (nextVelocity cfg env decel q.1 q.2.1 / cfg.p_sampling_rate_)),
    nextVelocity cfg env decel q.1 q.2.1,
    env.round (q.2.2 + env.round (1 / cfg.p_sampling_rate_)))

/-- The waypoint that `buildTrajectory` appends for the values `(x, v, t)` of a tick. -/
def waypointOf (env : Env) (start_pos direction : Vec3) (yaw : ℚ) (q : ℚ × ℚ × ℚ) :
    TrajectoryPoint :=
  ⟨positionAt env start_pos direction q.1, env.angleScaled yaw,
    toInt64 (env.round (q.2.2 * 1000000000))⟩

/-- The values of `(x_curr, v_curr, t_curr)` after `n` ticks of `buildTrajectory`, which
starts from `(0, 0, 0)`. -/
def tickState (cfg : RandomLinear) (env : Env) (decel : ℚ) (n : Nat) : ℚ × ℚ × ℚ :=
  (tickStep cfg env decel)^[n] (0, 0, 0)

/-- The numbers computed by the loop of `buildTrajectory`: the values of `x_curr`,
`v_curr` and `t_curr` after each tick, until the velocity is negative. -/
def tickTrace (cfg : RandomLinear) (env : Env) (decel : ℚ) :
    Nat → ℚ → ℚ → ℚ → Option (List (ℚ × ℚ × ℚ))
  | fuel, x, v, t =>
    if 0 ≤ v then
      match fuel with
      | 0 => none
      | fuel + 1 =>
        (tickTrace cfg env decel fuel (tickStep cfg env decel (x, v, t)).1
          (tickStep cfg env decel (x, v, t)).2.1 (tickStep cfg env decel (x, v, t)).2.2).map
          (fun l => tickStep cfg env decel (x, v, t) :: l)
    else some []

/-- Number of ticks after which the loop of `buildTrajectory` has certainly been left in
exact arithmetic, when `v_max`, `a_max` and `sampling_rate` are positive: the ticks needed
to reach the deceleration point at the slowest possible speed, plus those needed to brake
from `v_max` to below zero. -/
def ticksBound (cfg : RandomLinear) (decel : ℚ) : Nat :=
  ⌈decel * cfg.p_sampling_rate_ /
      min (cfg.p_a_max_ / cfg.p_sampling_rate_) cfg.p_v_max_⌉₊ +
    (⌊cfg.p_v_max_ / (cfg.p_a_max_ / cfg.p_sampling_rate_)⌋₊ + 1)

/-- One pass through the body of the `while` loop of `expandSegment`. -/
def expandStep (cfg : RandomLinear) (env : Env) (orc : Oracle) (fuel : Nat) (start_pos : Vec3)
    (st : ExpandState) : Option ExpandState :=
  match st.target.children[st.new_segment]? with
  | none => none
  | some seg =>
    match buildTrajectory cfg env orc start_pos (sampleTarget cfg env st.calls).1.direction
        (sampleTarget cfg env st.calls).1.yaw
        (sampleTarget cfg env st.calls).1.decelleration_distance fuel seg with
    | none => none
    | some (true, seg1) =>
      some ⟨((st.target.setChild st.new_segment seg1).spawnChild).1,
        st.new_segments ++ [st.new_segment],
        ((st.target.setChild st.new_segment seg1).spawnChild).2,
        st.valid_segments + 1, st.counter + 1, (sampleTarget cfg env st.calls).2⟩
    | some (false, seg1) =>
      some ⟨st.target.setChild st.new_segment seg1, st.new_segments, st.new_segment,
        st.valid_segments, st.counter + 1, (sampleTarget cfg env st.calls).2⟩

/-- A segment is the child produced by one successful attempt: `buildTrajectory`, run on
a fresh empty segment with the target sampled after `calls` calls of `rand()`, returns
`true` and leaves exactly this segment. -/
def Accepted (cfg : RandomLinear) (env : Env) (orc : Oracle) (fuel : Nat) (start_pos : Vec3)
    (c : TrajectorySegment) : Prop :=
  ∃ calls, buildTrajectory cfg env orc start_pos (sampleTarget cfg env calls).1.direction
    (sampleTarget cfg env calls).1.yaw (sampleTarget cfg env calls).1.decelleration_distance
    fuel TrajectorySegment.fresh = some (true, c)

/-- Invariant of the `while` loop of `expandSegment`, for a target that had trajectory `traj`
and children `old` and a vector `new_segments` that held `out0` when the call began: the
children are the old ones, then the accepted ones, then one empty spare segment, to which
`new_segment` points. -/
def LoopInv (cfg : RandomLinear) (env : Env) (orc : Oracle) (fuel : Nat) (start_pos : Vec3)
    (traj : List TrajectoryPoint) (old : List TrajectorySegment) (out0 : List Nat)
    (st : ExpandState) : Prop :=
  ∃ accepted : List TrajectorySegment,
    st.target = .mk traj (old ++ accepted ++ [TrajectorySegment.fresh]) true ∧
    st.new_segment = old.length + accepted.length ∧
    st.new_segments = out0 ++ List.range' old.length accepted.length ∧
    st.valid_segments = accepted.length ∧
    st.valid_segments ≤ st.counter ∧
    st.counter ≤ max cfg.p_max_tries_ 0 ∧
    st.valid_segments ≤ max cfg.p_n_segments_ 0 ∧
    ∀ c ∈ accepted, Accepted cfg env orc fuel start_pos c

/-- An amount of fuel that suffices for each of the next `n` attempts, the first of which
samples its target after `calls` calls of `rand()`. -/
def fuelNeeded (cfg : RandomLinear) (env : Env) : Nat → Nat → Nat
  | _, 0 => 0
  | calls, n + 1 =>
    max (ticksBound cfg (sampleTarget cfg env calls).1.decelleration_distance)
      (fuelNeeded cfg env (sampleTarget cfg env calls).2 n)

/-- Example environment: double arithmetic, `M_PI = 3`, `RAND_MAX = 1`, `sin` constantly
one, `cos` and `angleScaled` the identity, and `rand()` returning one on its first three
calls and zero afterwards. -/
def exampleEnv : Env :=
  ⟨roundDouble, 3, 1, fun _ => 1, fun a => a, fun a => a, fun k => if k < 3 then 1 else 0⟩

/-- Example parameters: distances, `v_max`, `a_max` and `sampling_rate` all one, one segment
wanted, three tries, planar sampling without separate yaw. -/
def exampleConfig : RandomLinear := ⟨1, 1, 1, 1, 1, 1, 3, true, false⟩

/-- Example target: a segment ending at the origin that already has one child. -/
def exampleTarget : TrajectorySegment :=
  .mk [⟨⟨0, 0, 0⟩, 0, 0⟩] [.mk [⟨⟨-1, 0, 0⟩, 0, 0⟩] [] false] false

/-- The child accepted in the example; all its numbers are doubles. -/
def exampleChild : TrajectorySegment :=
  .mk [⟨⟨0, 1, 3 / 2⟩, 0, 1000000000⟩, ⟨⟨0, 1, 3 / 2⟩, 0, 2000000000⟩,
    ⟨⟨0, 0, 0⟩, 0, 3000000000⟩] [] false

/-- The parameters of the simple-accept scenario: `min_distance = max_distance = 1`,
`v_max = 1`, `a_max = 1`, `sampling_rate = 10`, `n_segments = 1`, `max_tries = 1`, planar. -/
def scenarioConfig : RandomLinear := ⟨1, 1, 1, 1, 10, 1, 1, true, false⟩

/-- The tick values `(x_curr, v_curr, t_curr)` of the simple-accept scenario in exact
arithmetic: ten ticks of acceleration, ten of braking down to velocity zero at distance one,
and one more tick with velocity `-1/10`. -/
def scenarioTicks : List (ℚ × ℚ × ℚ) :=
  [(1 / 100, 1 / 10, 1 / 10), (3 / 100, 2 / 10, 2 / 10), (6 / 100, 3 / 10, 3 / 10),
    (10 / 100, 4 / 10, 4 / 10), (15 / 100, 5 / 10, 5 / 10), (21 / 100, 6 / 10, 6 / 10),
    (28 / 100, 7 / 10, 7 / 10), (36 / 100, 8 / 10, 8 / 10), (45 / 100, 9 / 10, 9 / 10),
    (55 / 100, 1, 1), (64 / 100, 9 / 10, 11 / 10), (72 / 100, 8 / 10, 12 / 10),
    (79 / 100, 7 / 10, 13 / 10), (85 / 100, 6 / 10, 14 / 10), (90 / 100, 5 / 10, 15 / 10),
    (94 / 100, 4 / 10, 16 / 10), (97 / 100, 3 / 10, 17 / 10), (99 / 100, 2 / 10, 18 / 10),
    (1, 1 / 10, 19 / 10), (1, 0, 2), (99 / 100, -1 / 10, 21 / 10)]

/-- Parameters with the defaults of `setupFromParamMap`, except for the sampling rate, which
is zero. -/
def zeroRateConfig : RandomLinear := ⟨1, 1, 1, 1, 0, 5, 1000, true, false⟩

/-- Parameters whose velocity step `a_max / sampling_rate` is below the smallest positive
double: `min_distance = max_distance = 1`, `v_max = 1`, `a_max = 2 ^ (-1000)`,
`sampling_rate = 2 ^ 100`, one segment, one try. All five numbers are doubles. -/
def underflowConfig : RandomLinear := ⟨1, 1, 1, 1 / 2 ^ 1000, 2 ^ 100, 1, 1, true, false⟩

/-- Parameters with a sampling rate of `2 ^ 31` Hz, about 2.1 GHz:
`min_distance = max_distance = 2 ^ (-31)`, `v_max = 1`, `a_max = 2 ^ 31`, one segment, one
try. All five numbers are doubles. -/
def fastConfig : RandomLinear :=
  ⟨1 / 2147483648, 1 / 2147483648, 1, 2147483648, 2147483648, 1, 1, true, false⟩

/-- The tick values `(x_curr, v_curr, t_curr)` of the run with `fastConfig` in double
arithmetic, in which no operation rounds: one tick of acceleration, one of braking to
velocity zero, and one more with velocity `-1`. -/
def fastTicks : List (ℚ × ℚ × ℚ) :=
  [(1 / 2147483648, 1, 1 / 2147483648), (1 / 2147483648, 0, 2 / 2147483648),
    (0, -1, 3 / 2147483648)]

/-- The default parameters of `setupFromParamMap`: `min_distance = max_distance = 1`,
`v_max = 1`, `a_max = 1`, `sampling_rate = 20`, `n_segments = 5`, `max_tries = 1000`,
planar. -/
def defaultConfig : RandomLinear := ⟨1, 1, 1, 1, 20, 5, 1000, true, false⟩

/-- The tick values `(x_curr, v_curr, t_curr)` of the simple-accept scenario in double
arithmetic. Tick 19 reaches distance one with velocity just below `1/10`, tick 20 has a
velocity of `2 ^ (-55)`, which leaves the distance at one, and tick 21 has a negative
velocity. -/
def scenarioDoubleTicks : List (ℚ × ℚ × ℚ) :=
  [(5764607523034235 / 2 ^ 59, 3602879701896397 / 2 ^ 55, 3602879701896397 / 2 ^ 55),
    (1080863910568919 / 2 ^ 55, 3602879701896397 / 2 ^ 54, 3602879701896397 / 2 ^ 54),
    (8646911284551353 / 2 ^ 57, 1351079888211149 / 2 ^ 52, 1351079888211149 / 2 ^ 52),
    (3602879701896397 / 2 ^ 55, 3602879701896397 / 2 ^ 53, 3602879701896397 / 2 ^ 53),
    (1351079888211149 / 2 ^ 53, 1 / 2, 1 / 2),
    (3783023686991217 / 2 ^ 54, 5404319552844595 / 2 ^ 53, 5404319552844595 / 2 ^ 53),
    (1261007895663739 / 2 ^ 52, 3152519739159347 / 2 ^ 52, 3152519739159347 / 2 ^ 52),
    (3242591731706757 / 2 ^ 53, 7205759403792793 / 2 ^ 53, 7205759403792793 / 2 ^ 53),
    (2026619832316723 / 2 ^ 52, 2026619832316723 / 2 ^ 51, 2026619832316723 / 2 ^ 51),
    (4953959590107545 / 2 ^ 53, 9007199254740991 / 2 ^ 53, 9007199254740991 / 2 ^ 53),
    (2882303761517117 / 2 ^ 52, 2026619832316723 / 2 ^ 51, 4953959590107545 / 2 ^ 52),
    (6485183463413513 / 2 ^ 53, 7205759403792793 / 2 ^ 53, 5404319552844595 / 2 ^ 52),
    (3557843705622691 / 2 ^ 52, 3152519739159347 / 2 ^ 52, 5854679515581645 / 2 ^ 52),
    (3828059683264921 / 2 ^ 52, 5404319552844595 / 2 ^ 53, 6305039478318695 / 2 ^ 52),
    (2026619832316723 / 2 ^ 51, 1 / 2, 6755399441055745 / 2 ^ 52),
    (2116691824864133 / 2 ^ 51, 3602879701896397 / 2 ^ 53, 7205759403792795 / 2 ^ 52),
    (4368491638549381 / 2 ^ 52, 1351079888211149 / 2 ^ 52, 7656119366529845 / 2 ^ 52),
    (4458563631096791 / 2 ^ 52, 7205759403792795 / 2 ^ 55, 8106479329266895 / 2 ^ 52),
    (1, 1801439850948199 / 2 ^ 54, 8556839292003945 / 2 ^ 52),
    (1, 1 / 2 ^ 55, 4503599627370497 / 2 ^ 51),
    (4458563631096791 / 2 ^ 52, -(900719925474099 / 2 ^ 53), 2364389804369511 / 2 ^ 50)]

set_option maxHeartbeats 1000000 in
/-- The tick values `(x_curr, v_curr, t_curr)` of the run with the default parameters and
the deceleration distance `1/2` in double arithmetic: forty ticks, the last one with a
negative velocity so small that the distance stays what it was. -/
def defaultDoubleTicks : List (ℚ × ℚ × ℚ) :=
  [(5764607523034235 / 2 ^ 61, 3602879701896397 / 2 ^ 56, 3602879701896397 / 2 ^ 56),
    (1080863910568919 / 2 ^ 57, 3602879701896397 / 2 ^ 55, 3602879701896397 / 2 ^ 55),
    (8646911284551353 / 2 ^ 59, 1351079888211149 / 2 ^ 53, 1351079888211149 / 2 ^ 53),
    (3602879701896397 / 2 ^ 57, 3602879701896397 / 2 ^ 54, 3602879701896397 / 2 ^ 54),
    (1351079888211149 / 2 ^ 55, 1 / 4, 1 / 4),
    (3783023686991217 / 2 ^ 56, 5404319552844595 / 2 ^ 54, 5404319552844595 / 2 ^ 54),
    (1261007895663739 / 2 ^ 54, 3152519739159347 / 2 ^ 53, 3152519739159347 / 2 ^ 53),
    (3242591731706757 / 2 ^ 55, 7205759403792793 / 2 ^ 54, 7205759403792793 / 2 ^ 54),
    (2026619832316723 / 2 ^ 54, 2026619832316723 / 2 ^ 52, 2026619832316723 / 2 ^ 52),
    (4953959590107545 / 2 ^ 55, 9007199254740991 / 2 ^ 54, 9007199254740991 / 2 ^ 54),
    (2972375754064527 / 2 ^ 54, 4953959590107545 / 2 ^ 53, 4953959590107545 / 2 ^ 53),
    (7025615418697973 / 2 ^ 55, 5404319552844595 / 2 ^ 53, 5404319552844595 / 2 ^ 53),
    (4098275660907151 / 2 ^ 54, 5854679515581645 / 2 ^ 53, 5854679515581645 / 2 ^ 53),
    (1182194902184755 / 2 ^ 52, 6305039478318695 / 2 ^ 53, 6305039478318695 / 2 ^ 53),
    (2702159776422297 / 2 ^ 53, 6755399441055745 / 2 ^ 53, 6755399441055745 / 2 ^ 53),
    (3062447746611937 / 2 ^ 53, 7205759403792795 / 2 ^ 53, 7205759403792795 / 2 ^ 53),
    (3445253714938429 / 2 ^ 53, 7656119366529845 / 2 ^ 53, 7656119366529845 / 2 ^ 53),
    (1925288840700887 / 2 ^ 52, 8106479329266895 / 2 ^ 53, 8106479329266895 / 2 ^ 53),
    (4278419646001971 / 2 ^ 53, 8556839292003945 / 2 ^ 53, 8556839292003945 / 2 ^ 53),
    (4728779608739021 / 2 ^ 53, 1, 4503599627370497 / 2 ^ 52),
    (2578310786669609 / 2 ^ 52, 4278419646001971 / 2 ^ 52, 2364389804369511 / 2 ^ 51),
    (5561945539802563 / 2 ^ 53, 2026619832316723 / 2 ^ 51, 4953959590107547 / 2 ^ 52),
    (5944751508129055 / 2 ^ 53, 3828059683264921 / 2 ^ 52, 647392446434509 / 2 ^ 49),
    (6305039478318695 / 2 ^ 53, 900719925474099 / 2 ^ 50, 5404319552844597 / 2 ^ 52),
    (3321404725185741 / 2 ^ 52, 3377699720527871 / 2 ^ 52, 2814749767106561 / 2 ^ 51),
    (6958061424287417 / 2 ^ 53, 1576259869579673 / 2 ^ 51, 5854679515581647 / 2 ^ 52),
    (7250795400066499 / 2 ^ 53, 2927339757790821 / 2 ^ 52, 1519964874237543 / 2 ^ 50),
    (7521011377708729 / 2 ^ 53, 337769972052787 / 2 ^ 49, 6305039478318697 / 2 ^ 52),
    (3884354678607053 / 2 ^ 52, 2476979795053771 / 2 ^ 52, 3265109729843611 / 2 ^ 51),
    (7993889338582631 / 2 ^ 53, 9007199254740985 / 2 ^ 54, 6755399441055747 / 2 ^ 52),
    (8196551321814303 / 2 ^ 53, 4053239664633443 / 2 ^ 53, 436286213901517 / 2 ^ 48),
    (8376695306909123 / 2 ^ 53, 7205759403792787 / 2 ^ 54, 7205759403792797 / 2 ^ 52),
    (4267160646933545 / 2 ^ 52, 197032483697459 / 2 ^ 49, 3715469692580661 / 2 ^ 51),
    (8669429282688205 / 2 ^ 53, 5404319552844589 / 2 ^ 54, 7656119366529847 / 2 ^ 52),
    (8782019273372467 / 2 ^ 53, 2251799813685245 / 2 ^ 53, 1970324836974593 / 2 ^ 50),
    (8872091265919877 / 2 ^ 53, 3602879701896391 / 2 ^ 54, 8106479329266897 / 2 ^ 52),
    (4469822630165217 / 2 ^ 52, 675539944105573 / 2 ^ 52, 4165829655317711 / 2 ^ 51),
    (8984681256604139 / 2 ^ 53, 7205759403792771 / 2 ^ 56, 8556839292003947 / 2 ^ 52),
    (9007199254740991 / 2 ^ 53, 1801439850948187 / 2 ^ 55, 1097752409171559 / 2 ^ 49),
    (9007199254740991 / 2 ^ 53, -(23 / 2 ^ 56), 2251799813685249 / 2 ^ 50)]

end RandomLinear

end trajectory_generators

/-! ## Theory of `RecheckCollision` -/

namespace generator_updaters

namespace RecheckCollision

theorem isCollided_eq_false_iff (orc : Oracle) (t : List TrajectoryPoint) :
    isCollided orc t = false ↔ ∀ p ∈ t, orc p.position_W = true := by
  induction t with
  | nil => simp [isCollided]
  | cons p rest ih =>
    cases hp : orc p.position_W <;> simp [isCollided, hp, ih]

theorem isCollided_eq_true_iff (orc : Oracle) (t : List TrajectoryPoint) :
    isCollided orc t = true ↔ ∃ p ∈ t, orc p.position_W = false := by
  induction t with
  | nil => simp [isCollided]
  | cons p rest ih =>
    cases hp : orc p.position_W <;> simp [isCollided, hp, ih]

theorem checkedAll_eq_map (orc : Oracle) (l : List TrajectorySegment) :
    checkedAll orc l = l.map (checkedTree orc) := by
  induction l with
  | nil => simp [checkedAll]
  | cons c rest ih => simp [checkedAll, ih]

theorem checkedScan_eq_map (orc : Oracle) (l : List TrajectorySegment) :
    ∀ e, checkedScan orc e l = (eraseScan orc e l).map (checkedTree orc) := by
  induction l with
  | nil => intro e; simp [checkedScan, eraseScan]
  | cons c rest ih =>
    intro e
    simp only [checkedScan, eraseScan]
    split
    · split
      · exact ih _
      · simp [ih]
    · simp [checkedAll_eq_map]

theorem checkedTree_eq (orc : Oracle) (t : List TrajectoryPoint) (cs : List TrajectorySegment)
    (v : Bool) :
    checkedTree orc (.mk t cs v) = .mk t ((eraseScan orc 0 cs).map (checkedTree orc)) v := by
  simp [checkedTree, checkedScan_eq_map]

/-- The erase loop, started with `kept` already examined and kept and `e` children already
erased, returns `kept` followed by the closed form on the rest. -/
theorem eraseLoop_append (orc : Oracle) (rest : List TrajectorySegment) :
    ∀ (kept : List TrajectorySegment) (e : Nat),
      eraseLoop orc (kept ++ rest) (kept.length + e) kept.length
        = some (kept ++ eraseScan orc e rest) := by
  induction rest with
  | nil =>
    intro kept e
    rw [eraseLoop]
    simp [eraseScan]
  | cons c rest ih =>
    intro kept e
    rw [eraseLoop]
    by_cases he : e < rest.length + 1
    · have hi : kept.length + e < (kept ++ c :: rest).length := by
        simp only [List.length_append, List.length_cons]; omega
      have hget : (kept ++ c :: rest)[kept.length]? = some c := by
        rw [List.getElem?_append_right (le_refl _)]
        simp
      simp only [hi, if_true, hget, eraseScan, he]
      by_cases hc : isCollided orc c.trajectory = true
      · have herase : (kept ++ c :: rest).eraseIdx kept.length = kept ++ rest := by
          rw [List.eraseIdx_append_of_length_le (le_refl _)]
          simp
        simp only [hc, if_true, herase]
        have := ih kept (e + 1)
        rw [← Nat.add_assoc] at this
        exact this
      · simp only [hc, Bool.false_eq_true, if_false]
        have := ih (kept ++ [c]) e
        simp only [List.length_append, List.length_singleton, List.append_assoc,
          List.singleton_append] at this
        have hidx : kept.length + e + 1 = kept.length + 1 + e := by omega
        rw [hidx]
        exact this
    · have hi : ¬ kept.length + e < (kept ++ c :: rest).length := by
        simp only [List.length_append, List.length_cons]; omega
      simp only [hi, if_false, eraseScan, he]

/-- The erase loop of `checkSingle` always returns, with the closed form. -/
theorem eraseLoop_eq (orc : Oracle) (cs : List TrajectorySegment) :
    eraseLoop orc cs 0 0 = some (eraseScan orc 0 cs) := by
  have := eraseLoop_append orc cs [] 0
  simpa using this

theorem eraseScan_sublist (orc : Oracle) (l : List TrajectorySegment) :
    ∀ e, (eraseScan orc e l).Sublist l := by
  induction l with
  | nil => intro e; simp [eraseScan]
  | cons c rest ih =>
    intro e
    simp only [eraseScan]
    split
    · split
      · exact (ih _).cons c
      · exact (ih _).cons₂ c
    · exact List.Sublist.refl _

/-- Induction over trees: a property holds of every segment if it holds of a segment
whenever it holds of all its children. -/
theorem segment_induction {P : TrajectorySegment → Prop}
    (step : ∀ t cs v, (∀ c ∈ cs, P c) → P (.mk t cs v)) : ∀ s, P s := by
  intro s
  refine TrajectorySegment.rec (motive_1 := P) (motive_2 := fun l => ∀ c ∈ l, P c)
    (fun t cs v ih => step t cs v ih) ?_ ?_ s
  · intro c hc
    cases hc
  · intro head tail hh ht c hc
    rcases List.mem_cons.mp hc with h | h
    · exact h ▸ hh
    · exact ht c h

theorem mapM_subtype_eq_some {P : TrajectorySegment → Prop}
    (f : TrajectorySegment → Option TrajectorySegment)
    (g : TrajectorySegment → TrajectorySegment) :
    ∀ (l : List { c // P c }), (∀ c ∈ l, f c.1 = some (g c.1)) →
      l.mapM (fun c => f c.1) = some (l.map (fun c => g c.1)) := by
  intro l
  induction l with
  | nil => intro _; rw [List.mapM_nil]; rfl
  | cons a rest ih =>
    intro h
    have ha := h a (List.mem_cons_self _ _)
    have hr := ih (fun c hc => h c (List.mem_cons_of_mem _ hc))
    rw [List.mapM_cons, ha, hr]
    rfl

/-- Every call of `checkSingle` returns: no access of the erase loop is out of range, and
the result is the closed form. -/
theorem checkSingle_eq (orc : Oracle) : ∀ s, checkSingle orc s = some (checkedTree orc s) := by
  refine segment_induction ?_
  intro t cs v ih
  rw [checkSingle]
  split
  · rename_i h
    rw [eraseLoop_eq] at h
    cases h
  · rename_i remaining h
    rw [eraseLoop_eq] at h
    cases h
    have hall : ∀ c ∈ (eraseScan orc 0 cs).attach,
        checkSingle orc c.1 = some (checkedTree orc c.1) :=
      fun c _ => ih c.1 ((eraseScan_sublist orc cs 0).subset c.2)
    rw [mapM_subtype_eq_some (checkSingle orc) (checkedTree orc) _ hall]
    simp only [checkedTree_eq]
    congr 2
    exact List.attach_map_coe _ _

theorem updateSegments_eq (orc : Oracle) (root : TrajectorySegment) :
    updateSegments orc root = some (true, checkedTree orc root) := by
  simp [updateSegments, checkSingle_eq]

/-! ### Relating the tree before and after the pass -/

theorem prunedList_map_all (orc : Oracle) (del : TrajectorySegment → Prop) :
    ∀ l : List TrajectorySegment, (∀ c ∈ l, PrunedFrom del c (checkedTree orc c)) →
      PrunedListFrom del l (l.map (checkedTree orc)) := by
  intro l
  induction l with
  | nil => intro _; simp [PrunedListFrom]
  | cons c rest ih =>
    intro h
    simp only [PrunedListFrom, List.map_cons]
    right
    exact ⟨_, _, rfl, h c (List.mem_cons_self _ _),
      ih (fun d hd => h d (List.mem_cons_of_mem _ hd))⟩

theorem prunedList_eraseScan (orc : Oracle) :
    ∀ (l : List TrajectorySegment) (e : Nat),
      (∀ c ∈ l, PrunedFrom (fun c => isCollided orc c.trajectory = true) c (checkedTree orc c)) →
      PrunedListFrom (fun c => isCollided orc c.trajectory = true) l
        ((eraseScan orc e l).map (checkedTree orc)) := by
  intro l
  induction l with
  | nil => intro e _; simp [PrunedListFrom, eraseScan]
  | cons c rest ih =>
    intro e h
    have hrest := fun d hd => h d (List.mem_cons_of_mem c hd)
    simp only [eraseScan]
    split
    · split
      · rename_i hc
        simp only [PrunedListFrom]
        exact Or.inl ⟨hc, ih _ hrest⟩
      · simp only [PrunedListFrom, List.map_cons]
        exact Or.inr ⟨_, _, rfl, h c (List.mem_cons_self _ _), ih _ hrest⟩
    · exact prunedList_map_all orc _ _ h

/-- The pass deletes whole subtrees only, and only below collided children. -/
theorem checkedTree_pruned (orc : Oracle) :
    ∀ s, PrunedFrom (fun c => isCollided orc c.trajectory = true) s (checkedTree orc s) := by
  refine segment_induction ?_
  intro t cs v ih
  rw [checkedTree_eq]
  simp only [PrunedFrom, TrajectorySegment.trajectory, TrajectorySegment.tg_visited,
    TrajectorySegment.children, true_and]
  exact prunedList_eraseScan orc cs 0 ih

mutual
theorem prunedFrom_mono {del del2 : TrajectorySegment → Prop} (hd : ∀ c, del c → del2 c) :
    ∀ s r, PrunedFrom del s r → PrunedFrom del2 s r
  | .mk t cs v, r, h => by
    simp only [PrunedFrom] at h ⊢
    exact ⟨h.1, h.2.1, prunedListFrom_mono hd cs _ h.2.2⟩
theorem prunedListFrom_mono {del del2 : TrajectorySegment → Prop} (hd : ∀ c, del c → del2 c) :
    ∀ cs rs, PrunedListFrom del cs rs → PrunedListFrom del2 cs rs
  | [], rs, h => by
    simp only [PrunedListFrom] at h ⊢
    exact h
  | c :: cs, rs, h => by
    simp only [PrunedListFrom] at h ⊢
    rcases h with ⟨h1, h2⟩ | ⟨r, rest, h1, h2, h3⟩
    · exact Or.inl ⟨hd c h1, prunedListFrom_mono hd cs rs h2⟩
    · exact Or.inr ⟨r, rest, h1, prunedFrom_mono hd c r h2, prunedListFrom_mono hd cs rest h3⟩
end

theorem clean_mem_eraseScan (orc : Oracle) (c : TrajectorySegment)
    (hc : isCollided orc c.trajectory = false) :
    ∀ (l : List TrajectorySegment) (e : Nat), c ∈ l → c ∈ eraseScan orc e l := by
  intro l
  induction l with
  | nil => intro e h; cases h
  | cons d rest ih =>
    intro e h
    simp only [eraseScan]
    split
    · split
      · rename_i hd
        rcases List.mem_cons.mp h with h | h
        · subst h
          rw [hc] at hd
          cases hd
        · exact ih _ h
      · rcases List.mem_cons.mp h with h | h
        · subst h
          exact List.mem_cons_self _ _
        · exact List.mem_cons_of_mem _ (ih _ h)
    · exact h

/-- A child with a clean trajectory is still a child after the pass, with its own children
processed. -/
theorem clean_child_kept (orc : Oracle) (s c : TrajectorySegment) (hmem : c ∈ s.children)
    (hc : isCollided orc c.trajectory = false) :
    checkedTree orc c ∈ (checkedTree orc s).children := by
  cases s with
  | mk t cs v =>
    rw [checkedTree_eq]
    simp only [TrajectorySegment.children] at hmem ⊢
    exact List.mem_map_of_mem _ (clean_mem_eraseScan orc c hc cs 0 hmem)

theorem checkedTree_trajectory (orc : Oracle) (s : TrajectorySegment) :
    (checkedTree orc s).trajectory = s.trajectory := by
  cases s with
  | mk t cs v => rw [checkedTree_eq]; rfl

/-- A segment below `s` reached through clean segments only is still below `s` after the
pass, at the same depth. -/
theorem clean_path_kept (orc : Oracle) :
    ∀ (path : List Nat) (s d : TrajectorySegment), descend s path = some d →
      CleanBelow orc s path →
      ∃ path2, path2.length = path.length ∧
        descend (checkedTree orc s) path2 = some (checkedTree orc d) := by
  intro path
  induction path with
  | nil =>
    intro s d hd _
    simp only [descend, Option.some.injEq] at hd
    subst hd
    exact ⟨[], rfl, rfl⟩
  | cons k path ih =>
    intro s d hd hclean
    simp only [CleanBelow] at hclean
    obtain ⟨c, hk, hc, hrest⟩ := hclean
    simp only [descend, hk] at hd
    obtain ⟨path2, hlen, hpath2⟩ := ih c d hd hrest
    have hmem : c ∈ s.children := List.getElem?_mem hk
    have hkept := clean_child_kept orc s c hmem ((isCollided_eq_false_iff orc _).mpr hc)
    obtain ⟨k2, hk2lt, hk2⟩ := List.getElem_of_mem hkept
    refine ⟨k2 :: path2, by simp [hlen], ?_⟩
    have hget : (checkedTree orc s).children[k2]? = some (checkedTree orc c) := by
      rw [List.getElem?_eq_getElem hk2lt, hk2]
    simp only [descend, hget]
    exact hpath2

theorem eraseScan_of_clean (orc : Oracle) :
    ∀ (l : List TrajectorySegment) (e : Nat),
      (∀ c ∈ l, isCollided orc c.trajectory = false) → eraseScan orc e l = l := by
  intro l
  induction l with
  | nil => intro e _; simp [eraseScan]
  | cons c rest ih =>
    intro e h
    have hc := h c (List.mem_cons_self _ _)
    have hrest := ih e (fun d hd => h d (List.mem_cons_of_mem _ hd))
    simp [eraseScan, hc, hrest]

/-- With at most one collided child the erase loop removes exactly the collided ones. -/
theorem eraseScan_at_most_one (orc : Oracle) :
    ∀ l : List TrajectorySegment,
      (l.filter (fun c => isCollided orc c.trajectory)).length ≤ 1 →
      eraseScan orc 0 l = l.filter (fun c => !isCollided orc c.trajectory) := by
  intro l
  induction l with
  | nil => intro _; simp [eraseScan]
  | cons c rest ih =>
    intro h
    by_cases hc : isCollided orc c.trajectory = true
    · simp only [List.filter_cons, hc, if_true, List.length_cons] at h
      have hnone : ∀ d ∈ rest, isCollided orc d.trajectory = false := by
        intro d hd
        by_contra hcon
        have hd2 : d ∈ rest.filter (fun c => isCollided orc c.trajectory) :=
          List.mem_filter.mpr ⟨hd, by simpa using hcon⟩
        have hpos := List.length_pos_of_mem hd2
        omega
      have hfilter : rest.filter (fun c => !isCollided orc c.trajectory) = rest :=
        List.filter_eq_self.mpr (fun d hd => by simp [hnone d hd])
      simp [eraseScan, hc, eraseScan_of_clean orc rest 1 hnone, hfilter]
    · have hc2 : isCollided orc c.trajectory = false := by simpa using hc
      simp only [List.filter_cons, hc2, Bool.false_eq_true, if_false] at h
      simp [eraseScan, hc2, ih h]

theorem specPruneList_eq (orc : Oracle) :
    ∀ l : List TrajectorySegment,
      specPruneList orc l
        = (l.filter (fun c => !isCollided orc c.trajectory)).map (specPrune orc) := by
  intro l
  induction l with
  | nil => simp [specPruneList]
  | cons c rest ih =>
    by_cases hc : isCollided orc c.trajectory = true
    · simp [specPruneList, hc, ih]
    · have hc2 : isCollided orc c.trajectory = false := by simpa using hc
      simp [specPruneList, hc2, ih]

theorem atMostOneCollidedAll_iff (orc : Oracle) :
    ∀ l : List TrajectorySegment,
      AtMostOneCollidedAll orc l ↔ ∀ c ∈ l, AtMostOneCollided orc c := by
  intro l
  induction l with
  | nil => simp [AtMostOneCollidedAll]
  | cons c rest ih => simp [AtMostOneCollidedAll, ih]

/-- On a tree in which every segment has at most one collided child the pass computes the
pruning of the specification. -/
theorem checkedTree_eq_specPrune (orc : Oracle) :
    ∀ s, AtMostOneCollided orc s → checkedTree orc s = specPrune orc s := by
  refine segment_induction ?_
  intro t cs v ih h
  simp only [AtMostOneCollided] at h
  rw [checkedTree_eq, eraseScan_at_most_one orc cs h.1]
  simp only [specPrune, specPruneList_eq]
  congr 1
  apply List.map_congr_left
  intro c hc
  have hmem := (List.mem_filter.mp hc).1
  exact ih c hmem ((atMostOneCollidedAll_iff orc cs).mp h.2 c hmem)

end RecheckCollision

end generator_updaters

/-! ## Claims about the tree updaters -/

namespace generator_updaters

namespace RecheckCollision

/-- C1, evaluated on the code at a failing input: a root with two children that are both
collided. The erase loop re-reads `children.size()` after the first erase and stops, so
the pass returns with the second child still in the tree although its only waypoint is
not traversable. -/
theorem updateSegments_leaves_collided_child :
    updateSegments halfSpace (.mk [wp 0] [leafAt 1, leafAt 2] false)
        = some (true, .mk [wp 0] [leafAt 2] false) ∧
      (∃ p ∈ (leafAt 2).trajectory, halfSpace p.position_W = false) := by
  refine ⟨?_, wp 2, List.mem_singleton.mpr rfl, by decide⟩
  rw [updateSegments_eq]
  rfl

/-- C6: `RecheckCollision.updateSegments` only removes. For every tree and oracle the call
returns `true` and the resulting tree is the original with whole subtrees deleted: the root
is kept, every surviving segment keeps its trajectory and flag, and its children are an
order-preserving selection of its former children, each pruned in the same way. -/
theorem updateSegments_only_removes (orc : Oracle) (root : TrajectorySegment) :
    ∃ r, updateSegments orc root = some (true, r) ∧ PrunedFrom (fun _ => True) root r :=
  ⟨checkedTree orc root, updateSegments_eq orc root,
    prunedFrom_mono (fun _ _ => trivial) _ _ (checkedTree_pruned orc root)⟩

/-- C7: `RecheckCollision.updateSegments` never removes a clean branch. Every child that
is deleted anywhere in the surviving tree has a non-traversable waypoint; and a segment
`d` reached from the root along `path` through segments whose waypoints are all
traversable (`d` included, the root excluded) is still in the tree afterwards at the same
depth, with its own trajectory and with its children processed by `checkSingle`. -/
theorem updateSegments_keeps_clean_branch (orc : Oracle) (root d : TrajectorySegment)
    (path : List Nat) (hd : descend root path = some d) (hclean : CleanBelow orc root path) :
    ∃ r, updateSegments orc root = some (true, r) ∧
      PrunedFrom (fun c => ∃ p ∈ c.trajectory, orc p.position_W = false) root r ∧
      ∃ path2 d2, path2.length = path.length ∧ descend r path2 = some d2 ∧
        checkSingle orc d = some d2 ∧ d2.trajectory = d.trajectory := by
  refine ⟨checkedTree orc root, updateSegments_eq orc root, ?_, ?_⟩
  · exact prunedFrom_mono (fun c hc => (isCollided_eq_true_iff orc _).mp hc) _ _
      (checkedTree_pruned orc root)
  · obtain ⟨path2, hlen, hpath2⟩ := clean_path_kept orc path root d hd hclean
    exact ⟨path2, checkedTree orc d, hlen, hpath2, checkSingle_eq orc d,
      checkedTree_trajectory orc d⟩

/-- Witness for C7: below a root with a collided first child, the clean grandchild at
path `[1, 1]` survives next to its collided sibling. -/
theorem updateSegments_keeps_clean_branch_witness :
    ∃ r, updateSegments halfSpace
          (.mk [wp 0] [leafAt 1, .mk [wp 0] [leafAt 2, leafAt (-1)] false] false)
          = some (true, r) ∧
      PrunedFrom (fun c => ∃ p ∈ c.trajectory, halfSpace p.position_W = false)
        (.mk [wp 0] [leafAt 1, .mk [wp 0] [leafAt 2, leafAt (-1)] false] false) r ∧
      ∃ path2 d2, path2.length = [1, 1].length ∧ descend r path2 = some d2 ∧
        checkSingle halfSpace (leafAt (-1)) = some d2 ∧
        d2.trajectory = (leafAt (-1)).trajectory :=
  updateSegments_keeps_clean_branch halfSpace
    (.mk [wp 0] [leafAt 1, .mk [wp 0] [leafAt 2, leafAt (-1)] false] false) (leafAt (-1))
    [1, 1] rfl
    ⟨_, rfl, by decide, _, rfl, by decide, trivial⟩

/-- C8, evaluated on the code at a failing input: on a root with two collided children the
first pass leaves one collided child behind and a second pass under the same oracle
removes it, so the second run changes the tree. -/
theorem updateSegments_twice_differs :
    updateSegments halfSpace (.mk [wp 0] [leafAt 3, leafAt 4] false)
        = some (true, .mk [wp 0] [leafAt 4] false) ∧
      updateSegments halfSpace (.mk [wp 0] [leafAt 4] false)
        = some (true, .mk [wp 0] [] false) ∧
      (TrajectorySegment.mk [wp 0] [leafAt 4] false).children.length
        ≠ (TrajectorySegment.mk [wp 0] [] false).children.length := by
  refine ⟨?_, ?_, by decide⟩
  · rw [updateSegments_eq]
    rfl
  · rw [updateSegments_eq]
    rfl

/-- C9: pruning with at most one collided child per segment. On every tree in which each
segment has at most one collided direct child the pass returns the pruning of the
specification (collided children removed with their subtrees, the others kept in order and
recursed into). In particular a root with children `[A, B]`, `A` fully traversable and `B`
with a non-traversable waypoint, ends with the single child `A` after its own pass, and
every non-collided child of `A` is still present below it. -/
theorem updateSegments_at_most_one_collided (orc : Oracle) :
    (∀ root, AtMostOneCollided orc root →
        updateSegments orc root = some (true, specPrune orc root)) ∧
      (∀ t v A B, (∀ p ∈ A.trajectory, orc p.position_W = true) →
        (∃ p ∈ B.trajectory, orc p.position_W = false) →
        ∃ A2, checkSingle orc A = some A2 ∧
          updateSegments orc (.mk t [A, B] v) = some (true, .mk t [A2] v) ∧
          ∀ c ∈ A.children, (∀ p ∈ c.trajectory, orc p.position_W = true) →
            ∃ c2, checkSingle orc c = some c2 ∧ c2 ∈ A2.children) := by
  constructor
  · intro root h
    rw [updateSegments_eq, checkedTree_eq_specPrune orc root h]
  · intro t v A B hA hB
    have hA2 := (isCollided_eq_false_iff orc _).mpr hA
    have hB2 := (isCollided_eq_true_iff orc _).mpr hB
    refine ⟨checkedTree orc A, checkSingle_eq orc A, ?_, ?_⟩
    · rw [updateSegments_eq, checkedTree_eq]
      simp [eraseScan, hA2, hB2]
    · intro c hc hclean
      exact ⟨checkedTree orc c, checkSingle_eq orc c,
        clean_child_kept orc A c hc ((isCollided_eq_false_iff orc _).mpr hclean)⟩

/-- Witness for C9: root with children `[A, B]`, where `A` has a collided and a clean
child and `B` is collided. -/
theorem updateSegments_at_most_one_collided_witness :
    updateSegments halfSpace
        (.mk [wp 0] [.mk [wp (-1)] [leafAt 5, leafAt (-2)] false, leafAt 1] false)
      = some (true, specPrune halfSpace
        (.mk [wp 0] [.mk [wp (-1)] [leafAt 5, leafAt (-2)] false, leafAt 1] false)) ∧
    specPrune halfSpace
        (.mk [wp 0] [.mk [wp (-1)] [leafAt 5, leafAt (-2)] false, leafAt 1] false)
      = .mk [wp 0] [.mk [wp (-1)] [leafAt (-2)] false] false :=
  ⟨(updateSegments_at_most_one_collided halfSpace).1 _
      ⟨by decide, ⟨by decide, ⟨by decide, trivial⟩, ⟨by decide, trivial⟩, trivial⟩,
        ⟨by decide, trivial⟩, trivial⟩,
    rfl⟩

/-- C19: index safety of the pruning loop. For every oracle the erase loop of `checkSingle`,
started on any vector, returns: no access `children[j]` is out of range (the result `none`
of the embedding stands for exactly that, and every `erase` is reached only after a
successful access at the same index). This holds in every state the loop reaches, that is
with `kept` examined and kept children, `e` erased ones and `rest` still unexamined. Both
loops and the recursion return on every tree. The out-of-range branch exists in the
embedding: started outside its reachable states, on a one-element vector with `j = 1`, the
loop gives `none`. -/
theorem checkSingle_index_safe (orc : Oracle) :
    (∀ s, ∃ r, checkSingle orc s = some r) ∧
      (∀ children, ∃ remaining, eraseLoop orc children 0 0 = some remaining) ∧
      (∀ kept rest e, ∃ remaining,
        eraseLoop orc (kept ++ rest) (kept.length + e) kept.length = some remaining) ∧
      eraseLoop orc [leafAt 0] 0 1 = none :=
  ⟨fun s => ⟨_, checkSingle_eq orc s⟩, fun cs => ⟨_, eraseLoop_eq orc cs⟩,
    fun kept rest e => ⟨_, eraseLoop_append orc rest kept e⟩, by
      rw [eraseLoop]
      rfl⟩

end RecheckCollision

namespace ResetTree

/-- C14: `ResetTree.updateSegments` returns `true` for every tree, leaves the root with an
empty children collection and with its own trajectory (and flag) unchanged, and is
idempotent: applying it to its own result gives the same tree again. -/
theorem updateSegments_reset (root : TrajectorySegment) :
    (updateSegments root).1 = true ∧
      (updateSegments root).2.children = [] ∧
      (updateSegments root).2.trajectory = root.trajectory ∧
      (updateSegments root).2.tg_visited = root.tg_visited ∧
      updateSegments (updateSegments root).2 = updateSegments root := by
  cases root
  exact ⟨rfl, rfl, rfl, rfl, rfl⟩

end ResetTree

namespace UpdateNothing

/-- C16: `UpdateNothing.updateSegments` returns `true` for every tree and leaves the tree
identical: the same segments, children order and trajectories. -/
theorem updateSegments_nothing (root : TrajectorySegment) :
    updateSegments root = (true, root) := rfl

end UpdateNothing

end generator_updaters

/-! ## Theory of the rounding of `double` -/

theorem roundHalfEven_intCast (n : ℤ) : roundHalfEven n = n := by
  simp [roundHalfEven]

theorem roundHalfEven_near (m : ℚ) (n : ℤ) (h : |m - n| < 1 / 2) : roundHalfEven m = n := by
  rw [abs_lt] at h
  unfold roundHalfEven
  by_cases hge : (n : ℚ) ≤ m
  · have hf : ⌊m⌋ = n := Int.floor_eq_iff.mpr ⟨hge, by linarith⟩
    rw [hf, if_pos (by linarith)]
  · have hf : ⌊m⌋ = n - 1 := Int.floor_eq_iff.mpr ⟨by push_cast; linarith, by push_cast; linarith⟩
    rw [hf]
    push_cast
    rw [if_neg (by linarith), if_pos (by linarith)]
    ring

theorem roundHalfEven_tie_even (n : ℤ) (hn : n % 2 = 0) : roundHalfEven (n + 1 / 2) = n := by
  have hf : ⌊(n : ℚ) + 1 / 2⌋ = n := Int.floor_eq_iff.mpr ⟨by linarith, by linarith⟩
  unfold roundHalfEven
  rw [hf, if_neg (by norm_num), if_neg (by norm_num), if_pos hn]

theorem roundHalfEven_tie_odd (n : ℤ) (hn : n % 2 = 1) : roundHalfEven (n + 1 / 2) = n + 1 := by
  have hf : ⌊(n : ℚ) + 1 / 2⌋ = n := Int.floor_eq_iff.mpr ⟨by linarith, by linarith⟩
  unfold roundHalfEven
  rw [hf, if_neg (by norm_num), if_neg (by norm_num), if_neg (by omega)]

theorem roundHalfEven_close (m : ℚ) : |(roundHalfEven m : ℚ) - m| ≤ 1 / 2 := by
  have h1 := Int.floor_le m
  have h2 := Int.lt_floor_add_one m
  unfold roundHalfEven
  rw [abs_le]
  split
  · constructor <;> linarith
  · split
    · push_cast
      constructor <;> linarith
    · have heq : m - ⌊m⌋ = 1 / 2 := by
        rename_i h3 h4
        linarith [not_lt.mp h3, not_lt.mp h4]
      split
      · constructor <;> linarith
      · push_cast
        constructor <;> linarith

theorem roundHalfEven_floor (m : ℚ) : roundHalfEven m = ⌊m⌋ ∨ roundHalfEven m = ⌊m⌋ + 1 := by
  unfold roundHalfEven
  split
  · exact Or.inl rfl
  · split
    · exact Or.inr rfl
    · split
      · exact Or.inl rfl
      · exact Or.inr rfl

theorem roundHalfEven_mono (a b : ℚ) (h : a ≤ b) : roundHalfEven a ≤ roundHalfEven b := by
  have hfl : ⌊a⌋ ≤ ⌊b⌋ := Int.floor_le_floor h
  rcases lt_or_eq_of_le hfl with hlt | heq
  · rcases roundHalfEven_floor a with ha | ha <;> rcases roundHalfEven_floor b with hb | hb <;>
      omega
  · unfold roundHalfEven
    rw [heq]
    have hab : a - ⌊b⌋ ≤ b - ⌊b⌋ := by linarith
    split_ifs <;> first | omega | (exfalso; linarith)

theorem roundHalfEven_neg (m : ℚ) : roundHalfEven (-m) = -roundHalfEven m := by
  by_cases hnear : |m - roundHalfEven m| < 1 / 2
  · apply roundHalfEven_near
    rw [← abs_neg]
    push_cast
    have : -(-m - -(roundHalfEven m : ℚ)) = m - roundHalfEven m := by ring
    rw [this]
    exact hnear
  · have hclose := roundHalfEven_close m
    rw [abs_sub_comm] at hclose
    have heq : |m - roundHalfEven m| = 1 / 2 := le_antisymm hclose (not_lt.mp hnear)
    have h1 := Int.floor_le m
    have h2 := Int.lt_floor_add_one m
    have hm : m = ⌊m⌋ + 1 / 2 := by
      rcases roundHalfEven_floor m with hr | hr
      · rw [hr] at heq
        rw [abs_of_nonneg (by linarith)] at heq
        linarith
      · rw [hr] at heq
        push_cast at heq
        rw [abs_of_nonpos (by linarith)] at heq
        linarith
    have hneg : -m = ((-⌊m⌋ - 1 : ℤ) : ℚ) + 1 / 2 := by
      push_cast
      linarith
    rcases Int.emod_two_eq_zero_or_one ⌊m⌋ with he | ho
    · have e1 : roundHalfEven m = ⌊m⌋ := by
        conv_lhs => rw [hm]
        exact roundHalfEven_tie_even _ he
      rw [e1, hneg, roundHalfEven_tie_odd _ (by omega)]
      ring
    · have e1 : roundHalfEven m = ⌊m⌋ + 1 := by
        conv_lhs => rw [hm]
        exact roundHalfEven_tie_odd _ ho
      rw [e1, hneg, roundHalfEven_tie_even _ (by omega)]
      ring

theorem doubleExponent_neg (q : ℚ) : doubleExponent (-q) = doubleExponent q := by
  unfold doubleExponent
  rw [abs_neg]

theorem roundDouble_neg (q : ℚ) : roundDouble (-q) = -roundDouble q := by
  unfold roundDouble
  rw [doubleExponent_neg, neg_div, roundHalfEven_neg]
  push_cast
  ring

theorem roundDouble_zero : roundDouble 0 = 0 := by
  unfold roundDouble
  rw [zero_div]
  have := roundHalfEven_intCast 0
  simp only [Int.cast_zero] at this
  rw [this]
  simp

theorem log_two_lt (q : ℚ) (e : ℤ) (hq : 0 < q) (h : q < 2 ^ e) : Int.log 2 q < e := by
  have := (Int.lt_zpow_iff_log_lt (R := ℚ) (b := 2) (by norm_num) hq (x := e)).mp
    (by simpa using h)
  exact this

theorem log_two_ge (q : ℚ) (e : ℤ) (hq : 0 < q) (h : 2 ^ e ≤ q) : e ≤ Int.log 2 q := by
  have := (Int.zpow_le_iff_le_log (R := ℚ) (b := 2) (by norm_num) hq (x := e)).mp
    (by simpa using h)
  exact this

theorem two_zpow_log_le (q : ℚ) (hq : 0 < q) : (2 : ℚ) ^ Int.log 2 q ≤ q := by
  simpa using Int.zpow_log_le_self (R := ℚ) (b := 2) (by norm_num) hq

theorem lt_two_zpow_log (q : ℚ) : q < (2 : ℚ) ^ (Int.log 2 q + 1) := by
  simpa using Int.lt_zpow_succ_log_self (R := ℚ) (b := 2) (by norm_num) q

theorem doubleExponent_ge (q : ℚ) : -1022 ≤ doubleExponent q := le_max_right _ _

theorem doubleExponent_eq (q : ℚ) (e : ℤ) (hq : q ≠ 0) (he : -1022 ≤ e)
    (hlo : 2 ^ e ≤ |q| ∨ e = -1022) (hhi : |q| < 2 ^ (e + 1)) : doubleExponent q = e := by
  have hpos : 0 < |q| := abs_pos.mpr hq
  have h1 : Int.log 2 |q| < e + 1 := log_two_lt _ _ hpos hhi
  unfold doubleExponent
  rcases hlo with hlo | hlo
  · have h2 := log_two_ge _ _ hpos hlo
    rw [max_eq_left (by omega)]
    omega
  · rcases le_total (Int.log 2 |q|) (-1022) with h | h
    · rw [max_eq_right h, hlo]
    · rw [max_eq_left h]
      omega

theorem abs_lt_two_zpow (q : ℚ) : |q| < 2 ^ (doubleExponent q + 1) := by
  refine lt_of_lt_of_le (lt_two_zpow_log |q|) ?_
  exact zpow_le_zpow_right₀ (by norm_num) (by unfold doubleExponent; have := le_max_left (Int.log 2 |q|) (-1022); omega)

theorem two_zpow_le_abs (q : ℚ) (hq : q ≠ 0) (h : -1022 < doubleExponent q) :
    2 ^ doubleExponent q ≤ |q| := by
  have hpos : 0 < |q| := abs_pos.mpr hq
  have : doubleExponent q = Int.log 2 |q| := by
    unfold doubleExponent at h ⊢
    rcases le_total (Int.log 2 |q|) (-1022) with h1 | h1
    · rw [max_eq_right h1] at h
      omega
    · exact max_eq_left h1
  rw [this]
  exact two_zpow_log_le _ hpos

theorem roundDouble_of_exponent (q : ℚ) (e n : ℤ) (he : doubleExponent q = e)
    (hn : roundHalfEven (q / 2 ^ (e - 52)) = n) : roundDouble q = n * 2 ^ (e - 52) := by
  unfold roundDouble
  rw [he, hn]

/-- Evaluation of `roundDouble` away from a tie. -/
theorem roundDouble_near (q : ℚ) (e n : ℤ) (hq : 0 < q) (he : -1022 ≤ e)
    (hlo : 2 ^ e ≤ q ∨ e = -1022) (hhi : q < 2 ^ (e + 1))
    (h1 : ((n : ℚ) - 1 / 2) * 2 ^ (e - 52) < q) (h2 : q < ((n : ℚ) + 1 / 2) * 2 ^ (e - 52)) :
    roundDouble q = n * 2 ^ (e - 52) := by
  have hu : (0 : ℚ) < 2 ^ (e - 52) := by positivity
  apply roundDouble_of_exponent
  · apply doubleExponent_eq q e hq.ne' he
    · rw [abs_of_pos hq]
      exact hlo
    · rw [abs_of_pos hq]
      exact hhi
  · apply roundHalfEven_near
    rw [abs_lt]
    constructor
    · rw [lt_sub_iff_add_lt, lt_div_iff₀ hu]
      linarith
    · rw [sub_lt_iff_lt_add, div_lt_iff₀ hu]
      linarith

/-- Evaluation of `roundDouble` at a tie. -/
theorem roundDouble_tie (q : ℚ) (e n : ℤ) (hq : 0 < q) (he : -1022 ≤ e)
    (hlo : 2 ^ e ≤ q ∨ e = -1022) (hhi : q < 2 ^ (e + 1))
    (h : q = ((n : ℚ) + 1 / 2) * 2 ^ (e - 52)) :
    roundDouble q = (if n % 2 = 0 then n else n + 1 : ℤ) * 2 ^ (e - 52) := by
  have hu : (0 : ℚ) < 2 ^ (e - 52) := by positivity
  apply roundDouble_of_exponent
  · apply doubleExponent_eq q e hq.ne' he
    · rw [abs_of_pos hq]
      exact hlo
    · rw [abs_of_pos hq]
      exact hhi
  · have : q / 2 ^ (e - 52) = (n : ℚ) + 1 / 2 := by
      rw [h, mul_div_assoc, div_self hu.ne', mul_one]
    rw [this]
    split
    · rename_i h0
      exact roundHalfEven_tie_even n h0
    · rename_i h0
      exact roundHalfEven_tie_odd n (by omega)

/-- Values `m * 2 ^ k` with `|m| < 2 ^ 53` and `k >= -1074` are doubles. -/
theorem roundDouble_exact (m k : ℤ) (hm : |m| < 2 ^ 53) (hk : -1074 ≤ k) :
    roundDouble ((m : ℚ) * 2 ^ k) = (m : ℚ) * 2 ^ k := by
  by_cases hm0 : m = 0
  · subst hm0
    simp [roundDouble_zero]
  have hq : (m : ℚ) * 2 ^ k ≠ 0 := by
    apply mul_ne_zero
    · exact_mod_cast hm0
    · positivity
  have hk0 : (0 : ℚ) < 2 ^ k := by positivity
  have habs : |(m : ℚ) * 2 ^ k| = |(m : ℚ)| * 2 ^ k := by
    rw [abs_mul, abs_of_pos hk0]
  have hmq : |(m : ℚ)| < 2 ^ (53 : ℤ) := by
    have : ((|m| : ℤ) : ℚ) < ((2 ^ 53 : ℤ) : ℚ) := by exact_mod_cast hm
    rw [Int.cast_abs] at this
    rw [show (53 : ℤ) = ((53 : ℕ) : ℤ) by norm_num, zpow_natCast]
    exact_mod_cast this
  have hlt : |(m : ℚ) * 2 ^ k| < 2 ^ (k + 53) := by
    rw [habs, zpow_add₀ (by norm_num : (2 : ℚ) ≠ 0), mul_comm]
    exact mul_lt_mul_of_pos_left hmq hk0
  have hlog : Int.log 2 |(m : ℚ) * 2 ^ k| < k + 53 := log_two_lt _ _ (abs_pos.mpr hq) hlt
  have hexp : doubleExponent ((m : ℚ) * 2 ^ k) ≤ k + 52 := by
    unfold doubleExponent
    exact max_le (by omega) (by omega)
  obtain ⟨d, hd⟩ : ∃ d : ℕ, (d : ℤ) = k + 52 - doubleExponent ((m : ℚ) * 2 ^ k) :=
    ⟨(k + 52 - doubleExponent ((m : ℚ) * 2 ^ k)).toNat, Int.toNat_of_nonneg (by omega)⟩
  have hk2 : k = (doubleExponent ((m : ℚ) * 2 ^ k) - 52) + d := by omega
  have hdiv : (m : ℚ) * 2 ^ k / 2 ^ (doubleExponent ((m : ℚ) * 2 ^ k) - 52)
      = ((m * 2 ^ d : ℤ) : ℚ) := by
    have hu : (2 : ℚ) ^ (doubleExponent ((m : ℚ) * 2 ^ k) - 52) ≠ 0 := by positivity
    rw [div_eq_iff hu]
    conv_lhs => rw [hk2]
    rw [zpow_add₀ (by norm_num : (2 : ℚ) ≠ 0), zpow_natCast]
    push_cast
    ring
  unfold roundDouble
  rw [hdiv, roundHalfEven_intCast]
  conv_rhs => rw [hk2]
  rw [zpow_add₀ (by norm_num : (2 : ℚ) ≠ 0), zpow_natCast]
  push_cast
  ring

/-- Values of magnitude at most `2 ^ (-1075)` underflow to zero. -/
theorem roundDouble_underflow (q : ℚ) (h : |q| ≤ 2 ^ (-1075 : ℤ)) : roundDouble q = 0 := by
  by_cases hq0 : q = 0
  · rw [hq0, roundDouble_zero]
  have key : ∀ p : ℚ, 0 < p → p ≤ 2 ^ (-1075 : ℤ) → roundDouble p = 0 := by
    intro p hp hple
    have hlt : p < 2 ^ (-1022 + 1 : ℤ) :=
      lt_of_le_of_lt hple (zpow_lt_zpow_right₀ (by norm_num) (by norm_num))
    have hexp : doubleExponent p = -1022 :=
      doubleExponent_eq p (-1022) hp.ne' (le_refl _) (Or.inr rfl) (by rwa [abs_of_pos hp])
    have hu : (0 : ℚ) < 2 ^ (-1022 - 52 : ℤ) := by positivity
    have h2 : (2 : ℚ) ^ (-1075 : ℤ) = 1 / 2 * 2 ^ (-1022 - 52 : ℤ) := by
      rw [show (-1075 : ℤ) = (-1022 - 52) + (-1) by norm_num,
        zpow_add₀ (by norm_num : (2 : ℚ) ≠ 0)]
      simp
      ring
    rcases lt_or_eq_of_le hple with hl | heq
    · rw [roundDouble_of_exponent p (-1022) 0 hexp]
      · simp
      · apply roundHalfEven_near
        rw [abs_lt]
        constructor
        · have : 0 < p / 2 ^ (-1022 - 52 : ℤ) := div_pos hp hu
          simp only [Int.cast_zero, sub_zero]
          linarith
        · simp only [Int.cast_zero, sub_zero]
          rw [div_lt_iff₀ hu, ← h2]
          exact hl
    · rw [roundDouble_of_exponent p (-1022) 0 hexp]
      · simp
      · have : p / 2 ^ (-1022 - 52 : ℤ) = ((0 : ℤ) : ℚ) + 1 / 2 := by
          rw [heq, h2, mul_div_assoc, div_self hu.ne', mul_one]
          simp
        rw [this]
        exact roundHalfEven_tie_even 0 (by decide)
  rcases lt_or_gt_of_ne hq0 with hneg | hpos
  · have := key (-q) (by linarith) (by rwa [abs_of_neg hneg] at h)
    rw [roundDouble_neg] at this
    linarith
  · exact key q hpos (by rwa [abs_of_pos hpos] at h)

theorem two_zpow_succ (e : ℤ) : (2 : ℚ) ^ (e + 1) = 2 ^ (53 : ℕ) * 2 ^ (e - 52) := by
  rw [← zpow_natCast, ← zpow_add₀ (by norm_num : (2 : ℚ) ≠ 0)]
  congr 1
  push_cast
  ring

theorem two_zpow_self (e : ℤ) : (2 : ℚ) ^ e = 2 ^ (52 : ℕ) * 2 ^ (e - 52) := by
  rw [← zpow_natCast, ← zpow_add₀ (by norm_num : (2 : ℚ) ≠ 0)]
  congr 1
  push_cast
  ring

theorem roundHalfEven_scaled_le (q : ℚ) :
    roundHalfEven (q / 2 ^ (doubleExponent q - 52)) ≤ 2 ^ 53 := by
  have hu : (0 : ℚ) < 2 ^ (doubleExponent q - 52) := by positivity
  have h1 : q / 2 ^ (doubleExponent q - 52) ≤ ((2 ^ 53 : ℤ) : ℚ) := by
    rw [div_le_iff₀ hu, Int.cast_pow, Int.cast_ofNat, ← two_zpow_succ]
    exact le_trans (le_abs_self q) (abs_lt_two_zpow q).le
  have := roundHalfEven_mono _ _ h1
  rwa [roundHalfEven_intCast] at this

theorem roundHalfEven_scaled_ge (q : ℚ) :
    -2 ^ 53 ≤ roundHalfEven (q / 2 ^ (doubleExponent q - 52)) := by
  have hu : (0 : ℚ) < 2 ^ (doubleExponent q - 52) := by positivity
  have h1 : ((-2 ^ 53 : ℤ) : ℚ) ≤ q / 2 ^ (doubleExponent q - 52) := by
    rw [le_div_iff₀ hu, Int.cast_neg, Int.cast_pow, Int.cast_ofNat, neg_mul, ← two_zpow_succ]
    have := (abs_lt_two_zpow q).le
    linarith [neg_abs_le q]
  have := roundHalfEven_mono _ _ h1
  rwa [roundHalfEven_intCast] at this

/-- Rounding a double again changes nothing. -/
theorem roundDouble_idem (q : ℚ) : roundDouble (roundDouble q) = roundDouble q := by
  have hge := doubleExponent_ge q
  have h1 := roundHalfEven_scaled_le q
  have h2 := roundHalfEven_scaled_ge q
  have hdef : roundDouble q
      = (roundHalfEven (q / 2 ^ (doubleExponent q - 52)) : ℚ) * 2 ^ (doubleExponent q - 52) := rfl
  rw [hdef]
  generalize roundHalfEven (q / 2 ^ (doubleExponent q - 52)) = n at h1 h2
  generalize doubleExponent q = e at hge
  by_cases hlt : |n| < 2 ^ 53
  · exact roundDouble_exact n (e - 52) hlt (by omega)
  · have hn : n = 2 * (n / 2) := by
      have : |n| = 2 ^ 53 := le_antisymm (abs_le.mpr ⟨h2, h1⟩) (not_lt.mp hlt)
      rcases abs_eq (by norm_num : (0 : ℤ) ≤ 2 ^ 53) |>.mp this with h | h <;> rw [h] <;>
        norm_num
    have hhalf : |n / 2| < 2 ^ 53 := by
      rw [abs_lt]
      constructor <;> omega
    have hre : (n : ℚ) * 2 ^ (e - 52) = ((n / 2 : ℤ) : ℚ) * 2 ^ (e - 52 + 1) := by
      rw [zpow_add₀ (by norm_num : (2 : ℚ) ≠ 0), zpow_one]
      conv_lhs => rw [hn]
      push_cast
      ring
    rw [hre]
    exact roundDouble_exact (n / 2) (e - 52 + 1) hhalf (by omega)

theorem roundDouble_nonneg (q : ℚ) (hq : 0 ≤ q) : 0 ≤ roundDouble q := by
  have hu : (0 : ℚ) < 2 ^ (doubleExponent q - 52) := by positivity
  have h1 : ((0 : ℤ) : ℚ) ≤ q / 2 ^ (doubleExponent q - 52) := by
    simpa using div_nonneg hq hu.le
  have := roundHalfEven_mono _ _ h1
  rw [roundHalfEven_intCast] at this
  unfold roundDouble
  exact mul_nonneg (by exact_mod_cast this) hu.le

theorem roundDouble_le_two_zpow (q : ℚ) : roundDouble q ≤ 2 ^ (doubleExponent q + 1) := by
  have hu : (0 : ℚ) < 2 ^ (doubleExponent q - 52) := by positivity
  rw [two_zpow_succ]
  unfold roundDouble
  apply mul_le_mul_of_nonneg_right _ hu.le
  exact_mod_cast roundHalfEven_scaled_le q

theorem two_zpow_le_roundDouble (q : ℚ) (hq : 0 < q) (h : -1022 < doubleExponent q) :
    2 ^ doubleExponent q ≤ roundDouble q := by
  have hu : (0 : ℚ) < 2 ^ (doubleExponent q - 52) := by positivity
  have hle := two_zpow_le_abs q hq.ne' h
  rw [abs_of_pos hq] at hle
  have h1 : ((2 ^ 52 : ℤ) : ℚ) ≤ q / 2 ^ (doubleExponent q - 52) := by
    rw [le_div_iff₀ hu, Int.cast_pow, Int.cast_ofNat, ← two_zpow_self]
    exact hle
  have := roundHalfEven_mono _ _ h1
  rw [roundHalfEven_intCast] at this
  conv_lhs => rw [two_zpow_self]
  unfold roundDouble
  apply mul_le_mul_of_nonneg_right _ hu.le
  exact_mod_cast this

theorem doubleExponent_mono (a b : ℚ) (ha : 0 < a) (hab : a ≤ b) :
    doubleExponent a ≤ doubleExponent b := by
  unfold doubleExponent
  rw [abs_of_pos ha, abs_of_pos (lt_of_lt_of_le ha hab)]
  exact max_le_max (Int.log_mono_right ha hab) (le_refl _)

theorem roundDouble_mono_pos (a b : ℚ) (ha : 0 < a) (hab : a ≤ b) :
    roundDouble a ≤ roundDouble b := by
  have hb : 0 < b := lt_of_lt_of_le ha hab
  rcases lt_or_eq_of_le (doubleExponent_mono a b ha hab) with hlt | heq
  · calc roundDouble a ≤ 2 ^ (doubleExponent a + 1) := roundDouble_le_two_zpow a
      _ ≤ 2 ^ doubleExponent b := zpow_le_zpow_right₀ (by norm_num) (by omega)
      _ ≤ roundDouble b :=
        two_zpow_le_roundDouble b hb (lt_of_le_of_lt (doubleExponent_ge a) hlt)
  · have hu : (0 : ℚ) < 2 ^ (doubleExponent b - 52) := by positivity
    unfold roundDouble
    rw [heq]
    apply mul_le_mul_of_nonneg_right _ hu.le
    exact_mod_cast roundHalfEven_mono _ _ (div_le_div_of_nonneg_right hab hu.le)

/-- Rounding is monotone. -/
theorem roundDouble_mono (a b : ℚ) (hab : a ≤ b) : roundDouble a ≤ roundDouble b := by
  rcases lt_trichotomy a 0 with ha | ha | ha
  · rcases lt_or_le b 0 with hb | hb
    · have := roundDouble_mono_pos (-b) (-a) (by linarith) (by linarith)
      rw [roundDouble_neg, roundDouble_neg] at this
      linarith
    · have h1 := roundDouble_nonneg (-a) (by linarith)
      rw [roundDouble_neg] at h1
      have h2 := roundDouble_nonneg b hb
      linarith
  · rw [ha, roundDouble_zero]
    exact roundDouble_nonneg b (by linarith)
  · exact roundDouble_mono_pos a b ha hab

/-- Evaluation of `roundDouble` at a double `m * 2 ^ k`. -/
theorem roundDouble_eval_exact (p : ℚ) (m k : ℤ)
    (h : |m| < 2 ^ 53 ∧ -1074 ≤ k ∧ p = (m : ℚ) * 2 ^ k) : roundDouble p = p := by
  obtain ⟨h1, h2, h3⟩ := h
  rw [h3]
  exact roundDouble_exact m k h1 h2

/-- Evaluation of `roundDouble` at a positive normal number that is nearer to the double
`n * 2 ^ (e - 52)` than to any other. -/
theorem roundDouble_eval_near (p q : ℚ) (e n : ℤ)
    (h : 0 < p ∧ -1022 ≤ e ∧ 2 ^ e ≤ p ∧ p < 2 ^ (e + 1) ∧
      ((n : ℚ) - 1 / 2) * 2 ^ (e - 52) < p ∧ p < ((n : ℚ) + 1 / 2) * 2 ^ (e - 52) ∧
      q = (n : ℚ) * 2 ^ (e - 52)) : roundDouble p = q := by
  obtain ⟨h1, h2, h3, h4, h5, h6, h7⟩ := h
  rw [h7]
  exact roundDouble_near p e n h1 h2 (Or.inl h3) h4 h5 h6

/-- Evaluation of `roundDouble` at a positive normal number half way between the doubles
`n * 2 ^ (e - 52)` and `(n + 1) * 2 ^ (e - 52)`: the result `r * 2 ^ (e - 52)` is the one
with `r` even. -/
theorem roundDouble_eval_tie (p q : ℚ) (e n r : ℤ)
    (h : 0 < p ∧ -1022 ≤ e ∧ 2 ^ e ≤ p ∧ p < 2 ^ (e + 1) ∧
      p = ((n : ℚ) + 1 / 2) * 2 ^ (e - 52) ∧ r % 2 = 0 ∧ (r = n ∨ r = n + 1) ∧
      q = (r : ℚ) * 2 ^ (e - 52)) : roundDouble p = q := by
  obtain ⟨h1, h2, h3, h4, h5, h6, h7, h8⟩ := h
  rw [h8, roundDouble_tie p e n h1 h2 (Or.inl h3) h4 h5]
  rcases h7 with h7 | h7
  · rw [if_pos (by rw [← h7]; exact h6), h7]
  · rw [if_neg (by omega), h7]

/-! ## Theory of `RandomLinear` -/

namespace trajectory_generators

theorem ieee_round (env : Env) : env.ieee.round = roundDouble := rfl

theorem exact_round (env : Env) (q : ℚ) : env.exact.round q = q := rfl

/-- The rounding of IEEE 754 binary64 has the properties collected in `RoundingLaws`. -/
theorem ieee_laws (env : Env) : env.ieee.RoundingLaws :=
  ⟨roundDouble_zero, roundDouble_mono, roundDouble_idem⟩

/-- Exact arithmetic has the properties collected in `RoundingLaws`. -/
theorem exact_laws (env : Env) (hexact : ∀ q, env.round q = q) : env.RoundingLaws :=
  ⟨hexact 0, fun a b hab => by rw [hexact a, hexact b]; exact hab,
    fun q => by simp only [hexact]⟩

namespace RandomLinear

theorem setTrajectory_children (s : TrajectorySegment) (t : List TrajectoryPoint) :
    (s.setTrajectory t).children = s.children := by
  cases s; rfl

theorem setTrajectory_visited (s : TrajectorySegment) (t : List TrajectoryPoint) :
    (s.setTrajectory t).tg_visited = s.tg_visited := by
  cases s; rfl

theorem setTrajectory_trajectory (s : TrajectorySegment) (t : List TrajectoryPoint) :
    (s.setTrajectory t).trajectory = t := by
  cases s; rfl

theorem nextVelocity_exact (cfg : RandomLinear) (env : Env) (hexact : ∀ q, env.round q = q)
    (decel x v : ℚ) :
    nextVelocity cfg env decel x v =
      if x < decel then min (v + cfg.p_a_max_ / cfg.p_sampling_rate_) cfg.p_v_max_
      else v - cfg.p_a_max_ / cfg.p_sampling_rate_ := by
  simp only [nextVelocity, hexact]

theorem tickStep_exact (cfg : RandomLinear) (env : Env) (hexact : ∀ q, env.round q = q)
    (decel x v t : ℚ) :
    tickStep cfg env decel (x, v, t) =
      (x + nextVelocity cfg env decel x v / cfg.p_sampling_rate_,
        nextVelocity cfg env decel x v, t + 1 / cfg.p_sampling_rate_) := by
  simp only [tickStep, hexact]

theorem buildLoop_neg (cfg : RandomLinear) (env : Env) (orc : Oracle) (start_pos direction : Vec3)
    (yaw decel : ℚ) (fuel : Nat) (x v t : ℚ) (seg : TrajectorySegment) (hv : ¬ 0 ≤ v) :
    buildLoop cfg env orc start_pos direction yaw decel fuel x v t seg = some (true, seg) := by
  rw [buildLoop.eq_def]
  simp only [hv, if_false]

theorem buildLoop_zero (cfg : RandomLinear) (env : Env) (orc : Oracle) (start_pos direction : Vec3)
    (yaw decel : ℚ) (x v t : ℚ) (seg : TrajectorySegment) (hv : 0 ≤ v) :
    buildLoop cfg env orc start_pos direction yaw decel 0 x v t seg = none := by
  rw [buildLoop.eq_def]
  simp only [hv, if_true]

/-- One pass through the loop body of `buildTrajectory`: the tick computes the values
`tickStep` of `(x_curr, v_curr, t_curr)`, asks the oracle about the position at the new
`x_curr`, and either fails or appends the waypoint and goes on. -/
theorem buildLoop_succ (cfg : RandomLinear) (env : Env) (orc : Oracle) (start_pos direction : Vec3)
    (yaw decel : ℚ) (fuel : Nat) (x v t : ℚ) (seg : TrajectorySegment) (hv : 0 ≤ v) :
    buildLoop cfg env orc start_pos direction yaw decel (fuel + 1) x v t seg =
      if !orc (positionAt env start_pos direction (tickStep cfg env decel (x, v, t)).1) then
        some (false, seg.setTrajectory [])
      else
        buildLoop cfg env orc start_pos direction yaw decel fuel
          (tickStep cfg env decel (x, v, t)).1 (tickStep cfg env decel (x, v, t)).2.1
          (tickStep cfg env decel (x, v, t)).2.2
          (seg.setTrajectory (seg.trajectory ++
            [waypointOf env start_pos direction yaw (tickStep cfg env decel (x, v, t))])) := by
  rw [buildLoop.eq_def]
  simp only [hv, if_true]
  rfl

/-- What the loop of `buildTrajectory` does to the segment when it returns. -/
theorem buildLoop_result (cfg : RandomLinear) (env : Env) (orc : Oracle) (start_pos direction : Vec3)
    (yaw decel : ℚ) :
    ∀ (fuel : Nat) (x v t : ℚ) (seg r : TrajectorySegment) (flag : Bool),
      buildLoop cfg env orc start_pos direction yaw decel fuel x v t seg = some (flag, r) →
      r.children = seg.children ∧ r.tg_visited = seg.tg_visited ∧
      (flag = false → r.trajectory = []) ∧
      (flag = true → ∃ added, r.trajectory = seg.trajectory ++ added ∧
        (∀ p ∈ added, orc p.position_W = true) ∧ (0 ≤ v → added ≠ [])) := by
  intro fuel
  induction fuel with
  | zero =>
    intro x v t seg r flag h
    by_cases hv : 0 ≤ v
    · rw [buildLoop_zero _ _ _ _ _ _ _ _ _ _ _ hv] at h
      cases h
    · rw [buildLoop_neg _ _ _ _ _ _ _ _ _ _ _ _ hv] at h
      simp only [Option.some.injEq, Prod.mk.injEq] at h
      obtain ⟨h1, h2⟩ := h
      subst h1 h2
      exact ⟨rfl, rfl, by simp, fun _ => ⟨[], by simp, by simp, fun h0 => absurd h0 hv⟩⟩
  | succ fuel ih =>
    intro x v t seg r flag h
    by_cases hv : 0 ≤ v
    · rw [buildLoop_succ _ _ _ _ _ _ _ _ _ _ _ _ hv] at h
      split at h
      · simp only [Option.some.injEq, Prod.mk.injEq] at h
        obtain ⟨h1, h2⟩ := h
        subst h1 h2
        exact ⟨setTrajectory_children _ _, setTrajectory_visited _ _,
          fun _ => setTrajectory_trajectory _ _, by simp⟩
      · rename_i horc
        obtain ⟨hc, hvis, hf, ht⟩ := ih _ _ _ _ _ _ h
        rw [setTrajectory_children] at hc
        rw [setTrajectory_visited] at hvis
        refine ⟨hc, hvis, hf, ?_⟩
        intro hflag
        obtain ⟨added, hadd, hall, _⟩ := ht hflag
        rw [setTrajectory_trajectory, List.append_assoc] at hadd
        refine ⟨_, hadd, ?_, fun _ => by simp⟩
        intro p hp
        rcases List.mem_append.mp hp with hp | hp
        · rw [List.mem_singleton] at hp
          subst hp
          simpa [waypointOf] using horc
        · exact hall p hp
    · rw [buildLoop_neg _ _ _ _ _ _ _ _ _ _ _ _ hv] at h
      simp only [Option.some.injEq, Prod.mk.injEq] at h
      obtain ⟨h1, h2⟩ := h
      subst h1 h2
      exact ⟨rfl, rfl, by simp, fun _ => ⟨[], by simp, by simp, fun h0 => absurd h0 hv⟩⟩

/-- With an oracle that is true everywhere `buildTrajectory` cannot fail. -/
theorem buildLoop_true (cfg : RandomLinear) (env : Env) (orc : Oracle) (start_pos direction : Vec3)
    (yaw decel : ℚ) (horc : ∀ p, orc p = true) :
    ∀ (fuel : Nat) (x v t : ℚ) (seg r : TrajectorySegment) (flag : Bool),
      buildLoop cfg env orc start_pos direction yaw decel fuel x v t seg = some (flag, r) →
      flag = true := by
  intro fuel
  induction fuel with
  | zero =>
    intro x v t seg r flag h
    by_cases hv : 0 ≤ v
    · rw [buildLoop_zero _ _ _ _ _ _ _ _ _ _ _ hv] at h
      cases h
    · rw [buildLoop_neg _ _ _ _ _ _ _ _ _ _ _ _ hv] at h
      simp only [Option.some.injEq, Prod.mk.injEq] at h
      exact h.1.symm
  | succ fuel ih =>
    intro x v t seg r flag h
    by_cases hv : 0 ≤ v
    · rw [buildLoop_succ _ _ _ _ _ _ _ _ _ _ _ _ hv] at h
      simp only [horc, Bool.not_true, Bool.false_eq_true, if_false] at h
      exact ih _ _ _ _ _ _ h
    · rw [buildLoop_neg _ _ _ _ _ _ _ _ _ _ _ _ hv] at h
      simp only [Option.some.injEq, Prod.mk.injEq] at h
      exact h.1.symm

/-- Braking phase in exact arithmetic: once the deceleration point is passed the loop is
left after at most `n` ticks if the velocity is below `n` steps. -/
theorem buildLoop_brake (cfg : RandomLinear) (env : Env) (orc : Oracle) (start_pos direction : Vec3)
    (yaw decel : ℚ) (hexact : ∀ q, env.round q = q) (ha : 0 < cfg.p_a_max_)
    (hs : 0 < cfg.p_sampling_rate_) :
    ∀ (n fuel : Nat) (x v t : ℚ) (seg : TrajectorySegment),
      (0 ≤ v → decel ≤ x) → v < n * (cfg.p_a_max_ / cfg.p_sampling_rate_) → n ≤ fuel →
      ∃ r, buildLoop cfg env orc start_pos direction yaw decel fuel x v t seg = some r := by
  have hδ : 0 < cfg.p_a_max_ / cfg.p_sampling_rate_ := div_pos ha hs
  intro n
  induction n with
  | zero =>
    intro fuel x v t seg _ hv _
    have hneg : ¬ 0 ≤ v := by
      simp only [Nat.cast_zero, zero_mul] at hv
      exact not_le.mpr hv
    exact ⟨_, buildLoop_neg _ _ _ _ _ _ _ _ _ _ _ _ hneg⟩
  | succ n ih =>
    intro fuel x v t seg hx hv hfuel
    by_cases hv0 : 0 ≤ v
    · obtain ⟨f, rfl⟩ : ∃ f, fuel = f + 1 := ⟨fuel - 1, by omega⟩
      rw [buildLoop_succ _ _ _ _ _ _ _ _ _ _ _ _ hv0]
      split
      · exact ⟨_, rfl⟩
      · have hnext : nextVelocity cfg env decel x v
            = v - cfg.p_a_max_ / cfg.p_sampling_rate_ := by
          rw [nextVelocity_exact cfg env hexact]
          simp only [not_lt.mpr (hx hv0), if_false]
        simp only [tickStep_exact cfg env hexact, hnext]
        apply ih
        · intro h0
          have : 0 ≤ (v - cfg.p_a_max_ / cfg.p_sampling_rate_) / cfg.p_sampling_rate_ :=
            div_nonneg h0 hs.le
          linarith [hx hv0]
        · push_cast at hv
          linarith
        · omega
    · exact ⟨_, buildLoop_neg _ _ _ _ _ _ _ _ _ _ _ _ hv0⟩

/-- Acceleration phase followed by braking, in exact arithmetic: the loop is left after at
most `k + n` ticks if the deceleration point is at most `k` slowest steps away and `v_max`
is below `n` velocity steps. -/
theorem buildLoop_returns (cfg : RandomLinear) (env : Env) (orc : Oracle) (start_pos direction : Vec3)
    (yaw decel : ℚ) (hexact : ∀ q, env.round q = q) (hvm : 0 < cfg.p_v_max_)
    (ha : 0 < cfg.p_a_max_) (hs : 0 < cfg.p_sampling_rate_) (n : Nat)
    (hn : cfg.p_v_max_ < n * (cfg.p_a_max_ / cfg.p_sampling_rate_)) :
    ∀ (k fuel : Nat) (x v t : ℚ) (seg : TrajectorySegment),
      0 ≤ v → v ≤ cfg.p_v_max_ →
      decel - x ≤ k * (min (cfg.p_a_max_ / cfg.p_sampling_rate_) cfg.p_v_max_
        / cfg.p_sampling_rate_) →
      k + n ≤ fuel →
      ∃ r, buildLoop cfg env orc start_pos direction yaw decel fuel x v t seg = some r := by
  have hδ : 0 < cfg.p_a_max_ / cfg.p_sampling_rate_ := div_pos ha hs
  have hm : 0 < min (cfg.p_a_max_ / cfg.p_sampling_rate_) cfg.p_v_max_ := lt_min hδ hvm
  intro k
  induction k with
  | zero =>
    intro fuel x v t seg _ hv hx hfuel
    simp only [Nat.cast_zero, zero_mul] at hx
    exact buildLoop_brake cfg env orc start_pos direction yaw decel hexact ha hs n fuel x v t
      seg (fun _ => by linarith) (lt_of_le_of_lt hv hn) (by omega)
  | succ k ih =>
    intro fuel x v t seg hv0 hv hx hfuel
    by_cases hd : decel ≤ x
    · exact buildLoop_brake cfg env orc start_pos direction yaw decel hexact ha hs n fuel x v t
        seg (fun _ => hd) (lt_of_le_of_lt hv hn) (by omega)
    · obtain ⟨f, rfl⟩ : ∃ f, fuel = f + 1 := ⟨fuel - 1, by omega⟩
      rw [buildLoop_succ _ _ _ _ _ _ _ _ _ _ _ _ hv0]
      split
      · exact ⟨_, rfl⟩
      · have hnext : nextVelocity cfg env decel x v
            = min (v + cfg.p_a_max_ / cfg.p_sampling_rate_) cfg.p_v_max_ := by
          rw [nextVelocity_exact cfg env hexact]
          simp only [not_le.mp hd, if_true]
        have hlow : min (cfg.p_a_max_ / cfg.p_sampling_rate_) cfg.p_v_max_
            ≤ nextVelocity cfg env decel x v := by
          rw [hnext]
          exact min_le_min (by linarith) (le_refl _)
        have hup : nextVelocity cfg env decel x v ≤ cfg.p_v_max_ := by
          rw [hnext]
          exact min_le_right _ _
        simp only [tickStep_exact cfg env hexact]
        apply ih
        · exact le_trans hm.le hlow
        · exact hup
        · have hstep : min (cfg.p_a_max_ / cfg.p_sampling_rate_) cfg.p_v_max_
              / cfg.p_sampling_rate_
              ≤ nextVelocity cfg env decel x v / cfg.p_sampling_rate_ :=
            div_le_div_of_nonneg_right hlow hs.le
          push_cast at hx
          linarith
        · omega

/-- In exact arithmetic and for positive `v_max`, `a_max` and `sampling_rate`,
`buildTrajectory` returns within `ticksBound` ticks, whatever the oracle, the start,
direction and deceleration distance. -/
theorem buildTrajectory_returns (cfg : RandomLinear) (env : Env) (orc : Oracle)
    (start_pos direction : Vec3) (yaw decel : ℚ) (hexact : ∀ q, env.round q = q)
    (hvm : 0 < cfg.p_v_max_)
    (ha : 0 < cfg.p_a_max_) (hs : 0 < cfg.p_sampling_rate_) (fuel : Nat)
    (hfuel : ticksBound cfg decel ≤ fuel) (seg : TrajectorySegment) :
    ∃ r, buildTrajectory cfg env orc start_pos direction yaw decel fuel seg = some r := by
  have hδ : 0 < cfg.p_a_max_ / cfg.p_sampling_rate_ := div_pos ha hs
  have hm : 0 < min (cfg.p_a_max_ / cfg.p_sampling_rate_) cfg.p_v_max_ := lt_min hδ hvm
  unfold buildTrajectory
  refine buildLoop_returns cfg env orc start_pos direction yaw decel hexact hvm ha hs
    (⌊cfg.p_v_max_ / (cfg.p_a_max_ / cfg.p_sampling_rate_)⌋₊ + 1) ?_
    ⌈decel * cfg.p_sampling_rate_ / min (cfg.p_a_max_ / cfg.p_sampling_rate_) cfg.p_v_max_⌉₊
    fuel 0 0 0 seg (le_refl _) hvm.le ?_ hfuel
  · have h1 := Nat.lt_floor_add_one (cfg.p_v_max_ / (cfg.p_a_max_ / cfg.p_sampling_rate_))
    rw [div_lt_iff₀ hδ] at h1
    push_cast
    exact h1
  · have h1 := Nat.le_ceil
      (decel * cfg.p_sampling_rate_ / min (cfg.p_a_max_ / cfg.p_sampling_rate_) cfg.p_v_max_)
    rw [div_le_iff₀ hm] at h1
    rw [sub_zero, mul_div_assoc', le_div_iff₀ hs]
    exact h1

theorem expandLoop_eq (cfg : RandomLinear) (env : Env) (orc : Oracle) (fuel : Nat)
    (start_pos : Vec3) (st : ExpandState) :
    expandLoop cfg env orc fuel start_pos st =
      if st.valid_segments < cfg.p_n_segments_ ∧ st.counter < cfg.p_max_tries_ then
        match expandStep cfg env orc fuel start_pos st with
        | none => none
        | some st1 => expandLoop cfg env orc fuel start_pos st1
      else some st := by
  rw [expandLoop]
  split
  · unfold expandStep
    cases st.target.children[st.new_segment]? with
    | none => rfl
    | some seg =>
      simp only
      cases buildTrajectory cfg env orc start_pos (sampleTarget cfg env st.calls).1.direction
        (sampleTarget cfg env st.calls).1.yaw
        (sampleTarget cfg env st.calls).1.decelleration_distance fuel seg with
      | none => rfl
      | some p =>
        obtain ⟨flag, seg1⟩ := p
        cases flag <;> rfl
  · rfl

theorem set_concat_length {α : Type} (l : List α) (a b : α) :
    (l ++ [a]).set l.length b = l ++ [b] := by
  induction l with
  | nil => rfl
  | cons x l ih => simp [List.set, ih]

theorem segment_eq_fresh (s : TrajectorySegment) (h1 : s.trajectory = [])
    (h2 : s.children = []) (h3 : s.tg_visited = false) : s = TrajectorySegment.fresh := by
  cases s
  simp only [TrajectorySegment.trajectory, TrajectorySegment.children,
    TrajectorySegment.tg_visited] at h1 h2 h3
  subst h1 h2 h3
  rfl

/-- One pass through the loop body keeps the invariant, counts one attempt and reads its
target from the next values of `rand()`; with an oracle that is true everywhere it accepts
a child. -/
theorem expandStep_inv (cfg : RandomLinear) (env : Env) (orc : Oracle) (fuel : Nat)
    (start_pos : Vec3) (traj : List TrajectoryPoint) (old : List TrajectorySegment)
    (out0 : List Nat) (st st1 : ExpandState)
    (hinv : LoopInv cfg env orc fuel start_pos traj old out0 st)
    (hcond : st.valid_segments < cfg.p_n_segments_ ∧ st.counter < cfg.p_max_tries_)
    (h : expandStep cfg env orc fuel start_pos st = some st1) :
    LoopInv cfg env orc fuel start_pos traj old out0 st1 ∧ st1.counter = st.counter + 1 ∧
      st1.calls = (sampleTarget cfg env st.calls).2 ∧
      ((∀ p, orc p = true) → st1.valid_segments = st.valid_segments + 1) := by
  obtain ⟨accepted, ht, hidx, hout, hvalid, hvc, hcm, hvn, hacc⟩ := hinv
  obtain ⟨target, outs, idx, valid, counter, calls⟩ := st
  simp only at ht hidx hout hvalid hvc hcm hvn hcond
  subst ht hidx hout
  have hget : (TrajectorySegment.mk traj (old ++ accepted ++ [TrajectorySegment.fresh])
      true).children[old.length + accepted.length]? = some TrajectorySegment.fresh := by
    simp only [TrajectorySegment.children]
    rw [← List.length_append]
    exact List.getElem?_concat_length _ _
  unfold expandStep at h
  simp only [hget] at h
  cases hb : buildTrajectory cfg env orc start_pos (sampleTarget cfg env calls).1.direction
      (sampleTarget cfg env calls).1.yaw (sampleTarget cfg env calls).1.decelleration_distance
      fuel TrajectorySegment.fresh with
  | none =>
    rw [hb] at h
    cases h
  | some p =>
    obtain ⟨flag, seg1⟩ := p
    rw [hb] at h
    have hres := buildLoop_result cfg env orc start_pos _ _ _ fuel 0 0 0 _ seg1 flag hb
    obtain ⟨hch, hvis, hfalse, htrue⟩ := hres
    cases flag with
    | false =>
      simp only [Option.some.injEq] at h
      subst h
      have hseg : seg1 = TrajectorySegment.fresh := segment_eq_fresh seg1 (hfalse rfl) hch hvis
      subst hseg
      refine ⟨⟨accepted, ?_, rfl, rfl, hvalid, by simp only; omega, ?_, hvn, hacc⟩, rfl, rfl, ?_⟩
      · simp only [TrajectorySegment.setChild]
        rw [← List.length_append, set_concat_length]
      · simp only
        have := hcond.2
        exact le_trans (by omega) (le_max_left _ _)
      · intro horc
        have := buildLoop_true cfg env orc start_pos _ _ _ horc fuel 0 0 0 _ _ _ hb
        cases this
    | true =>
      simp only [Option.some.injEq] at h
      subst h
      refine ⟨⟨accepted ++ [seg1], ?_, ?_, ?_, ?_, ?_, ?_, ?_, ?_⟩, rfl, rfl, fun _ => rfl⟩
      · simp only [TrajectorySegment.setChild, TrajectorySegment.spawnChild]
        rw [← List.length_append, set_concat_length]
        simp
      · simp only [TrajectorySegment.setChild, TrajectorySegment.spawnChild]
        rw [← List.length_append, set_concat_length]
        simp
      · simp only [List.length_append, List.length_singleton, List.append_assoc]
        rw [List.range'_1_concat]
      · simp only [List.length_append, List.length_singleton]
        push_cast
        omega
      · simp only
        omega
      · simp only
        have := hcond.2
        exact le_trans (by omega) (le_max_left _ _)
      · simp only
        have := hcond.1
        exact le_trans (by omega) (le_max_left _ _)
      · intro c hc
        rcases List.mem_append.mp hc with hc | hc
        · exact hacc c hc
        · rw [List.mem_singleton] at hc
          subst hc
          exact ⟨calls, hb⟩

/-- The `while` loop keeps the invariant; it is left only when its condition fails; and
with an oracle that is true everywhere every attempt is accepted. -/
theorem expandLoop_inv (cfg : RandomLinear) (env : Env) (orc : Oracle) (fuel : Nat)
    (start_pos : Vec3) (traj : List TrajectoryPoint) (old : List TrajectorySegment)
    (out0 : List Nat) :
    ∀ (n : Nat) (st st2 : ExpandState), (cfg.p_max_tries_ - st.counter).toNat ≤ n →
      LoopInv cfg env orc fuel start_pos traj old out0 st →
      expandLoop cfg env orc fuel start_pos st = some st2 →
      LoopInv cfg env orc fuel start_pos traj old out0 st2 ∧
        ¬ (st2.valid_segments < cfg.p_n_segments_ ∧ st2.counter < cfg.p_max_tries_) ∧
        ((∀ p, orc p = true) →
          st2.valid_segments - st2.counter = st.valid_segments - st.counter) := by
  intro n
  induction n with
  | zero =>
    intro st st2 hn hinv h
    have hcond : ¬ (st.valid_segments < cfg.p_n_segments_ ∧ st.counter < cfg.p_max_tries_) := by
      intro hc
      have := hc.2
      omega
    rw [expandLoop_eq, if_neg hcond] at h
    cases h
    exact ⟨hinv, hcond, fun _ => rfl⟩
  | succ n ih =>
    intro st st2 hn hinv h
    by_cases hcond : st.valid_segments < cfg.p_n_segments_ ∧ st.counter < cfg.p_max_tries_
    · rw [expandLoop_eq, if_pos hcond] at h
      cases hstep : expandStep cfg env orc fuel start_pos st with
      | none =>
        rw [hstep] at h
        cases h
      | some st1 =>
        rw [hstep] at h
        obtain ⟨hinv1, hcount, _, hall⟩ :=
          expandStep_inv cfg env orc fuel start_pos traj old out0 st st1 hinv hcond hstep
        obtain ⟨hinv2, hexit, hall2⟩ := ih st1 st2 (by omega) hinv1 h
        refine ⟨hinv2, hexit, fun horc => ?_⟩
        rw [hall2 horc, hall horc, hcount]
        ring
    · rw [expandLoop_eq, if_neg hcond] at h
      cases h
      exact ⟨hinv, hcond, fun _ => rfl⟩

/-- One pass through the loop body returns when the simulation of its attempt does. -/
theorem expandStep_returns_of (cfg : RandomLinear) (env : Env) (orc : Oracle) (fuel : Nat)
    (start_pos : Vec3) (traj : List TrajectoryPoint) (old : List TrajectorySegment)
    (out0 : List Nat) (st : ExpandState)
    (hinv : LoopInv cfg env orc fuel start_pos traj old out0 st)
    (hbuild : ∃ r, buildTrajectory cfg env orc start_pos
      (sampleTarget cfg env st.calls).1.direction (sampleTarget cfg env st.calls).1.yaw
      (sampleTarget cfg env st.calls).1.decelleration_distance fuel TrajectorySegment.fresh
        = some r) :
    ∃ st1, expandStep cfg env orc fuel start_pos st = some st1 := by
  obtain ⟨accepted, ht, hidx, _⟩ := hinv
  have hget : st.target.children[st.new_segment]? = some TrajectorySegment.fresh := by
    rw [ht, hidx]
    simp only [TrajectorySegment.children]
    rw [← List.length_append]
    exact List.getElem?_concat_length _ _
  obtain ⟨r, hr⟩ := hbuild
  obtain ⟨flag, seg1⟩ := r
  unfold expandStep
  simp only [hget, hr]
  cases flag <;> exact ⟨_, rfl⟩

theorem expandStep_returns (cfg : RandomLinear) (env : Env) (orc : Oracle) (fuel : Nat)
    (start_pos : Vec3) (traj : List TrajectoryPoint) (old : List TrajectorySegment)
    (out0 : List Nat) (st : ExpandState) (hexact : ∀ q, env.round q = q)
    (hvm : 0 < cfg.p_v_max_) (ha : 0 < cfg.p_a_max_) (hs : 0 < cfg.p_sampling_rate_)
    (hinv : LoopInv cfg env orc fuel start_pos traj old out0 st)
    (hfuel : ticksBound cfg (sampleTarget cfg env st.calls).1.decelleration_distance ≤ fuel) :
    ∃ st1, expandStep cfg env orc fuel start_pos st = some st1 :=
  expandStep_returns_of cfg env orc fuel start_pos traj old out0 st hinv
    (buildTrajectory_returns cfg env orc start_pos
      (sampleTarget cfg env st.calls).1.direction (sampleTarget cfg env st.calls).1.yaw
      (sampleTarget cfg env st.calls).1.decelleration_distance hexact hvm ha hs fuel hfuel
      TrajectorySegment.fresh)

/-- In exact arithmetic and for positive `v_max`, `a_max` and `sampling_rate` the `while`
loop returns when every attempt gets enough fuel. -/
theorem expandLoop_returns (cfg : RandomLinear) (env : Env) (orc : Oracle) (fuel : Nat)
    (start_pos : Vec3) (traj : List TrajectoryPoint) (old : List TrajectorySegment)
    (out0 : List Nat) (hexact : ∀ q, env.round q = q) (hvm : 0 < cfg.p_v_max_)
    (ha : 0 < cfg.p_a_max_) (hs : 0 < cfg.p_sampling_rate_) :
    ∀ (n : Nat) (st : ExpandState), (cfg.p_max_tries_ - st.counter).toNat ≤ n →
      LoopInv cfg env orc fuel start_pos traj old out0 st →
      fuelNeeded cfg env st.calls n ≤ fuel →
      ∃ st2, expandLoop cfg env orc fuel start_pos st = some st2 := by
  intro n
  induction n with
  | zero =>
    intro st hn _ _
    have hcond : ¬ (st.valid_segments < cfg.p_n_segments_ ∧ st.counter < cfg.p_max_tries_) := by
      intro hc
      have := hc.2
      omega
    rw [expandLoop_eq, if_neg hcond]
    exact ⟨_, rfl⟩
  | succ n ih =>
    intro st hn hinv hfuel
    by_cases hcond : st.valid_segments < cfg.p_n_segments_ ∧ st.counter < cfg.p_max_tries_
    · rw [expandLoop_eq, if_pos hcond]
      simp only [fuelNeeded] at hfuel
      obtain ⟨st1, hstep⟩ := expandStep_returns cfg env orc fuel start_pos traj old out0 st
        hexact hvm ha hs hinv (le_trans (le_max_left _ _) hfuel)
      obtain ⟨hinv1, hcount, hcalls, _⟩ :=
        expandStep_inv cfg env orc fuel start_pos traj old out0 st st1 hinv hcond hstep
      rw [hstep]
      apply ih st1 (by omega) hinv1
      rw [hcalls]
      exact le_trans (le_max_right _ _) hfuel
    · rw [expandLoop_eq, if_neg hcond]
      exact ⟨_, rfl⟩

/-- The `while` loop returns when the simulation of every attempt does. -/
theorem expandLoop_returns_of (cfg : RandomLinear) (env : Env) (orc : Oracle) (fuel : Nat)
    (start_pos : Vec3) (traj : List TrajectoryPoint) (old : List TrajectorySegment)
    (out0 : List Nat)
    (hbuild : ∀ calls, ∃ r, buildTrajectory cfg env orc start_pos
      (sampleTarget cfg env calls).1.direction (sampleTarget cfg env calls).1.yaw
      (sampleTarget cfg env calls).1.decelleration_distance fuel TrajectorySegment.fresh
        = some r) :
    ∀ (n : Nat) (st : ExpandState), (cfg.p_max_tries_ - st.counter).toNat ≤ n →
      LoopInv cfg env orc fuel start_pos traj old out0 st →
      ∃ st2, expandLoop cfg env orc fuel start_pos st = some st2 := by
  intro n
  induction n with
  | zero =>
    intro st hn _
    have hcond : ¬ (st.valid_segments < cfg.p_n_segments_ ∧ st.counter < cfg.p_max_tries_) := by
      intro hc
      have := hc.2
      omega
    rw [expandLoop_eq, if_neg hcond]
    exact ⟨_, rfl⟩
  | succ n ih =>
    intro st hn hinv
    by_cases hcond : st.valid_segments < cfg.p_n_segments_ ∧ st.counter < cfg.p_max_tries_
    · rw [expandLoop_eq, if_pos hcond]
      obtain ⟨st1, hstep⟩ := expandStep_returns_of cfg env orc fuel start_pos traj old out0 st
        hinv (hbuild st.calls)
      obtain ⟨hinv1, hcount, _, _⟩ :=
        expandStep_inv cfg env orc fuel start_pos traj old out0 st st1 hinv hcond hstep
      rw [hstep]
      exact ih st1 (by omega) hinv1
    · rw [expandLoop_eq, if_neg hcond]
      exact ⟨_, rfl⟩

theorem loopInv_init (cfg : RandomLinear) (env : Env) (orc : Oracle) (fuel : Nat)
    (start_pos : Vec3) (traj : List TrajectoryPoint) (old : List TrajectorySegment)
    (out0 : List Nat) :
    LoopInv cfg env orc fuel start_pos traj old out0
      ⟨.mk traj (old ++ [TrajectorySegment.fresh]) true, out0, old.length, 0, 0, 0⟩ :=
  ⟨[], by simp, by simp, by simp, by simp, le_refl _, le_max_right _ _, le_max_right _ _,
    fun c hc => by cases hc⟩

/-- What a returning call of `expandSegment` leaves behind. -/
theorem expandSegment_spec (cfg : RandomLinear) (env : Env) (orc : Oracle) (fuel : Nat)
    (target : TrajectorySegment) (out0 : List Nat) (res : ExpandResult)
    (h : expandSegment cfg env orc fuel target out0 = some res) :
    ∃ last accepted, target.trajectory.getLast? = some last ∧
      res.target = .mk target.trajectory (target.children ++ accepted) true ∧
      res.new_segments = out0 ++ List.range' target.children.length accepted.length ∧
      res.valid_segments = accepted.length ∧
      res.result = decide (0 < res.valid_segments) ∧
      (∀ c ∈ accepted, Accepted cfg env orc fuel last.position_W c) ∧
      res.valid_segments ≤ res.counter ∧
      res.counter ≤ max cfg.p_max_tries_ 0 ∧
      res.valid_segments ≤ max cfg.p_n_segments_ 0 ∧
      ¬ (res.valid_segments < cfg.p_n_segments_ ∧ res.counter < cfg.p_max_tries_) ∧
      ((∀ p, orc p = true) → res.valid_segments = res.counter) := by
  cases target with
  | mk traj old v =>
    unfold expandSegment at h
    simp only [TrajectorySegment.setVisited, TrajectorySegment.spawnChild,
      TrajectorySegment.trajectory] at h
    cases hl : traj.getLast? with
    | none =>
      rw [hl] at h
      cases h
    | some last =>
      rw [hl] at h
      simp only at h
      cases hloop : expandLoop cfg env orc fuel last.position_W
          ⟨.mk traj (old ++ [TrajectorySegment.fresh]) true, out0, old.length, 0, 0, 0⟩ with
      | none =>
        rw [hloop] at h
        cases h
      | some st =>
        rw [hloop] at h
        obtain ⟨hinv, hexit, hall⟩ := expandLoop_inv cfg env orc fuel last.position_W traj old
          out0 _ _ st (le_refl _) (loopInv_init cfg env orc fuel last.position_W traj old out0)
          hloop
        obtain ⟨accepted, ht, _, hout, hvalid, hvc, hcm, hvn, hacc⟩ := hinv
        have hne : st.target.children.isEmpty = false := by
          rw [ht]
          simp [TrajectorySegment.children]
        simp only [hne, Bool.false_eq_true, if_false, Option.some.injEq] at h
        subst h
        refine ⟨last, accepted, hl, ?_, hout, hvalid, rfl, hacc, hvc, hcm, hvn, hexit, ?_⟩
        · rw [ht]
          simp only [TrajectorySegment.popChild, TrajectorySegment.trajectory,
            TrajectorySegment.children, List.dropLast_concat]
        · intro horc
          have := hall horc
          simp only at this ⊢
          omega

/-- In exact arithmetic, for positive `v_max`, `a_max` and `sampling_rate` and a target
with a non-empty trajectory, `expandSegment` returns as soon as every attempt gets enough
fuel. -/
theorem expandSegment_returns (cfg : RandomLinear) (env : Env) (orc : Oracle) (fuel : Nat)
    (target : TrajectorySegment) (out0 : List Nat) (hexact : ∀ q, env.round q = q)
    (hvm : 0 < cfg.p_v_max_)
    (ha : 0 < cfg.p_a_max_) (hs : 0 < cfg.p_sampling_rate_) (htraj : target.trajectory ≠ [])
    (hfuel : fuelNeeded cfg env 0 cfg.p_max_tries_.toNat ≤ fuel) :
    ∃ res, expandSegment cfg env orc fuel target out0 = some res := by
  cases target with
  | mk traj old v =>
    simp only [TrajectorySegment.trajectory] at htraj
    obtain ⟨last, hl⟩ : ∃ last, traj.getLast? = some last :=
      ⟨traj.getLast htraj, List.getLast?_eq_getLast _ htraj⟩
    obtain ⟨st, hloop⟩ := expandLoop_returns cfg env orc fuel last.position_W traj old out0
      hexact hvm ha hs _ ⟨.mk traj (old ++ [TrajectorySegment.fresh]) true, out0, old.length, 0, 0, 0⟩
      (by simp) (loopInv_init cfg env orc fuel last.position_W traj old out0) hfuel
    obtain ⟨hinv, _, _⟩ := expandLoop_inv cfg env orc fuel last.position_W traj old
      out0 _ _ st (le_refl _) (loopInv_init cfg env orc fuel last.position_W traj old out0)
      hloop
    obtain ⟨accepted, ht, _⟩ := hinv
    have hne : st.target.children.isEmpty = false := by
      rw [ht]
      simp [TrajectorySegment.children]
    unfold expandSegment
    simp only [TrajectorySegment.setVisited, TrajectorySegment.spawnChild,
      TrajectorySegment.trajectory, hl, hloop, hne]
    exact ⟨_, rfl⟩

/-- On a target with a non-empty trajectory `expandSegment` returns when the simulation of
every attempt does. -/
theorem expandSegment_returns_of (cfg : RandomLinear) (env : Env) (orc : Oracle) (fuel : Nat)
    (target : TrajectorySegment) (out0 : List Nat) (htraj : target.trajectory ≠ [])
    (hbuild : ∀ (start_pos : Vec3) (calls : Nat), ∃ r, buildTrajectory cfg env orc start_pos
      (sampleTarget cfg env calls).1.direction (sampleTarget cfg env calls).1.yaw
      (sampleTarget cfg env calls).1.decelleration_distance fuel TrajectorySegment.fresh
        = some r) :
    ∃ res, expandSegment cfg env orc fuel target out0 = some res := by
  cases target with
  | mk traj old v =>
    simp only [TrajectorySegment.trajectory] at htraj
    obtain ⟨last, hl⟩ : ∃ last, traj.getLast? = some last :=
      ⟨traj.getLast htraj, List.getLast?_eq_getLast _ htraj⟩
    obtain ⟨st, hloop⟩ := expandLoop_returns_of cfg env orc fuel last.position_W traj old out0
      (hbuild last.position_W) _
      ⟨.mk traj (old ++ [TrajectorySegment.fresh]) true, out0, old.length, 0, 0, 0⟩
      (le_refl _) (loopInv_init cfg env orc fuel last.position_W traj old out0)
    obtain ⟨hinv, _, _⟩ := expandLoop_inv cfg env orc fuel last.position_W traj old
      out0 _ _ st (le_refl _) (loopInv_init cfg env orc fuel last.position_W traj old out0)
      hloop
    obtain ⟨accepted, ht, _⟩ := hinv
    have hne : st.target.children.isEmpty = false := by
      rw [ht]
      simp [TrajectorySegment.children]
    unfold expandSegment
    simp only [TrajectorySegment.setVisited, TrajectorySegment.spawnChild,
      TrajectorySegment.trajectory, hl, hloop, hne]
    exact ⟨_, rfl⟩

/-- The numbers of the example are doubles. -/
theorem example_doubles :
    roundDouble 1 = 1 ∧ roundDouble 2 = 2 ∧ roundDouble 3 = 3 ∧ roundDouble 6 = 6 ∧
      roundDouble (1 / 2) = 1 / 2 ∧ roundDouble (3 / 2) = 3 / 2 ∧
      roundDouble 1000000000 = 1000000000 ∧ roundDouble 2000000000 = 2000000000 ∧
      roundDouble 3000000000 = 3000000000 :=
  ⟨roundDouble_eval_exact _ 1 0 (by norm_num), roundDouble_eval_exact _ 2 0 (by norm_num),
    roundDouble_eval_exact _ 3 0 (by norm_num), roundDouble_eval_exact _ 6 0 (by norm_num),
    roundDouble_eval_exact _ 1 (-1) (by norm_num), roundDouble_eval_exact _ 3 (-1) (by norm_num),
    roundDouble_eval_exact _ 1000000000 0 (by norm_num),
    roundDouble_eval_exact _ 2000000000 0 (by norm_num),
    roundDouble_eval_exact _ 3000000000 0 (by norm_num)⟩

theorem example_sample_first :
    sampleTarget exampleConfig exampleEnv 0 = (⟨⟨6, 1, 3 / 2⟩, 6, 1 / 2⟩, 3) := by
  obtain ⟨h1, h2, h3, h6, hh, h32, _, _, _⟩ := example_doubles
  norm_num [sampleTarget, exampleConfig, exampleEnv, roundDouble_zero, h1, h2, h3, h6, hh, h32]

theorem example_sample_second :
    sampleTarget exampleConfig exampleEnv 3 = (⟨⟨0, 1, 3 / 2⟩, 0, 1 / 2⟩, 6) := by
  obtain ⟨h1, h2, h3, h6, hh, h32, _, _, _⟩ := example_doubles
  norm_num [sampleTarget, exampleConfig, exampleEnv, roundDouble_zero, h1, h2, h3, h6, hh, h32]

theorem example_build_first :
    buildTrajectory exampleConfig exampleEnv halfSpace ⟨0, 0, 0⟩
      (sampleTarget exampleConfig exampleEnv 0).1.direction
      (sampleTarget exampleConfig exampleEnv 0).1.yaw
      (sampleTarget exampleConfig exampleEnv 0).1.decelleration_distance 3
      TrajectorySegment.fresh = some (false, TrajectorySegment.fresh) := by
  obtain ⟨h1, h2, h3, h6, hh, h32, _, _, _⟩ := example_doubles
  rw [example_sample_first]
  norm_num [buildTrajectory, buildLoop, exampleConfig, exampleEnv, halfSpace,
    TrajectorySegment.setTrajectory, TrajectorySegment.trajectory, TrajectorySegment.fresh,
    Vec3.add, Vec3.smul, Vec3.map, toInt64, roundDouble_zero, roundDouble_neg, h1, h2, h3, h6,
    hh, h32]

theorem example_build_second :
    buildTrajectory exampleConfig exampleEnv halfSpace ⟨0, 0, 0⟩
      (sampleTarget exampleConfig exampleEnv 3).1.direction
      (sampleTarget exampleConfig exampleEnv 3).1.yaw
      (sampleTarget exampleConfig exampleEnv 3).1.decelleration_distance 3
      TrajectorySegment.fresh = some (true, exampleChild) := by
  obtain ⟨h1, h2, h3, h6, hh, h32, hs1, hs2, hs3⟩ := example_doubles
  rw [example_sample_second]
  norm_num [buildTrajectory, buildLoop, exampleConfig, exampleEnv, halfSpace,
    TrajectorySegment.setTrajectory, TrajectorySegment.trajectory, TrajectorySegment.fresh,
    Vec3.add, Vec3.smul, Vec3.map, toInt64, exampleChild, roundDouble_zero, roundDouble_neg, h1,
    h2, h3, h6, hh, h32, hs1, hs2, hs3]

/-- The example call: the first attempt runs into the blocked half space, the second one is
accepted, and the loop stops because one segment was wanted. -/
theorem example_run :
    expandSegment exampleConfig exampleEnv halfSpace 3 exampleTarget [7]
      = some ⟨true, .mk [⟨⟨0, 0, 0⟩, 0, 0⟩] [.mk [⟨⟨-1, 0, 0⟩, 0, 0⟩] [] false, exampleChild] true,
          [7, 1], 1, 2⟩ := by
  have step1 : expandStep exampleConfig exampleEnv halfSpace 3 ⟨0, 0, 0⟩
      ⟨.mk [⟨⟨0, 0, 0⟩, 0, 0⟩] [.mk [⟨⟨-1, 0, 0⟩, 0, 0⟩] [] false, TrajectorySegment.fresh] true,
        [7], 1, 0, 0, 0⟩
      = some ⟨.mk [⟨⟨0, 0, 0⟩, 0, 0⟩] [.mk [⟨⟨-1, 0, 0⟩, 0, 0⟩] [] false, TrajectorySegment.fresh]
          true, [7], 1, 0, 1, 3⟩ := by
    simp [expandStep, example_build_first, TrajectorySegment.children,
      TrajectorySegment.setChild]
    simp [example_sample_first]
  have step2 : expandStep exampleConfig exampleEnv halfSpace 3 ⟨0, 0, 0⟩
      ⟨.mk [⟨⟨0, 0, 0⟩, 0, 0⟩] [.mk [⟨⟨-1, 0, 0⟩, 0, 0⟩] [] false, TrajectorySegment.fresh] true,
        [7], 1, 0, 1, 3⟩
      = some ⟨.mk [⟨⟨0, 0, 0⟩, 0, 0⟩]
          [.mk [⟨⟨-1, 0, 0⟩, 0, 0⟩] [] false, exampleChild, TrajectorySegment.fresh]
          true, [7, 1], 2, 1, 2, 6⟩ := by
    simp [expandStep, example_build_second, TrajectorySegment.children,
      TrajectorySegment.setChild, TrajectorySegment.spawnChild]
    simp [example_sample_second]
  unfold expandSegment
  simp only [exampleTarget, TrajectorySegment.setVisited, TrajectorySegment.spawnChild,
    TrajectorySegment.trajectory, List.getLast?, List.getLast, List.length_cons,
    List.length_nil, List.cons_append, List.nil_append]
  rw [expandLoop_eq, if_pos (by decide), step1]
  simp only
  rw [expandLoop_eq, if_pos (by decide), step2]
  simp only
  rw [expandLoop_eq, if_neg (by decide)]
  simp [TrajectorySegment.children, TrajectorySegment.popChild]

theorem trajectory_mk (t : List TrajectoryPoint) (cs : List TrajectorySegment) (v : Bool) :
    (TrajectorySegment.mk t cs v).trajectory = t := rfl

theorem children_mk (t : List TrajectoryPoint) (cs : List TrajectorySegment) (v : Bool) :
    (TrajectorySegment.mk t cs v).children = cs := rfl

theorem accepted_traversable (cfg : RandomLinear) (env : Env) (orc : Oracle) (fuel : Nat)
    (start_pos : Vec3) (c : TrajectorySegment) (h : Accepted cfg env orc fuel start_pos c) :
    (∀ p ∈ c.trajectory, orc p.position_W = true) ∧ c.trajectory ≠ [] := by
  obtain ⟨calls, hb⟩ := h
  obtain ⟨_, _, _, htrue⟩ := buildLoop_result cfg env orc start_pos _ _ _ fuel 0 0 0 _ c true hb
  obtain ⟨added, hadd, hall, hne⟩ := htrue rfl
  simp only [TrajectorySegment.fresh, trajectory_mk, List.nil_append] at hadd
  rw [hadd]
  exact ⟨hall, hne (le_refl _)⟩

theorem getElem?_append_range (old accepted : List TrajectorySegment) (h : Nat)
    (hh : h ∈ List.range' old.length accepted.length) :
    ∃ c, (old ++ accepted)[h]? = some c ∧ c ∈ accepted := by
  rw [List.mem_range'_1] at hh
  have hlt : h - old.length < accepted.length := by omega
  refine ⟨accepted[h - old.length], ?_, List.getElem_mem _⟩
  rw [List.getElem?_append_right hh.1, List.getElem?_eq_getElem hlt]

/-- With an oracle that is true everywhere, `buildTrajectory` appends exactly the waypoints
of the tick values and returns `true`. -/
theorem buildLoop_eq_trace (cfg : RandomLinear) (env : Env) (orc : Oracle)
    (start_pos direction : Vec3) (yaw decel : ℚ) (horc : ∀ p, orc p = true) :
    ∀ (fuel : Nat) (x v t : ℚ) (seg : TrajectorySegment),
      buildLoop cfg env orc start_pos direction yaw decel fuel x v t seg =
        (tickTrace cfg env decel fuel x v t).map (fun l =>
          (true, seg.setTrajectory
            (seg.trajectory ++ l.map (waypointOf env start_pos direction yaw)))) := by
  intro fuel
  induction fuel with
  | zero =>
    intro x v t seg
    by_cases hv : 0 ≤ v
    · rw [buildLoop_zero _ _ _ _ _ _ _ _ _ _ _ hv, tickTrace, if_pos hv]
      rfl
    · rw [buildLoop_neg _ _ _ _ _ _ _ _ _ _ _ _ hv, tickTrace, if_neg hv]
      cases seg
      simp [TrajectorySegment.setTrajectory, TrajectorySegment.trajectory]
  | succ fuel ih =>
    intro x v t seg
    by_cases hv : 0 ≤ v
    · rw [buildLoop_succ _ _ _ _ _ _ _ _ _ _ _ _ hv, tickTrace, if_pos hv]
      simp only [horc, Bool.not_true, Bool.false_eq_true, if_false, ih, Option.map_map]
      congr 1
      funext l
      cases seg
      simp [TrajectorySegment.setTrajectory, TrajectorySegment.trajectory]
    · rw [buildLoop_neg _ _ _ _ _ _ _ _ _ _ _ _ hv, tickTrace, if_neg hv]
      cases seg
      simp [TrajectorySegment.setTrajectory, TrajectorySegment.trajectory]

theorem tickTrace_step (cfg : RandomLinear) (env : Env) (decel : ℚ) (fuel : Nat)
    (x v t x2 v2 t2 : ℚ) (rest : List (ℚ × ℚ × ℚ)) (hv : 0 ≤ v)
    (hv2 : nextVelocity cfg env decel x v = v2)
    (hx2 : env.round (x + env.round (v2 / cfg.p_sampling_rate_)) = x2)
    (ht2 : env.round (t + env.round (1 / cfg.p_sampling_rate_)) = t2)
    (hrest : tickTrace cfg env decel fuel x2 v2 t2 = some rest) :
    tickTrace cfg env decel (fuel + 1) x v t = some ((x2, v2, t2) :: rest) := by
  rw [tickTrace, if_pos hv]
  simp only [tickStep, hv2, hx2, ht2, hrest, Option.map_some']

theorem tickTrace_done (cfg : RandomLinear) (env : Env) (decel : ℚ) (fuel : Nat) (x v t : ℚ)
    (hv : v < 0) : tickTrace cfg env decel fuel x v t = some [] := by
  rw [tickTrace.eq_def]
  simp only [not_le.mpr hv, if_false]

/-- The tick values of the simple-accept scenario in exact arithmetic. -/
theorem scenario_trace (env : Env) (hexact : ∀ q, env.round q = q) :
    tickTrace scenarioConfig env (1 / 2) 21 0 0 0 = some scenarioTicks := by
  unfold scenarioTicks
  iterate 21
    refine tickTrace_step _ _ _ _ _ _ _ _ _ _ _ (by norm_num)
      (by norm_num [nextVelocity, scenarioConfig, hexact]) (by norm_num [scenarioConfig, hexact])
      (by norm_num [scenarioConfig, hexact]) ?_
  exact tickTrace_done _ _ _ _ _ _ _ (by norm_num)

theorem checkParamsValid_pass (cfg : RandomLinear) (base : String → Bool × String)
    (msg : String) (h1 : 0 < cfg.p_max_distance_)
    (h2 : cfg.p_min_distance_ ≤ cfg.p_max_distance_) (h3 : 1 ≤ cfg.p_n_segments_)
    (h4 : 1 ≤ cfg.p_max_tries_) : checkParamsValid cfg base msg = base msg := by
  unfold checkParamsValid
  rw [if_neg (not_le.mpr h1), if_neg (not_lt.mpr h2), if_neg (not_lt.mpr h3),
    if_neg (not_lt.mpr h4)]

theorem checkParamsValid_reject (cfg : RandomLinear) (base : String → Bool × String)
    (msg : String)
    (h : cfg.p_max_distance_ ≤ 0 ∨ cfg.p_max_distance_ < cfg.p_min_distance_ ∨
      cfg.p_n_segments_ < 1 ∨ cfg.p_max_tries_ < 1) :
    (checkParamsValid cfg base msg).1 = false := by
  unfold checkParamsValid
  split
  · rfl
  · split
    · rfl
    · split
      · rfl
      · split
        · rfl
        · rename_i h1 h2 h3 h4
          rcases h with h | h | h | h
          · exact absurd h h1
          · exact absurd h h2
          · exact absurd h h3
          · exact absurd h h4

/-- With an oracle that is false everywhere `buildTrajectory` fails at its first tick and
leaves the segment with an empty trajectory. -/
theorem buildTrajectory_blocked (cfg : RandomLinear) (env : Env) (orc : Oracle)
    (start_pos direction : Vec3) (yaw decel : ℚ) (horc : ∀ p, orc p = false) (fuel : Nat)
    (seg : TrajectorySegment) :
    buildTrajectory cfg env orc start_pos direction yaw decel (fuel + 1) seg
      = some (false, seg.setTrajectory []) := by
  unfold buildTrajectory
  rw [buildLoop_succ _ _ _ _ _ _ _ _ _ _ _ _ (le_refl 0)]
  simp [horc]

/-- With an oracle that is false everywhere the `while` loop of `expandSegment` only counts
attempts: it returns with the target, the handles and `valid_segments = 0` unchanged. -/
theorem expandLoop_blocked (cfg : RandomLinear) (env : Env) (orc : Oracle) (fuel : Nat)
    (start_pos : Vec3) (traj : List TrajectoryPoint) (old : List TrajectorySegment)
    (out0 : List Nat) (horc : ∀ p, orc p = false) :
    ∀ (n : Nat) (counter : Int) (calls : Nat), (cfg.p_max_tries_ - counter).toNat ≤ n →
      ∃ counter2 calls2,
        expandLoop cfg env orc (fuel + 1) start_pos
            ⟨.mk traj (old ++ [TrajectorySegment.fresh]) true, out0, old.length, 0, counter,
              calls⟩
          = some ⟨.mk traj (old ++ [TrajectorySegment.fresh]) true, out0, old.length, 0,
              counter2, calls2⟩ := by
  intro n
  induction n with
  | zero =>
    intro counter calls hn
    rw [expandLoop_eq, if_neg (by intro hc; have := hc.2; simp only at this; omega)]
    exact ⟨_, _, rfl⟩
  | succ n ih =>
    intro counter calls hn
    by_cases hcond : (0 : Int) < cfg.p_n_segments_ ∧ counter < cfg.p_max_tries_
    · have hget : (TrajectorySegment.mk traj (old ++ [TrajectorySegment.fresh])
          true).children[old.length]? = some TrajectorySegment.fresh := by
        rw [children_mk]
        exact List.getElem?_concat_length _ _
      have hstep : expandStep cfg env orc (fuel + 1) start_pos
          ⟨.mk traj (old ++ [TrajectorySegment.fresh]) true, out0, old.length, 0, counter,
            calls⟩
          = some ⟨.mk traj (old ++ [TrajectorySegment.fresh]) true, out0, old.length, 0,
            counter + 1, (sampleTarget cfg env calls).2⟩ := by
        unfold expandStep
        simp only [hget, buildTrajectory_blocked cfg env orc start_pos _ _ _ horc]
        simp only [TrajectorySegment.setChild, TrajectorySegment.fresh,
          TrajectorySegment.setTrajectory, set_concat_length]
      rw [expandLoop_eq, if_pos hcond, hstep]
      exact ih (counter + 1) _ (by omega)
    · rw [expandLoop_eq, if_neg hcond]
      exact ⟨_, _, rfl⟩

theorem tickState_succ (cfg : RandomLinear) (env : Env) (decel : ℚ) (n : Nat) :
    tickState cfg env decel (n + 1) = tickStep cfg env decel (tickState cfg env decel n) := by
  unfold tickState
  exact Function.iterate_succ_apply' _ _ _

theorem iterate_tickStep_shift (cfg : RandomLinear) (env : Env) (decel : ℚ) (i : Nat)
    (q : ℚ × ℚ × ℚ) :
    (tickStep cfg env decel)^[i + 1] q = (tickStep cfg env decel)^[i] (tickStep cfg env decel q) :=
  Function.iterate_succ_apply _ _ _

/-- A returning run of the loop of `buildTrajectory` that is entered with a velocity that is
not negative has executed `k >= 1` ticks, whose values are the iterates of `tickStep`.
Before each tick the velocity was not negative, and the positions of all ticks but the last
were traversable. If the run returns `true`, the position of the last tick was traversable,
its velocity is negative, and the waypoints of the `k` ticks were appended; if it returns
`false`, the position of the last tick was not traversable and the trajectory is empty. -/
theorem buildLoop_run (cfg : RandomLinear) (env : Env) (orc : Oracle)
    (start_pos direction : Vec3) (yaw decel : ℚ) :
    ∀ (fuel : Nat) (x v t : ℚ) (seg r : TrajectorySegment) (flag : Bool), 0 ≤ v →
      buildLoop cfg env orc start_pos direction yaw decel fuel x v t seg = some (flag, r) →
      ∃ k, 1 ≤ k ∧
        (∀ i, i < k → 0 ≤ ((tickStep cfg env decel)^[i] (x, v, t)).2.1) ∧
        (∀ i, 1 ≤ i → i < k → orc (positionAt env start_pos direction
          ((tickStep cfg env decel)^[i] (x, v, t)).1) = true) ∧
        (flag = true →
          orc (positionAt env start_pos direction
            ((tickStep cfg env decel)^[k] (x, v, t)).1) = true ∧
          ((tickStep cfg env decel)^[k] (x, v, t)).2.1 < 0 ∧
          r.trajectory = seg.trajectory ++ (List.range k).map (fun i =>
            waypointOf env start_pos direction yaw ((tickStep cfg env decel)^[i + 1] (x, v, t)))) ∧
        (flag = false →
          orc (positionAt env start_pos direction
            ((tickStep cfg env decel)^[k] (x, v, t)).1) = false ∧
          r.trajectory = []) := by
  intro fuel
  induction fuel with
  | zero =>
    intro x v t seg r flag hv h
    rw [buildLoop_zero _ _ _ _ _ _ _ _ _ _ _ hv] at h
    cases h
  | succ fuel ih =>
    intro x v t seg r flag hv h
    rw [buildLoop_succ _ _ _ _ _ _ _ _ _ _ _ _ hv] at h
    split at h
    · rename_i horc
      simp only [Option.some.injEq, Prod.mk.injEq] at h
      obtain ⟨h1, h2⟩ := h
      subst h1 h2
      refine ⟨1, le_refl _, ?_, ?_, ?_, ?_⟩
      · intro i hi
        obtain rfl : i = 0 := by omega
        exact hv
      · intro i h1 h2
        omega
      · intro hflag
        cases hflag
      · intro _
        refine ⟨?_, setTrajectory_trajectory _ _⟩
        simpa using horc
    · rename_i horc
      have horc1 : orc (positionAt env start_pos direction
          (tickStep cfg env decel (x, v, t)).1) = true := by simpa using horc
      by_cases hv1 : 0 ≤ (tickStep cfg env decel (x, v, t)).2.1
      · obtain ⟨k, hk, hpos, hall, htrue, hfalse⟩ := ih _ _ _ _ _ _ hv1 h
        refine ⟨k + 1, by omega, ?_, ?_, ?_, ?_⟩
        · intro i hi
          cases i with
          | zero => exact hv
          | succ j =>
            rw [iterate_tickStep_shift]
            exact hpos j (by omega)
        · intro i h1 h2
          obtain ⟨j, rfl⟩ : ∃ j, i = j + 1 := ⟨i - 1, by omega⟩
          rw [iterate_tickStep_shift]
          cases j with
          | zero => exact horc1
          | succ m => exact hall (m + 1) (by omega) (by omega)
        · intro hflag
          obtain ⟨h1, h2, h3⟩ := htrue hflag
          rw [iterate_tickStep_shift]
          refine ⟨h1, h2, ?_⟩
          rw [h3, setTrajectory_trajectory, List.append_assoc, List.range_succ_eq_map,
            List.map_cons, List.map_map]
          rfl
        · intro hflag
          rw [iterate_tickStep_shift]
          exact hfalse hflag
      · rw [buildLoop_neg _ _ _ _ _ _ _ _ _ _ _ _ hv1] at h
        simp only [Option.some.injEq, Prod.mk.injEq] at h
        obtain ⟨h1, h2⟩ := h
        subst h1 h2
        refine ⟨1, le_refl _, ?_, ?_, ?_, ?_⟩
        · intro i hi
          obtain rfl : i = 0 := by omega
          exact hv
        · intro i h1 h2
          omega
        · intro _
          refine ⟨horc1, not_le.mp hv1, ?_⟩
          rw [setTrajectory_trajectory]
          rfl
        · intro hflag
          cases hflag

/-- A returning call of `buildTrajectory` has executed the ticks `1, ..., k` for some
`k >= 1`, whose values are `tickState 1, ..., tickState k`; see `buildLoop_run`. -/
theorem buildTrajectory_run (cfg : RandomLinear) (env : Env) (orc : Oracle)
    (start_pos direction : Vec3) (yaw decel : ℚ) (fuel : Nat) (seg r : TrajectorySegment)
    (flag : Bool)
    (h : buildTrajectory cfg env orc start_pos direction yaw decel fuel seg = some (flag, r)) :
    ∃ k, 1 ≤ k ∧
      (∀ i, i < k → 0 ≤ (tickState cfg env decel i).2.1) ∧
      (∀ i, 1 ≤ i → i < k →
        orc (positionAt env start_pos direction (tickState cfg env decel i).1) = true) ∧
      (flag = true →
        orc (positionAt env start_pos direction (tickState cfg env decel k).1) = true ∧
        (tickState cfg env decel k).2.1 < 0 ∧
        r.trajectory = seg.trajectory ++ (List.range k).map (fun i =>
          waypointOf env start_pos direction yaw (tickState cfg env decel (i + 1)))) ∧
      (flag = false →
        orc (positionAt env start_pos direction (tickState cfg env decel k).1) = false ∧
        r.trajectory = []) :=
  buildLoop_run cfg env orc start_pos direction yaw decel fuel 0 0 0 seg r flag (le_refl 0) h

/-- The distance and the time of every tick are doubles. -/
theorem tickState_fixed (cfg : RandomLinear) (env : Env) (decel : ℚ)
    (hlaws : env.RoundingLaws) (n : Nat) :
    env.round (tickState cfg env decel n).1 = (tickState cfg env decel n).1 ∧
      env.round (tickState cfg env decel n).2.2 = (tickState cfg env decel n).2.2 := by
  cases n with
  | zero => exact ⟨hlaws.1, hlaws.1⟩
  | succ n =>
    rw [tickState_succ]
    exact ⟨hlaws.2.2 _, hlaws.2.2 _⟩

/-- The velocity of every tick is a double when `v_max` is one. -/
theorem tickState_velocity_fixed (cfg : RandomLinear) (env : Env) (decel : ℚ)
    (hlaws : env.RoundingLaws) (hrep : env.round cfg.p_v_max_ = cfg.p_v_max_) (n : Nat) :
    env.round (tickState cfg env decel n).2.1 = (tickState cfg env decel n).2.1 := by
  cases n with
  | zero => exact hlaws.1
  | succ n =>
    rw [tickState_succ]
    simp only [tickStep, nextVelocity]
    split
    · have hmono : Monotone env.round := fun a b hab => hlaws.2.1 a b hab
      rw [hmono.map_min, hlaws.2.2, hrep]
    · exact hlaws.2.2 _

/-- The velocity never exceeds `v_max`, whatever the rounding. -/
theorem tickState_velocity_le (cfg : RandomLinear) (env : Env) (decel : ℚ)
    (hlaws : env.RoundingLaws) (hrep : env.round cfg.p_v_max_ = cfg.p_v_max_)
    (hvm : 0 ≤ cfg.p_v_max_) (ha : 0 ≤ cfg.p_a_max_ / cfg.p_sampling_rate_) (n : Nat) :
    (tickState cfg env decel n).2.1 ≤ cfg.p_v_max_ := by
  induction n with
  | zero => exact hvm
  | succ n ih =>
    have hfix := tickState_velocity_fixed cfg env decel hlaws hrep n
    rw [tickState_succ]
    simp only [tickStep, nextVelocity]
    split
    · exact min_le_right _ _
    · have h0 : 0 ≤ env.round (cfg.p_a_max_ / cfg.p_sampling_rate_) := by
        have := hlaws.2.1 _ _ ha
        rwa [hlaws.1] at this
      have h1 := hlaws.2.1
        ((tickState cfg env decel n).2.1 - env.round (cfg.p_a_max_ / cfg.p_sampling_rate_))
        (tickState cfg env decel n).2.1 (by linarith)
      rw [hfix] at h1
      exact le_trans h1 ih

/-- The simulated time never decreases, whatever the rounding. -/
theorem tickState_time_step (cfg : RandomLinear) (env : Env) (decel : ℚ)
    (hlaws : env.RoundingLaws) (hs : 0 ≤ 1 / cfg.p_sampling_rate_) (n : Nat) :
    (tickState cfg env decel n).2.2 ≤ (tickState cfg env decel (n + 1)).2.2 := by
  have hfix := (tickState_fixed cfg env decel hlaws n).2
  have h0 : 0 ≤ env.round (1 / cfg.p_sampling_rate_) := by
    have := hlaws.2.1 _ _ hs
    rwa [hlaws.1] at this
  rw [tickState_succ]
  simp only [tickStep]
  have h1 := hlaws.2.1 (tickState cfg env decel n).2.2
    ((tickState cfg env decel n).2.2 + env.round (1 / cfg.p_sampling_rate_)) (by linarith)
  rwa [hfix] at h1

theorem tickState_time_mono (cfg : RandomLinear) (env : Env) (decel : ℚ)
    (hlaws : env.RoundingLaws) (hs : 0 ≤ 1 / cfg.p_sampling_rate_) (i j : Nat) (hij : i ≤ j) :
    (tickState cfg env decel i).2.2 ≤ (tickState cfg env decel j).2.2 := by
  induction j with
  | zero =>
    obtain rfl : i = 0 := by omega
    exact le_refl _
  | succ j ih =>
    rcases Nat.lt_or_ge i (j + 1) with h | h
    · exact le_trans (ih (by omega)) (tickState_time_step cfg env decel hlaws hs j)
    · obtain rfl : i = j + 1 := by omega
      exact le_refl _

theorem tickState_time_nonneg (cfg : RandomLinear) (env : Env) (decel : ℚ)
    (hlaws : env.RoundingLaws) (hs : 0 ≤ 1 / cfg.p_sampling_rate_) (n : Nat) :
    0 ≤ (tickState cfg env decel n).2.2 :=
  tickState_time_mono cfg env decel hlaws hs 0 n (Nat.zero_le n)

/-- In exact arithmetic the simulated time after `n` ticks is `n / sampling_rate`. -/
theorem tickState_time (cfg : RandomLinear) (env : Env) (hexact : ∀ q, env.round q = q)
    (decel : ℚ) (n : Nat) :
    (tickState cfg env decel n).2.2 = n / cfg.p_sampling_rate_ := by
  induction n with
  | zero => simp [tickState]
  | succ n ih =>
    rw [tickState_succ]
    simp only [tickStep, hexact, ih]
    push_cast
    ring

/-- In exact arithmetic one tick changes the velocity by at most
`a_max / sampling_rate`. -/
theorem tickState_velocity_step (cfg : RandomLinear) (env : Env)
    (hexact : ∀ q, env.round q = q) (decel : ℚ) (hvm : 0 ≤ cfg.p_v_max_)
    (ha : 0 ≤ cfg.p_a_max_ / cfg.p_sampling_rate_) (n : Nat) :
    |(tickState cfg env decel (n + 1)).2.1 - (tickState cfg env decel n).2.1|
      ≤ cfg.p_a_max_ / cfg.p_sampling_rate_ := by
  have hle := tickState_velocity_le cfg env decel (exact_laws env hexact) (hexact _) hvm ha n
  rw [tickState_succ]
  simp only [tickStep, nextVelocity, hexact]
  split
  · rw [abs_le]
    constructor
    · have : (tickState cfg env decel n).2.1 ≤
          min ((tickState cfg env decel n).2.1 + cfg.p_a_max_ / cfg.p_sampling_rate_)
            cfg.p_v_max_ := le_min (by linarith) hle
      linarith
    · have := min_le_left
        ((tickState cfg env decel n).2.1 + cfg.p_a_max_ / cfg.p_sampling_rate_) cfg.p_v_max_
      linarith
  · rw [abs_le]
    constructor <;> linarith

/-- In exact arithmetic one tick advances the position by the new velocity over the
sampling rate. -/
theorem tickState_advance (cfg : RandomLinear) (env : Env) (hexact : ∀ q, env.round q = q)
    (decel : ℚ) (n : Nat) :
    (tickState cfg env decel (n + 1)).1 - (tickState cfg env decel n).1
      = (tickState cfg env decel (n + 1)).2.1 / cfg.p_sampling_rate_ := by
  rw [tickState_succ]
  simp only [tickStep, hexact]
  ring

/-- On values from zero up to the largest `int64_t`, `static_cast<int64_t>` is the
floor. -/
theorem toInt64_eq_floor (q : ℚ) (hq : 0 ≤ q) (hlt : q < 9223372036854775808) :
    toInt64 q = ⌊q⌋ := by
  unfold toInt64
  rw [if_pos ⟨by linarith, hlt⟩, Rat.floor_def]
  exact Int.tdiv_eq_ediv (Rat.num_nonneg.mpr hq) (by positivity)

theorem toInt64_mono (a b : ℚ) (ha : 0 ≤ a) (hab : a ≤ b) (hb : b < 9223372036854775808) :
    toInt64 a ≤ toInt64 b := by
  rw [toInt64_eq_floor a ha (by linarith), toInt64_eq_floor b (le_trans ha hab) hb]
  exact Int.floor_le_floor hab

/-- The run of `buildTrajectory` in the simple-accept scenario, in exact arithmetic. -/
theorem scenario_run (env : Env) (hexact : ∀ q, env.round q = q) (start_pos direction : Vec3)
    (yaw : ℚ) :
    buildTrajectory scenarioConfig env (fun _ => true) start_pos direction yaw (1 / 2) 21
        TrajectorySegment.fresh
      = some (true, .mk (scenarioTicks.map (waypointOf env start_pos direction yaw)) [] false) := by
  unfold buildTrajectory
  rw [buildLoop_eq_trace _ _ _ _ _ _ _ (fun _ => rfl), scenario_trace env hexact]
  rfl

theorem getElem?_map_range {α : Type} (f : Nat → α) (k i : Nat) (p : α)
    (h : ((List.range k).map f)[i]? = some p) : i < k ∧ p = f i := by
  by_cases hlt : i < k
  · rw [List.getElem?_map, List.getElem?_range hlt] at h
    simp only [Option.map_some', Option.some.injEq] at h
    exact ⟨hlt, h.symm⟩
  · rw [List.getElem?_eq_none (by simpa using hlt)] at h
    cases h

/-- The tick values listed by `tickTrace` are the iterates of `tickStep`. -/
theorem tickTrace_states (cfg : RandomLinear) (env : Env) (decel : ℚ) :
    ∀ (fuel : Nat) (x v t : ℚ) (l : List (ℚ × ℚ × ℚ)),
      tickTrace cfg env decel fuel x v t = some l →
      ∀ (i : Nat) (q : ℚ × ℚ × ℚ), l[i]? = some q →
        (tickStep cfg env decel)^[i + 1] (x, v, t) = q := by
  intro fuel
  induction fuel with
  | zero =>
    intro x v t l h i q hq
    by_cases hv : 0 ≤ v
    · rw [tickTrace.eq_def] at h
      simp only [hv, if_true] at h
      cases h
    · rw [tickTrace_done _ _ _ _ _ _ _ (not_le.mp hv)] at h
      cases h
      cases hq
  | succ fuel ih =>
    intro x v t l h i q hq
    by_cases hv : 0 ≤ v
    · rw [tickTrace, if_pos hv] at h
      cases hrest : tickTrace cfg env decel fuel (tickStep cfg env decel (x, v, t)).1
          (tickStep cfg env decel (x, v, t)).2.1 (tickStep cfg env decel (x, v, t)).2.2 with
      | none =>
        rw [hrest] at h
        cases h
      | some l2 =>
        rw [hrest] at h
        simp only [Option.map_some', Option.some.injEq] at h
        subst h
        cases i with
        | zero =>
          simp only [List.getElem?_cons_zero, Option.some.injEq] at hq
          rw [← hq]
          rfl
        | succ j =>
          simp only [List.getElem?_cons_succ] at hq
          rw [iterate_tickStep_shift]
          exact ih _ _ _ l2 hrest j q hq
    · rw [tickTrace_done _ _ _ _ _ _ _ (not_le.mp hv)] at h
      cases h
      cases hq

/-- The tick values listed by `tickTrace` from the start `(0, 0, 0)` are the values
`tickState 1, tickState 2, ...`. -/
theorem tickState_of_trace (cfg : RandomLinear) (env : Env) (decel : ℚ) (fuel : Nat)
    (l : List (ℚ × ℚ × ℚ)) (h : tickTrace cfg env decel fuel 0 0 0 = some l) (i : Nat)
    (q : ℚ × ℚ × ℚ) (hq : l[i]? = some q) : tickState cfg env decel (i + 1) = q :=
  tickTrace_states cfg env decel fuel 0 0 0 l h i q hq

/-- The tick values of the run with `fastConfig` in double arithmetic. -/
theorem fast_trace (env : Env) :
    tickTrace fastConfig env.ieee (1 / 4294967296) 3 0 0 0 = some fastTicks := by
  have h1 : roundDouble (1) = 1 := roundDouble_eval_exact _ (1) (0) (by norm_num)
  have h2 : roundDouble (1 / 2147483648) = 1 / 2147483648 :=
    roundDouble_eval_exact _ (1) (-31) (by norm_num)
  have h3 : roundDouble (1 / 1073741824) = 1 / 1073741824 :=
    roundDouble_eval_exact _ (1) (-30) (by norm_num)
  have h4 : roundDouble (3 / 2147483648) = 3 / 2147483648 :=
    roundDouble_eval_exact _ (3) (-31) (by norm_num)
  unfold fastTicks
  iterate 3
    refine tickTrace_step _ _ _ _ _ _ _ _ _ _ _ (by norm_num)
      (by norm_num [nextVelocity, fastConfig, ieee_round, roundDouble_zero, roundDouble_neg,
        h1, h2, h3, h4])
      (by norm_num [fastConfig, ieee_round, roundDouble_zero, roundDouble_neg,
        h1, h2, h3, h4])
      (by norm_num [fastConfig, ieee_round, roundDouble_zero, roundDouble_neg,
        h1, h2, h3, h4]) ?_
  exact tickTrace_done _ _ _ _ _ _ _ (by norm_num)

/-- The time stamps of the run with `fastConfig` in double arithmetic. -/
theorem fast_stamps (env : Env) (start_pos direction : Vec3) (yaw : ℚ) :
    (fastTicks.map (waypointOf env.ieee start_pos direction yaw)).map
        (fun p => p.time_from_start_ns)
      = [0, 0, 1] := by
  have h1 : roundDouble (1953125 / 4194304) = 1953125 / 4194304 :=
    roundDouble_eval_exact _ (1953125) (-22) (by norm_num)
  have h2 : roundDouble (1953125 / 2097152) = 1953125 / 2097152 :=
    roundDouble_eval_exact _ (1953125) (-21) (by norm_num)
  have h3 : roundDouble (5859375 / 4194304) = 5859375 / 4194304 :=
    roundDouble_eval_exact _ (5859375) (-22) (by norm_num)
  norm_num [fastTicks, waypointOf, toInt64, ieee_round,
    h1, h2, h3]
  decide

/-- The tick values of the simple-accept scenario in double arithmetic. -/
theorem scenario_double_trace (env : Env) :
    tickTrace scenarioConfig env.ieee (1 / 2) 21 0 0 0 = some scenarioDoubleTicks := by
  have h1 : roundDouble (1 / 10) = 3602879701896397 / 36028797018963968 :=
    roundDouble_eval_near _ _ (-4) 7205759403792794 (by norm_num)
  have h2 : roundDouble (3602879701896397 / 36028797018963968)
      = 3602879701896397 / 36028797018963968 :=
    roundDouble_eval_exact _ (3602879701896397) (-55) (by norm_num)
  have h3 : roundDouble (3602879701896397 / 360287970189639680)
      = 5764607523034235 / 576460752303423488 :=
    roundDouble_eval_near _ _ (-7) 5764607523034235 (by norm_num)
  have h4 : roundDouble (5764607523034235 / 576460752303423488)
      = 5764607523034235 / 576460752303423488 :=
    roundDouble_eval_exact _ (5764607523034235) (-59) (by norm_num)
  have h5 : roundDouble (3602879701896397 / 18014398509481984)
      = 3602879701896397 / 18014398509481984 :=
    roundDouble_eval_exact _ (3602879701896397) (-54) (by norm_num)
  have h6 : roundDouble (3602879701896397 / 180143985094819840)
      = 5764607523034235 / 288230376151711744 :=
    roundDouble_eval_near _ _ (-6) 5764607523034235 (by norm_num)
  have h7 : roundDouble (17293822569102705 / 576460752303423488)
      = 1080863910568919 / 36028797018963968 :=
    roundDouble_eval_tie _ _ (-6) 8646911284551352 8646911284551352 (by norm_num)
  have h8 : roundDouble (10808639105689191 / 36028797018963968)
      = 1351079888211149 / 4503599627370496 :=
    roundDouble_eval_tie _ _ (-2) 5404319552844595 5404319552844596 (by norm_num)
  have h9 : roundDouble (1351079888211149 / 45035996273704960)
      = 4323455642275677 / 144115188075855872 :=
    roundDouble_eval_near _ _ (-6) 8646911284551354 (by norm_num)
  have h10 : roundDouble (8646911284551353 / 144115188075855872)
      = 8646911284551353 / 144115188075855872 :=
    roundDouble_eval_exact _ (8646911284551353) (-57) (by norm_num)
  have h11 : roundDouble (14411518807585589 / 36028797018963968)
      = 3602879701896397 / 9007199254740992 :=
    roundDouble_eval_tie _ _ (-2) 7205759403792794 7205759403792794 (by norm_num)
  have h12 : roundDouble (3602879701896397 / 90071992547409920)
      = 5764607523034235 / 144115188075855872 :=
    roundDouble_eval_near _ _ (-5) 5764607523034235 (by norm_num)
  have h13 : roundDouble (18014398509481985 / 36028797018963968) = 1 / 2 :=
    roundDouble_eval_near _ _ (-1) 4503599627370496 (by norm_num)
  have h14 : roundDouble (1 / 20) = 3602879701896397 / 72057594037927936 :=
    roundDouble_eval_near _ _ (-5) 7205759403792794 (by norm_num)
  have h15 : roundDouble (10808639105689191 / 72057594037927936)
      = 1351079888211149 / 9007199254740992 :=
    roundDouble_eval_tie _ _ (-3) 5404319552844595 5404319552844596 (by norm_num)
  have h16 : roundDouble (21617278211378381 / 36028797018963968)
      = 5404319552844595 / 9007199254740992 :=
    roundDouble_eval_near _ _ (-1) 5404319552844595 (by norm_num)
  have h17 : roundDouble (1080863910568919 / 18014398509481984)
      = 1080863910568919 / 18014398509481984 :=
    roundDouble_eval_exact _ (1080863910568919) (-54) (by norm_num)
  have h18 : roundDouble (3783023686991217 / 18014398509481984)
      = 3783023686991217 / 18014398509481984 :=
    roundDouble_eval_exact _ (3783023686991217) (-54) (by norm_num)
  have h19 : roundDouble (25220157913274777 / 36028797018963968)
      = 3152519739159347 / 4503599627370496 :=
    roundDouble_eval_near _ _ (-1) 6305039478318694 (by norm_num)
  have h20 : roundDouble (3152519739159347 / 45035996273704960)
      = 5044031582654955 / 72057594037927936 :=
    roundDouble_eval_near _ _ (-4) 5044031582654955 (by norm_num)
  have h21 : roundDouble (20176126330619823 / 72057594037927936)
      = 1261007895663739 / 4503599627370496 :=
    roundDouble_eval_near _ _ (-2) 5044031582654956 (by norm_num)
  have h22 : roundDouble (28823037615171173 / 36028797018963968)
      = 7205759403792793 / 9007199254740992 :=
    roundDouble_eval_near _ _ (-1) 7205759403792793 (by norm_num)
  have h23 : roundDouble (7205759403792793 / 90071992547409920)
      = 2882303761517117 / 36028797018963968 :=
    roundDouble_eval_near _ _ (-4) 5764607523034234 (by norm_num)
  have h24 : roundDouble (12970366926827029 / 36028797018963968)
      = 3242591731706757 / 9007199254740992 :=
    roundDouble_eval_tie _ _ (-2) 6485183463413514 6485183463413514 (by norm_num)
  have h25 : roundDouble (32425917317067569 / 36028797018963968)
      = 2026619832316723 / 2251799813685248 :=
    roundDouble_eval_near _ _ (-1) 8106479329266892 (by norm_num)
  have h26 : roundDouble (2026619832316723 / 22517998136852480)
      = 3242591731706757 / 36028797018963968 :=
    roundDouble_eval_near _ _ (-4) 6485183463413514 (by norm_num)
  have h27 : roundDouble (16212958658533785 / 36028797018963968)
      = 2026619832316723 / 4503599627370496 :=
    roundDouble_eval_tie _ _ (-2) 8106479329266892 8106479329266892 (by norm_num)
  have h28 : roundDouble (36028797018963965 / 36028797018963968)
      = 9007199254740991 / 9007199254740992 :=
    roundDouble_eval_near _ _ (-1) 9007199254740991 (by norm_num)
  have h29 : roundDouble (9007199254740991 / 90071992547409920)
      = 7205759403792793 / 72057594037927936 :=
    roundDouble_eval_near _ _ (-4) 7205759403792793 (by norm_num)
  have h30 : roundDouble (39631676720860361 / 72057594037927936)
      = 4953959590107545 / 9007199254740992 :=
    roundDouble_eval_near _ _ (-1) 4953959590107545 (by norm_num)
  have h31 : roundDouble (32425917317067567 / 36028797018963968)
      = 2026619832316723 / 2251799813685248 :=
    roundDouble_eval_near _ _ (-1) 8106479329266892 (by norm_num)
  have h32 : roundDouble (39631676720860361 / 36028797018963968)
      = 4953959590107545 / 4503599627370496 :=
    roundDouble_eval_near _ _ (0) 4953959590107545 (by norm_num)
  have h33 : roundDouble (23058430092136937 / 36028797018963968)
      = 2882303761517117 / 4503599627370496 :=
    roundDouble_eval_near _ _ (-1) 5764607523034234 (by norm_num)
  have h34 : roundDouble (28823037615171171 / 36028797018963968)
      = 7205759403792793 / 9007199254740992 :=
    roundDouble_eval_near _ _ (-1) 7205759403792793 (by norm_num)
  have h35 : roundDouble (43234556422756757 / 36028797018963968)
      = 5404319552844595 / 4503599627370496 :=
    roundDouble_eval_near _ _ (0) 5404319552844595 (by norm_num)
  have h36 : roundDouble (25940733853654053 / 36028797018963968)
      = 6485183463413513 / 9007199254740992 :=
    roundDouble_eval_near _ _ (-1) 6485183463413513 (by norm_num)
  have h37 : roundDouble (25220157913274775 / 36028797018963968)
      = 3152519739159347 / 4503599627370496 :=
    roundDouble_eval_near _ _ (-1) 6305039478318694 (by norm_num)
  have h38 : roundDouble (46837436124653157 / 36028797018963968)
      = 5854679515581645 / 4503599627370496 :=
    roundDouble_eval_near _ _ (0) 5854679515581645 (by norm_num)
  have h39 : roundDouble (56925499289963059 / 72057594037927936)
      = 3557843705622691 / 4503599627370496 :=
    roundDouble_eval_near _ _ (-1) 7115687411245382 (by norm_num)
  have h40 : roundDouble (21617278211378379 / 36028797018963968)
      = 5404319552844595 / 9007199254740992 :=
    roundDouble_eval_near _ _ (-1) 5404319552844595 (by norm_num)
  have h41 : roundDouble (50440315826549557 / 36028797018963968)
      = 6305039478318695 / 4503599627370496 :=
    roundDouble_eval_near _ _ (0) 6305039478318695 (by norm_num)
  have h42 : roundDouble (15312238733059683 / 18014398509481984)
      = 3828059683264921 / 4503599627370496 :=
    roundDouble_eval_tie _ _ (-1) 7656119366529841 7656119366529842 (by norm_num)
  have h43 : roundDouble (18014398509481983 / 36028797018963968) = 1 / 2 :=
    roundDouble_eval_tie _ _ (-2) 9007199254740991 9007199254740992 (by norm_num)
  have h44 : roundDouble (54043195528445957 / 36028797018963968)
      = 6755399441055745 / 4503599627370496 :=
    roundDouble_eval_near _ _ (0) 6755399441055745 (by norm_num)
  have h45 : roundDouble (64851834634135133 / 72057594037927936)
      = 2026619832316723 / 2251799813685248 :=
    roundDouble_eval_near _ _ (-1) 8106479329266892 (by norm_num)
  have h46 : roundDouble (14411518807585587 / 36028797018963968)
      = 3602879701896397 / 9007199254740992 :=
    roundDouble_eval_tie _ _ (-2) 7205759403792793 7205759403792794 (by norm_num)
  have h47 : roundDouble (57646075230342357 / 36028797018963968)
      = 7205759403792795 / 4503599627370496 :=
    roundDouble_eval_near _ _ (0) 7205759403792795 (by norm_num)
  have h48 : roundDouble (135468276791304507 / 144115188075855872)
      = 2116691824864133 / 2251799813685248 :=
    roundDouble_eval_near _ _ (-1) 8466767299456532 (by norm_num)
  have h49 : roundDouble (61248954932238757 / 36028797018963968)
      = 7656119366529845 / 4503599627370496 :=
    roundDouble_eval_near _ _ (0) 7656119366529845 (by norm_num)
  have h50 : roundDouble (139791732433580189 / 144115188075855872)
      = 4368491638549381 / 4503599627370496 :=
    roundDouble_eval_near _ _ (-1) 8736983277098762 (by norm_num)
  have h51 : roundDouble (7205759403792795 / 36028797018963968)
      = 7205759403792795 / 36028797018963968 :=
    roundDouble_eval_exact _ (7205759403792795) (-55) (by norm_num)
  have h52 : roundDouble (64851834634135157 / 36028797018963968)
      = 8106479329266895 / 4503599627370496 :=
    roundDouble_eval_near _ _ (0) 8106479329266895 (by norm_num)
  have h53 : roundDouble (1441151880758559 / 72057594037927936)
      = 1441151880758559 / 72057594037927936 :=
    roundDouble_eval_exact _ (1441151880758559) (-56) (by norm_num)
  have h54 : roundDouble (71337018097548655 / 72057594037927936)
      = 4458563631096791 / 4503599627370496 :=
    roundDouble_eval_near _ _ (-1) 8917127262193582 (by norm_num)
  have h55 : roundDouble (1801439850948199 / 18014398509481984)
      = 1801439850948199 / 18014398509481984 :=
    roundDouble_eval_exact _ (1801439850948199) (-54) (by norm_num)
  have h56 : roundDouble (68454714336031557 / 36028797018963968)
      = 8556839292003945 / 4503599627370496 :=
    roundDouble_eval_near _ _ (0) 8556839292003945 (by norm_num)
  have h57 : roundDouble (1801439850948199 / 180143985094819840)
      = 5764607523034237 / 576460752303423488 :=
    roundDouble_eval_near _ _ (-7) 5764607523034237 (by norm_num)
  have h58 : roundDouble (576460752303423485 / 576460752303423488) = 1 :=
    roundDouble_eval_near _ _ (-1) 9007199254740992 (by norm_num)
  have h59 : roundDouble (1 / 36028797018963968) = 1 / 36028797018963968 :=
    roundDouble_eval_exact _ (1) (-55) (by norm_num)
  have h60 : roundDouble (72057594037927957 / 36028797018963968)
      = 4503599627370497 / 2251799813685248 :=
    roundDouble_eval_near _ _ (1) 4503599627370497 (by norm_num)
  have h61 : roundDouble (1 / 360287970189639680)
      = 3602879701896397 / 1298074214633706907132624082305024 :=
    roundDouble_eval_near _ _ (-59) 7205759403792794 (by norm_num)
  have h62 : roundDouble (1298074214633706910735503784201421 / 1298074214633706907132624082305024)
      = 1 :=
    roundDouble_eval_near _ _ (0) 4503599627370496 (by norm_num)
  have h63 : roundDouble (900719925474099 / 9007199254740992)
      = 900719925474099 / 9007199254740992 :=
    roundDouble_eval_exact _ (900719925474099) (-53) (by norm_num)
  have h64 : roundDouble (75660473739824349 / 36028797018963968)
      = 2364389804369511 / 1125899906842624 :=
    roundDouble_eval_near _ _ (1) 4728779608739022 (by norm_num)
  have h65 : roundDouble (900719925474099 / 90071992547409920)
      = 2882303761517117 / 288230376151711744 :=
    roundDouble_eval_near _ _ (-7) 5764607523034234 (by norm_num)
  have h66 : roundDouble (285348072390194627 / 288230376151711744)
      = 4458563631096791 / 4503599627370496 :=
    roundDouble_eval_near _ _ (-1) 8917127262193582 (by norm_num)
  unfold scenarioDoubleTicks
  iterate 21
    refine tickTrace_step _ _ _ _ _ _ _ _ _ _ _ (by norm_num)
      (by norm_num [nextVelocity, scenarioConfig, ieee_round, roundDouble_zero, roundDouble_neg,
        h1, h2, h3, h4, h5, h6, h7, h8, h9, h10, h11, h12, h13, h14, h15, h16, h17, h18, h19, h20,
        h21, h22, h23, h24, h25, h26, h27, h28, h29, h30, h31, h32, h33, h34, h35, h36, h37, h38,
        h39, h40, h41, h42, h43, h44, h45, h46, h47, h48, h49, h50, h51, h52, h53, h54, h55, h56,
        h57, h58, h59, h60, h61, h62, h63, h64, h65, h66])
      (by norm_num [scenarioConfig, ieee_round, roundDouble_zero, roundDouble_neg,
        h1, h2, h3, h4, h5, h6, h7, h8, h9, h10, h11, h12, h13, h14, h15, h16, h17, h18, h19, h20,
        h21, h22, h23, h24, h25, h26, h27, h28, h29, h30, h31, h32, h33, h34, h35, h36, h37, h38,
        h39, h40, h41, h42, h43, h44, h45, h46, h47, h48, h49, h50, h51, h52, h53, h54, h55, h56,
        h57, h58, h59, h60, h61, h62, h63, h64, h65, h66])
      (by norm_num [scenarioConfig, ieee_round, roundDouble_zero, roundDouble_neg,
        h1, h2, h3, h4, h5, h6, h7, h8, h9, h10, h11, h12, h13, h14, h15, h16, h17, h18, h19, h20,
        h21, h22, h23, h24, h25, h26, h27, h28, h29, h30, h31, h32, h33, h34, h35, h36, h37, h38,
        h39, h40, h41, h42, h43, h44, h45, h46, h47, h48, h49, h50, h51, h52, h53, h54, h55, h56,
        h57, h58, h59, h60, h61, h62, h63, h64, h65, h66]) ?_
  exact tickTrace_done _ _ _ _ _ _ _ (by norm_num)

/-- The time stamps of the simple-accept scenario in double arithmetic. -/
theorem scenario_double_stamps (env : Env) (start_pos direction : Vec3) (yaw : ℚ) :
    (scenarioDoubleTicks.map (waypointOf env.ieee start_pos direction yaw)).map
        (fun p => p.time_from_start_ns)
      = [100000000, 200000000, 300000000, 400000000, 500000000, 600000000, 700000000, 799999999,
        899999999, 999999999, 1099999999, 1200000000, 1300000000, 1400000000, 1500000000,
        1600000000, 1700000000, 1800000000, 1900000000, 2000000000, 2100000000] := by
  have h1 : roundDouble (7036874417766400390625 / 70368744177664) = 100000000 :=
    roundDouble_eval_near _ _ (26) 6710886400000000 (by norm_num)
  have h2 : roundDouble (7036874417766400390625 / 35184372088832) = 200000000 :=
    roundDouble_eval_near _ _ (27) 6710886400000000 (by norm_num)
  have h3 : roundDouble (2638827906662400390625 / 8796093022208) = 5033164800000001 / 16777216 :=
    roundDouble_eval_near _ _ (28) 5033164800000001 (by norm_num)
  have h4 : roundDouble (7036874417766400390625 / 17592186044416) = 400000000 :=
    roundDouble_eval_near _ _ (28) 6710886400000000 (by norm_num)
  have h5 : roundDouble (500000000) = 500000000 :=
    roundDouble_eval_exact _ (500000000) (0) (by norm_num)
  have h6 : roundDouble (10555311626649599609375 / 17592186044416) = 600000000 :=
    roundDouble_eval_near _ _ (29) 5033164800000000 (by norm_num)
  have h7 : roundDouble (6157265115545599609375 / 8796093022208) = 700000000 :=
    roundDouble_eval_near _ _ (29) 5872025600000000 (by norm_num)
  have h8 : roundDouble (14073748835532798828125 / 17592186044416) = 6710886399999999 / 8388608 :=
    roundDouble_eval_near _ _ (29) 6710886399999999 (by norm_num)
  have h9 : roundDouble (3958241859993599609375 / 4398046511104) = 7549747199999999 / 8388608 :=
    roundDouble_eval_near _ _ (29) 7549747199999999 (by norm_num)
  have h10 : roundDouble (17592186044415998046875 / 17592186044416) = 8388607999999999 / 8388608 :=
    roundDouble_eval_near _ _ (29) 8388607999999999 (by norm_num)
  have h11 : roundDouble (9675702324428798828125 / 8796093022208) = 4613734399999999 / 4194304 :=
    roundDouble_eval_near _ _ (30) 4613734399999999 (by norm_num)
  have h12 : roundDouble (10555311626649599609375 / 8796093022208) = 1200000000 :=
    roundDouble_eval_near _ _ (30) 5033164800000000 (by norm_num)
  have h13 : roundDouble (11434920928870400390625 / 8796093022208) = 1300000000 :=
    roundDouble_eval_near _ _ (30) 5452595200000000 (by norm_num)
  have h14 : roundDouble (12314530231091201171875 / 8796093022208) = 5872025600000001 / 4194304 :=
    roundDouble_eval_near _ _ (30) 5872025600000001 (by norm_num)
  have h15 : roundDouble (13194139533312001953125 / 8796093022208) = 6291456000000001 / 4194304 :=
    roundDouble_eval_near _ _ (30) 6291456000000001 (by norm_num)
  have h16 : roundDouble (14073748835532802734375 / 8796093022208) = 6710886400000001 / 4194304 :=
    roundDouble_eval_near _ _ (30) 6710886400000001 (by norm_num)
  have h17 : roundDouble (14953358137753603515625 / 8796093022208) = 3565158400000001 / 2097152 :=
    roundDouble_eval_near _ _ (30) 7130316800000002 (by norm_num)
  have h18 : roundDouble (15832967439974404296875 / 8796093022208) = 3774873600000001 / 2097152 :=
    roundDouble_eval_near _ _ (30) 7549747200000002 (by norm_num)
  have h19 : roundDouble (16712576742195205078125 / 8796093022208) = 3984588800000001 / 2097152 :=
    roundDouble_eval_near _ _ (30) 7969177600000002 (by norm_num)
  have h20 : roundDouble (8796093022208001953125 / 4398046511104) = 4194304000000001 / 2097152 :=
    roundDouble_eval_near _ _ (30) 8388608000000002 (by norm_num)
  have h21 : roundDouble (4617948836659201171875 / 2199023255552) = 4404019200000001 / 2097152 :=
    roundDouble_eval_near _ _ (30) 8808038400000002 (by norm_num)
  norm_num [scenarioDoubleTicks, waypointOf, toInt64, ieee_round,
    h1, h2, h3, h4, h5, h6, h7, h8, h9, h10, h11, h12, h13, h14, h15, h16, h17, h18, h19, h20, h21]
  decide

/-- The tick values of the run with the default parameters in double arithmetic. -/
theorem default_double_trace (env : Env) :
    tickTrace defaultConfig env.ieee (1 / 2) 40 0 0 0 = some defaultDoubleTicks := by
  have h1 : roundDouble (1 / 20) = 3602879701896397 / 72057594037927936 :=
    roundDouble_eval_near _ _ (-5) 7205759403792794 (by norm_num)
  have h2 : roundDouble (3602879701896397 / 72057594037927936)
      = 3602879701896397 / 72057594037927936 :=
    roundDouble_eval_exact _ (3602879701896397) (-56) (by norm_num)
  have h3 : roundDouble (3602879701896397 / 1441151880758558720)
      = 5764607523034235 / 2305843009213693952 :=
    roundDouble_eval_near _ _ (-9) 5764607523034235 (by norm_num)
  have h4 : roundDouble (5764607523034235 / 2305843009213693952)
      = 5764607523034235 / 2305843009213693952 :=
    roundDouble_eval_exact _ (5764607523034235) (-61) (by norm_num)
  have h5 : roundDouble (3602879701896397 / 36028797018963968)
      = 3602879701896397 / 36028797018963968 :=
    roundDouble_eval_exact _ (3602879701896397) (-55) (by norm_num)
  have h6 : roundDouble (3602879701896397 / 720575940379279360)
      = 5764607523034235 / 1152921504606846976 :=
    roundDouble_eval_near _ _ (-8) 5764607523034235 (by norm_num)
  have h7 : roundDouble (17293822569102705 / 2305843009213693952)
      = 1080863910568919 / 144115188075855872 :=
    roundDouble_eval_tie _ _ (-8) 8646911284551352 8646911284551352 (by norm_num)
  have h8 : roundDouble (10808639105689191 / 72057594037927936)
      = 1351079888211149 / 9007199254740992 :=
    roundDouble_eval_tie _ _ (-3) 5404319552844595 5404319552844596 (by norm_num)
  have h9 : roundDouble (1351079888211149 / 180143985094819840)
      = 4323455642275677 / 576460752303423488 :=
    roundDouble_eval_near _ _ (-8) 8646911284551354 (by norm_num)
  have h10 : roundDouble (8646911284551353 / 576460752303423488)
      = 8646911284551353 / 576460752303423488 :=
    roundDouble_eval_exact _ (8646911284551353) (-59) (by norm_num)
  have h11 : roundDouble (14411518807585589 / 72057594037927936)
      = 3602879701896397 / 18014398509481984 :=
    roundDouble_eval_tie _ _ (-3) 7205759403792794 7205759403792794 (by norm_num)
  have h12 : roundDouble (3602879701896397 / 360287970189639680)
      = 5764607523034235 / 576460752303423488 :=
    roundDouble_eval_near _ _ (-7) 5764607523034235 (by norm_num)
  have h13 : roundDouble (3602879701896397 / 144115188075855872)
      = 3602879701896397 / 144115188075855872 :=
    roundDouble_eval_exact _ (3602879701896397) (-57) (by norm_num)
  have h14 : roundDouble (18014398509481985 / 72057594037927936) = 1 / 4 :=
    roundDouble_eval_near _ _ (-2) 4503599627370496 (by norm_num)
  have h15 : roundDouble (1 / 80) = 3602879701896397 / 288230376151711744 :=
    roundDouble_eval_near _ _ (-7) 7205759403792794 (by norm_num)
  have h16 : roundDouble (10808639105689191 / 288230376151711744)
      = 1351079888211149 / 36028797018963968 :=
    roundDouble_eval_tie _ _ (-5) 5404319552844595 5404319552844596 (by norm_num)
  have h17 : roundDouble (21617278211378381 / 72057594037927936)
      = 5404319552844595 / 18014398509481984 :=
    roundDouble_eval_near _ _ (-2) 5404319552844595 (by norm_num)
  have h18 : roundDouble (1080863910568919 / 72057594037927936)
      = 1080863910568919 / 72057594037927936 :=
    roundDouble_eval_exact _ (1080863910568919) (-56) (by norm_num)
  have h19 : roundDouble (3783023686991217 / 72057594037927936)
      = 3783023686991217 / 72057594037927936 :=
    roundDouble_eval_exact _ (3783023686991217) (-56) (by norm_num)
  have h20 : roundDouble (25220157913274777 / 72057594037927936)
      = 3152519739159347 / 9007199254740992 :=
    roundDouble_eval_near _ _ (-2) 6305039478318694 (by norm_num)
  have h21 : roundDouble (3152519739159347 / 180143985094819840)
      = 5044031582654955 / 288230376151711744 :=
    roundDouble_eval_near _ _ (-6) 5044031582654955 (by norm_num)
  have h22 : roundDouble (20176126330619823 / 288230376151711744)
      = 1261007895663739 / 18014398509481984 :=
    roundDouble_eval_near _ _ (-4) 5044031582654956 (by norm_num)
  have h23 : roundDouble (28823037615171173 / 72057594037927936)
      = 7205759403792793 / 18014398509481984 :=
    roundDouble_eval_near _ _ (-2) 7205759403792793 (by norm_num)
  have h24 : roundDouble (7205759403792793 / 360287970189639680)
      = 2882303761517117 / 144115188075855872 :=
    roundDouble_eval_near _ _ (-6) 5764607523034234 (by norm_num)
  have h25 : roundDouble (12970366926827029 / 144115188075855872)
      = 3242591731706757 / 36028797018963968 :=
    roundDouble_eval_tie _ _ (-4) 6485183463413514 6485183463413514 (by norm_num)
  have h26 : roundDouble (32425917317067569 / 72057594037927936)
      = 2026619832316723 / 4503599627370496 :=
    roundDouble_eval_near _ _ (-2) 8106479329266892 (by norm_num)
  have h27 : roundDouble (2026619832316723 / 90071992547409920)
      = 3242591731706757 / 144115188075855872 :=
    roundDouble_eval_near _ _ (-6) 6485183463413514 (by norm_num)
  have h28 : roundDouble (16212958658533785 / 144115188075855872)
      = 2026619832316723 / 18014398509481984 :=
    roundDouble_eval_tie _ _ (-4) 8106479329266892 8106479329266892 (by norm_num)
  have h29 : roundDouble (36028797018963965 / 72057594037927936)
      = 9007199254740991 / 18014398509481984 :=
    roundDouble_eval_near _ _ (-2) 9007199254740991 (by norm_num)
  have h30 : roundDouble (9007199254740991 / 360287970189639680)
      = 7205759403792793 / 288230376151711744 :=
    roundDouble_eval_near _ _ (-6) 7205759403792793 (by norm_num)
  have h31 : roundDouble (39631676720860361 / 288230376151711744)
      = 4953959590107545 / 36028797018963968 :=
    roundDouble_eval_near _ _ (-3) 4953959590107545 (by norm_num)
  have h32 : roundDouble (39631676720860361 / 72057594037927936)
      = 4953959590107545 / 9007199254740992 :=
    roundDouble_eval_near _ _ (-1) 4953959590107545 (by norm_num)
  have h33 : roundDouble (990791918021509 / 36028797018963968)
      = 990791918021509 / 36028797018963968 :=
    roundDouble_eval_exact _ (990791918021509) (-55) (by norm_num)
  have h34 : roundDouble (2972375754064527 / 18014398509481984)
      = 2972375754064527 / 18014398509481984 :=
    roundDouble_eval_exact _ (2972375754064527) (-54) (by norm_num)
  have h35 : roundDouble (43234556422756757 / 72057594037927936)
      = 5404319552844595 / 9007199254740992 :=
    roundDouble_eval_near _ _ (-1) 5404319552844595 (by norm_num)
  have h36 : roundDouble (1080863910568919 / 36028797018963968)
      = 1080863910568919 / 36028797018963968 :=
    roundDouble_eval_exact _ (1080863910568919) (-55) (by norm_num)
  have h37 : roundDouble (7025615418697973 / 36028797018963968)
      = 7025615418697973 / 36028797018963968 :=
    roundDouble_eval_exact _ (7025615418697973) (-55) (by norm_num)
  have h38 : roundDouble (46837436124653157 / 72057594037927936)
      = 5854679515581645 / 9007199254740992 :=
    roundDouble_eval_near _ _ (-1) 5854679515581645 (by norm_num)
  have h39 : roundDouble (1170935903116329 / 36028797018963968)
      = 1170935903116329 / 36028797018963968 :=
    roundDouble_eval_exact _ (1170935903116329) (-55) (by norm_num)
  have h40 : roundDouble (4098275660907151 / 18014398509481984)
      = 4098275660907151 / 18014398509481984 :=
    roundDouble_eval_exact _ (4098275660907151) (-54) (by norm_num)
  have h41 : roundDouble (50440315826549557 / 72057594037927936)
      = 6305039478318695 / 9007199254740992 :=
    roundDouble_eval_near _ _ (-1) 6305039478318695 (by norm_num)
  have h42 : roundDouble (1261007895663739 / 36028797018963968)
      = 1261007895663739 / 36028797018963968 :=
    roundDouble_eval_exact _ (1261007895663739) (-55) (by norm_num)
  have h43 : roundDouble (9457559217478041 / 36028797018963968)
      = 1182194902184755 / 4503599627370496 :=
    roundDouble_eval_tie _ _ (-2) 4728779608739020 4728779608739020 (by norm_num)
  have h44 : roundDouble (54043195528445957 / 72057594037927936)
      = 6755399441055745 / 9007199254740992 :=
    roundDouble_eval_near _ _ (-1) 6755399441055745 (by norm_num)
  have h45 : roundDouble (1351079888211149 / 36028797018963968)
      = 1351079888211149 / 36028797018963968 :=
    roundDouble_eval_exact _ (1351079888211149) (-55) (by norm_num)
  have h46 : roundDouble (10808639105689189 / 36028797018963968)
      = 2702159776422297 / 9007199254740992 :=
    roundDouble_eval_tie _ _ (-2) 5404319552844594 5404319552844594 (by norm_num)
  have h47 : roundDouble (57646075230342357 / 72057594037927936)
      = 7205759403792795 / 9007199254740992 :=
    roundDouble_eval_near _ _ (-1) 7205759403792795 (by norm_num)
  have h48 : roundDouble (1441151880758559 / 36028797018963968)
      = 1441151880758559 / 36028797018963968 :=
    roundDouble_eval_exact _ (1441151880758559) (-55) (by norm_num)
  have h49 : roundDouble (12249790986447747 / 36028797018963968)
      = 3062447746611937 / 9007199254740992 :=
    roundDouble_eval_tie _ _ (-2) 6124895493223873 6124895493223874 (by norm_num)
  have h50 : roundDouble (61248954932238757 / 72057594037927936)
      = 7656119366529845 / 9007199254740992 :=
    roundDouble_eval_near _ _ (-1) 7656119366529845 (by norm_num)
  have h51 : roundDouble (1531223873305969 / 36028797018963968)
      = 1531223873305969 / 36028797018963968 :=
    roundDouble_eval_exact _ (1531223873305969) (-55) (by norm_num)
  have h52 : roundDouble (13781014859753717 / 36028797018963968)
      = 3445253714938429 / 9007199254740992 :=
    roundDouble_eval_tie _ _ (-2) 6890507429876858 6890507429876858 (by norm_num)
  have h53 : roundDouble (64851834634135157 / 72057594037927936)
      = 8106479329266895 / 9007199254740992 :=
    roundDouble_eval_near _ _ (-1) 8106479329266895 (by norm_num)
  have h54 : roundDouble (1621295865853379 / 36028797018963968)
      = 1621295865853379 / 36028797018963968 :=
    roundDouble_eval_exact _ (1621295865853379) (-55) (by norm_num)
  have h55 : roundDouble (15402310725607095 / 36028797018963968)
      = 1925288840700887 / 4503599627370496 :=
    roundDouble_eval_tie _ _ (-2) 7701155362803547 7701155362803548 (by norm_num)
  have h56 : roundDouble (68454714336031557 / 72057594037927936)
      = 8556839292003945 / 9007199254740992 :=
    roundDouble_eval_near _ _ (-1) 8556839292003945 (by norm_num)
  have h57 : roundDouble (1711367858400789 / 36028797018963968)
      = 1711367858400789 / 36028797018963968 :=
    roundDouble_eval_exact _ (1711367858400789) (-55) (by norm_num)
  have h58 : roundDouble (17113678584007885 / 36028797018963968)
      = 4278419646001971 / 9007199254740992 :=
    roundDouble_eval_tie _ _ (-2) 8556839292003942 8556839292003942 (by norm_num)
  have h59 : roundDouble (72057594037927957 / 72057594037927936)
      = 4503599627370497 / 4503599627370496 :=
    roundDouble_eval_near _ _ (0) 4503599627370497 (by norm_num)
  have h60 : roundDouble (37830236869912165 / 72057594037927936)
      = 4728779608739021 / 9007199254740992 :=
    roundDouble_eval_near _ _ (-1) 4728779608739021 (by norm_num)
  have h61 : roundDouble (68454714336031539 / 72057594037927936)
      = 4278419646001971 / 4503599627370496 :=
    roundDouble_eval_near _ _ (-1) 8556839292003942 (by norm_num)
  have h62 : roundDouble (75660473739824349 / 72057594037927936)
      = 2364389804369511 / 2251799813685248 :=
    roundDouble_eval_near _ _ (0) 4728779608739022 (by norm_num)
  have h63 : roundDouble (4278419646001971 / 90071992547409920)
      = 3422735716801577 / 72057594037927936 :=
    roundDouble_eval_near _ _ (-5) 6845471433603154 (by norm_num)
  have h64 : roundDouble (41252972586713745 / 72057594037927936)
      = 2578310786669609 / 4503599627370496 :=
    roundDouble_eval_near _ _ (-1) 5156621573339218 (by norm_num)
  have h65 : roundDouble (64851834634135139 / 72057594037927936)
      = 2026619832316723 / 2251799813685248 :=
    roundDouble_eval_near _ _ (-1) 8106479329266892 (by norm_num)
  have h66 : roundDouble (79263353441720749 / 72057594037927936)
      = 4953959590107547 / 4503599627370496 :=
    roundDouble_eval_near _ _ (0) 4953959590107547 (by norm_num)
  have h67 : roundDouble (2026619832316723 / 45035996273704960)
      = 3242591731706757 / 72057594037927936 :=
    roundDouble_eval_near _ _ (-5) 6485183463413514 (by norm_num)
  have h68 : roundDouble (44495564318420501 / 72057594037927936)
      = 5561945539802563 / 9007199254740992 :=
    roundDouble_eval_near _ _ (-1) 5561945539802563 (by norm_num)
  have h69 : roundDouble (61248954932238739 / 72057594037927936)
      = 3828059683264921 / 4503599627370496 :=
    roundDouble_eval_near _ _ (-1) 7656119366529842 (by norm_num)
  have h70 : roundDouble (82866233143617149 / 72057594037927936)
      = 647392446434509 / 562949953421312 :=
    roundDouble_eval_near _ _ (0) 5179139571476072 (by norm_num)
  have h71 : roundDouble (3828059683264921 / 90071992547409920)
      = 3062447746611937 / 72057594037927936 :=
    roundDouble_eval_near _ _ (-5) 6124895493223874 (by norm_num)
  have h72 : roundDouble (47558012065032441 / 72057594037927936)
      = 5944751508129055 / 9007199254740992 :=
    roundDouble_eval_near _ _ (-1) 5944751508129055 (by norm_num)
  have h73 : roundDouble (57646075230342339 / 72057594037927936)
      = 900719925474099 / 1125899906842624 :=
    roundDouble_eval_near _ _ (-1) 7205759403792792 (by norm_num)
  have h74 : roundDouble (86469112845513549 / 72057594037927936)
      = 5404319552844597 / 4503599627370496 :=
    roundDouble_eval_near _ _ (0) 5404319552844597 (by norm_num)
  have h75 : roundDouble (900719925474099 / 22517998136852480)
      = 2882303761517117 / 72057594037927936 :=
    roundDouble_eval_near _ _ (-5) 5764607523034234 (by norm_num)
  have h76 : roundDouble (54043195528445939 / 72057594037927936)
      = 3377699720527871 / 4503599627370496 :=
    roundDouble_eval_near _ _ (-1) 6755399441055742 (by norm_num)
  have h77 : roundDouble (90071992547409949 / 72057594037927936)
      = 2814749767106561 / 2251799813685248 :=
    roundDouble_eval_near _ _ (0) 5629499534213122 (by norm_num)
  have h78 : roundDouble (3377699720527871 / 90071992547409920)
      = 2702159776422297 / 72057594037927936 :=
    roundDouble_eval_near _ _ (-5) 5404319552844594 (by norm_num)
  have h79 : roundDouble (53142475602971857 / 72057594037927936)
      = 3321404725185741 / 4503599627370496 :=
    roundDouble_eval_near _ _ (-1) 6642809450371482 (by norm_num)
  have h80 : roundDouble (50440315826549539 / 72057594037927936)
      = 1576259869579673 / 2251799813685248 :=
    roundDouble_eval_near _ _ (-1) 6305039478318692 (by norm_num)
  have h81 : roundDouble (93674872249306349 / 72057594037927936)
      = 5854679515581647 / 4503599627370496 :=
    roundDouble_eval_near _ _ (0) 5854679515581647 (by norm_num)
  have h82 : roundDouble (1576259869579673 / 45035996273704960)
      = 2522015791327477 / 72057594037927936 :=
    roundDouble_eval_near _ _ (-5) 5044031582654954 (by norm_num)
  have h83 : roundDouble (55664491394299333 / 72057594037927936)
      = 6958061424287417 / 9007199254740992 :=
    roundDouble_eval_near _ _ (-1) 6958061424287417 (by norm_num)
  have h84 : roundDouble (46837436124653139 / 72057594037927936)
      = 2927339757790821 / 4503599627370496 :=
    roundDouble_eval_near _ _ (-1) 5854679515581642 (by norm_num)
  have h85 : roundDouble (97277751951202749 / 72057594037927936)
      = 1519964874237543 / 1125899906842624 :=
    roundDouble_eval_near _ _ (0) 6079859496950172 (by norm_num)
  have h86 : roundDouble (2927339757790821 / 90071992547409920)
      = 2341871806232657 / 72057594037927936 :=
    roundDouble_eval_near _ _ (-5) 4683743612465314 (by norm_num)
  have h87 : roundDouble (58006363200531993 / 72057594037927936)
      = 7250795400066499 / 9007199254740992 :=
    roundDouble_eval_near _ _ (-1) 7250795400066499 (by norm_num)
  have h88 : roundDouble (43234556422756739 / 72057594037927936)
      = 337769972052787 / 562949953421312 :=
    roundDouble_eval_near _ _ (-1) 5404319552844592 (by norm_num)
  have h89 : roundDouble (100880631653099149 / 72057594037927936)
      = 6305039478318697 / 4503599627370496 :=
    roundDouble_eval_near _ _ (0) 6305039478318697 (by norm_num)
  have h90 : roundDouble (337769972052787 / 11258999068426240)
      = 8646911284551347 / 288230376151711744 :=
    roundDouble_eval_near _ _ (-6) 8646911284551347 (by norm_num)
  have h91 : roundDouble (240672364086679315 / 288230376151711744)
      = 7521011377708729 / 9007199254740992 :=
    roundDouble_eval_near _ _ (-1) 7521011377708729 (by norm_num)
  have h92 : roundDouble (39631676720860339 / 72057594037927936)
      = 2476979795053771 / 4503599627370496 :=
    roundDouble_eval_near _ _ (-1) 4953959590107542 (by norm_num)
  have h93 : roundDouble (104483511354995549 / 72057594037927936)
      = 3265109729843611 / 2251799813685248 :=
    roundDouble_eval_near _ _ (0) 6530219459687222 (by norm_num)
  have h94 : roundDouble (2476979795053771 / 90071992547409920)
      = 7926335344172067 / 288230376151711744 :=
    roundDouble_eval_near _ _ (-6) 7926335344172067 (by norm_num)
  have h95 : roundDouble (248598699430851395 / 288230376151711744)
      = 3884354678607053 / 4503599627370496 :=
    roundDouble_eval_near _ _ (-1) 7768709357214106 (by norm_num)
  have h96 : roundDouble (36028797018963939 / 72057594037927936)
      = 9007199254740985 / 18014398509481984 :=
    roundDouble_eval_near _ _ (-2) 9007199254740985 (by norm_num)
  have h97 : roundDouble (108086391056891949 / 72057594037927936)
      = 6755399441055747 / 4503599627370496 :=
    roundDouble_eval_near _ _ (0) 6755399441055747 (by norm_num)
  have h98 : roundDouble (1801439850948197 / 72057594037927936)
      = 1801439850948197 / 72057594037927936 :=
    roundDouble_eval_exact _ (1801439850948197) (-56) (by norm_num)
  have h99 : roundDouble (63951114708661045 / 72057594037927936)
      = 7993889338582631 / 9007199254740992 :=
    roundDouble_eval_near _ _ (-1) 7993889338582631 (by norm_num)
  have h100 : roundDouble (32425917317067543 / 72057594037927936)
      = 4053239664633443 / 9007199254740992 :=
    roundDouble_eval_near _ _ (-2) 8106479329266886 (by norm_num)
  have h101 : roundDouble (111689270758788349 / 72057594037927936)
      = 436286213901517 / 281474976710656 :=
    roundDouble_eval_near _ _ (0) 6980579422424272 (by norm_num)
  have h102 : roundDouble (4053239664633443 / 180143985094819840)
      = 6485183463413509 / 288230376151711744 :=
    roundDouble_eval_near _ _ (-6) 6485183463413509 (by norm_num)
  have h103 : roundDouble (262289642298057701 / 288230376151711744)
      = 8196551321814303 / 9007199254740992 :=
    roundDouble_eval_near _ _ (-1) 8196551321814303 (by norm_num)
  have h104 : roundDouble (28823037615171147 / 72057594037927936)
      = 7205759403792787 / 18014398509481984 :=
    roundDouble_eval_near _ _ (-2) 7205759403792787 (by norm_num)
  have h105 : roundDouble (115292150460684749 / 72057594037927936)
      = 7205759403792797 / 4503599627370496 :=
    roundDouble_eval_near _ _ (0) 7205759403792797 (by norm_num)
  have h106 : roundDouble (7205759403792787 / 360287970189639680)
      = 2882303761517115 / 144115188075855872 :=
    roundDouble_eval_near _ _ (-6) 5764607523034230 (by norm_num)
  have h107 : roundDouble (134027124910545963 / 144115188075855872)
      = 8376695306909123 / 9007199254740992 :=
    roundDouble_eval_near _ _ (-1) 8376695306909123 (by norm_num)
  have h108 : roundDouble (25220157913274751 / 72057594037927936)
      = 197032483697459 / 562949953421312 :=
    roundDouble_eval_near _ _ (-2) 6305039478318688 (by norm_num)
  have h109 : roundDouble (118895030162581149 / 72057594037927936)
      = 3715469692580661 / 2251799813685248 :=
    roundDouble_eval_near _ _ (0) 7430939385161322 (by norm_num)
  have h110 : roundDouble (197032483697459 / 11258999068426240)
      = 2522015791327475 / 144115188075855872 :=
    roundDouble_eval_near _ _ (-6) 5044031582654950 (by norm_num)
  have h111 : roundDouble (136549140701873443 / 144115188075855872)
      = 4267160646933545 / 4503599627370496 :=
    roundDouble_eval_near _ _ (-1) 8534321293867090 (by norm_num)
  have h112 : roundDouble (21617278211378355 / 72057594037927936)
      = 5404319552844589 / 18014398509481984 :=
    roundDouble_eval_near _ _ (-2) 5404319552844589 (by norm_num)
  have h113 : roundDouble (122497909864477549 / 72057594037927936)
      = 7656119366529847 / 4503599627370496 :=
    roundDouble_eval_near _ _ (0) 7656119366529847 (by norm_num)
  have h114 : roundDouble (5404319552844589 / 360287970189639680)
      = 4323455642275671 / 288230376151711744 :=
    roundDouble_eval_near _ _ (-7) 8646911284551342 (by norm_num)
  have h115 : roundDouble (277421737046022551 / 288230376151711744)
      = 8669429282688205 / 9007199254740992 :=
    roundDouble_eval_near _ _ (-1) 8669429282688205 (by norm_num)
  have h116 : roundDouble (18014398509481959 / 72057594037927936)
      = 2251799813685245 / 9007199254740992 :=
    roundDouble_eval_tie _ _ (-3) 9007199254740979 9007199254740980 (by norm_num)
  have h117 : roundDouble (126100789566373949 / 72057594037927936)
      = 1970324836974593 / 1125899906842624 :=
    roundDouble_eval_near _ _ (0) 7881299347898372 (by norm_num)
  have h118 : roundDouble (450359962737049 / 36028797018963968)
      = 450359962737049 / 36028797018963968 :=
    roundDouble_eval_exact _ (450359962737049) (-55) (by norm_num)
  have h119 : roundDouble (35128077093489869 / 36028797018963968)
      = 8782019273372467 / 9007199254740992 :=
    roundDouble_eval_near _ _ (-1) 8782019273372467 (by norm_num)
  have h120 : roundDouble (14411518807585563 / 72057594037927936)
      = 3602879701896391 / 18014398509481984 :=
    roundDouble_eval_tie _ _ (-3) 7205759403792781 7205759403792782 (by norm_num)
  have h121 : roundDouble (129703669268270349 / 72057594037927936)
      = 8106479329266897 / 4503599627370496 :=
    roundDouble_eval_near _ _ (0) 8106479329266897 (by norm_num)
  have h122 : roundDouble (3602879701896391 / 360287970189639680)
      = 2882303761517113 / 288230376151711744 :=
    roundDouble_eval_near _ _ (-7) 5764607523034226 (by norm_num)
  have h123 : roundDouble (283906920509436057 / 288230376151711744)
      = 8872091265919877 / 9007199254740992 :=
    roundDouble_eval_near _ _ (-1) 8872091265919877 (by norm_num)
  have h124 : roundDouble (10808639105689167 / 72057594037927936)
      = 675539944105573 / 4503599627370496 :=
    roundDouble_eval_tie _ _ (-3) 5404319552844583 5404319552844584 (by norm_num)
  have h125 : roundDouble (133306548970166749 / 72057594037927936)
      = 4165829655317711 / 2251799813685248 :=
    roundDouble_eval_near _ _ (0) 8331659310635422 (by norm_num)
  have h126 : roundDouble (675539944105573 / 90071992547409920)
      = 4323455642275667 / 576460752303423488 :=
    roundDouble_eval_near _ _ (-8) 8646911284551334 (by norm_num)
  have h127 : roundDouble (572137296661147795 / 576460752303423488)
      = 4469822630165217 / 4503599627370496 :=
    roundDouble_eval_near _ _ (-1) 8939645260330434 (by norm_num)
  have h128 : roundDouble (7205759403792771 / 72057594037927936)
      = 7205759403792771 / 72057594037927936 :=
    roundDouble_eval_exact _ (7205759403792771) (-56) (by norm_num)
  have h129 : roundDouble (136909428672063149 / 72057594037927936)
      = 8556839292003947 / 4503599627370496 :=
    roundDouble_eval_near _ _ (0) 8556839292003947 (by norm_num)
  have h130 : roundDouble (7205759403792771 / 1441151880758558720)
      = 5764607523034217 / 1152921504606846976 :=
    roundDouble_eval_near _ _ (-8) 5764607523034217 (by norm_num)
  have h131 : roundDouble (1150039200845329769 / 1152921504606846976)
      = 8984681256604139 / 9007199254740992 :=
    roundDouble_eval_near _ _ (-1) 8984681256604139 (by norm_num)
  have h132 : roundDouble (1801439850948187 / 36028797018963968)
      = 1801439850948187 / 36028797018963968 :=
    roundDouble_eval_exact _ (1801439850948187) (-55) (by norm_num)
  have h133 : roundDouble (140512308373959549 / 72057594037927936)
      = 1097752409171559 / 562949953421312 :=
    roundDouble_eval_near _ _ (0) 8782019273372472 (by norm_num)
  have h134 : roundDouble (1801439850948187 / 720575940379279360)
      = 2882303761517099 / 1152921504606846976 :=
    roundDouble_eval_near _ _ (-9) 5764607523034198 (by norm_num)
  have h135 : roundDouble (1152921504606846891 / 1152921504606846976)
      = 9007199254740991 / 9007199254740992 :=
    roundDouble_eval_near _ _ (-1) 9007199254740991 (by norm_num)
  have h136 : roundDouble (23 / 72057594037927936) = 23 / 72057594037927936 :=
    roundDouble_eval_exact _ (23) (-56) (by norm_num)
  have h137 : roundDouble (144115188075855949 / 72057594037927936)
      = 2251799813685249 / 1125899906842624 :=
    roundDouble_eval_near _ _ (1) 4503599627370498 (by norm_num)
  have h138 : roundDouble (23 / 1441151880758558720)
      = 2589569785738035 / 162259276829213363391578010288128 :=
    roundDouble_eval_near _ _ (-56) 5179139571476070 (by norm_num)
  have h139 : roundDouble (162259276829213342787609715068109 / 162259276829213363391578010288128)
      = 9007199254740991 / 9007199254740992 :=
    roundDouble_eval_near _ _ (-1) 9007199254740991 (by norm_num)
  unfold defaultDoubleTicks
  iterate 40
    refine tickTrace_step _ _ _ _ _ _ _ _ _ _ _ (by norm_num)
      (by norm_num [nextVelocity, defaultConfig, ieee_round, roundDouble_zero, roundDouble_neg,
        h1, h2, h3, h4, h5, h6, h7, h8, h9, h10, h11, h12, h13, h14, h15, h16, h17, h18, h19, h20,
        h21, h22, h23, h24, h25, h26, h27, h28, h29, h30, h31, h32, h33, h34, h35, h36, h37, h38,
        h39, h40, h41, h42, h43, h44, h45, h46, h47, h48, h49, h50, h51, h52, h53, h54, h55, h56,
        h57, h58, h59, h60, h61, h62, h63, h64, h65, h66, h67, h68, h69, h70, h71, h72, h73, h74,
        h75, h76, h77, h78, h79, h80, h81, h82, h83, h84, h85, h86, h87, h88, h89, h90, h91, h92,
        h93, h94, h95, h96, h97, h98, h99, h100, h101, h102, h103, h104, h105, h106, h107, h108,
        h109, h110, h111, h112, h113, h114, h115, h116, h117, h118, h119, h120, h121, h122, h123,
        h124, h125, h126, h127, h128, h129, h130, h131, h132, h133, h134, h135, h136, h137, h138,
        h139])
      (by norm_num [defaultConfig, ieee_round, roundDouble_zero, roundDouble_neg,
        h1, h2, h3, h4, h5, h6, h7, h8, h9, h10, h11, h12, h13, h14, h15, h16, h17, h18, h19, h20,
        h21, h22, h23, h24, h25, h26, h27, h28, h29, h30, h31, h32, h33, h34, h35, h36, h37, h38,
        h39, h40, h41, h42, h43, h44, h45, h46, h47, h48, h49, h50, h51, h52, h53, h54, h55, h56,
        h57, h58, h59, h60, h61, h62, h63, h64, h65, h66, h67, h68, h69, h70, h71, h72, h73, h74,
        h75, h76, h77, h78, h79, h80, h81, h82, h83, h84, h85, h86, h87, h88, h89, h90, h91, h92,
        h93, h94, h95, h96, h97, h98, h99, h100, h101, h102, h103, h104, h105, h106, h107, h108,
        h109, h110, h111, h112, h113, h114, h115, h116, h117, h118, h119, h120, h121, h122, h123,
        h124, h125, h126, h127, h128, h129, h130, h131, h132, h133, h134, h135, h136, h137, h138,
        h139])
      (by norm_num [defaultConfig, ieee_round, roundDouble_zero, roundDouble_neg,
        h1, h2, h3, h4, h5, h6, h7, h8, h9, h10, h11, h12, h13, h14, h15, h16, h17, h18, h19, h20,
        h21, h22, h23, h24, h25, h26, h27, h28, h29, h30, h31, h32, h33, h34, h35, h36, h37, h38,
        h39, h40, h41, h42, h43, h44, h45, h46, h47, h48, h49, h50, h51, h52, h53, h54, h55, h56,
        h57, h58, h59, h60, h61, h62, h63, h64, h65, h66, h67, h68, h69, h70, h71, h72, h73, h74,
        h75, h76, h77, h78, h79, h80, h81, h82, h83, h84, h85, h86, h87, h88, h89, h90, h91, h92,
        h93, h94, h95, h96, h97, h98, h99, h100, h101, h102, h103, h104, h105, h106, h107, h108,
        h109, h110, h111, h112, h113, h114, h115, h116, h117, h118, h119, h120, h121, h122, h123,
        h124, h125, h126, h127, h128, h129, h130, h131, h132, h133, h134, h135, h136, h137, h138,
        h139]) ?_
  exact tickTrace_done _ _ _ _ _ _ _ (by norm_num)

/-- The run of `buildTrajectory` in the simple-accept scenario, in double arithmetic. -/
theorem scenario_double_run (env : Env) (start_pos direction : Vec3) (yaw : ℚ) :
    buildTrajectory scenarioConfig env.ieee (fun _ => true) start_pos direction yaw (1 / 2) 21
        TrajectorySegment.fresh
      = some (true,
          .mk (scenarioDoubleTicks.map (waypointOf env.ieee start_pos direction yaw)) []
            false) := by
  unfold buildTrajectory
  rw [buildLoop_eq_trace _ _ _ _ _ _ _ (fun _ => rfl), scenario_double_trace]
  rfl

/-- The run of `buildTrajectory` with `fastConfig`, in double arithmetic. -/
theorem fast_run (env : Env) (start_pos direction : Vec3) (yaw : ℚ) :
    buildTrajectory fastConfig env.ieee (fun _ => true) start_pos direction yaw
        (1 / 4294967296) 3 TrajectorySegment.fresh
      = some (true, .mk (fastTicks.map (waypointOf env.ieee start_pos direction yaw)) []
          false) := by
  unfold buildTrajectory
  rw [buildLoop_eq_trace _ _ _ _ _ _ _ (fun _ => rfl), fast_trace]
  rfl

/-- In exact arithmetic `sampleTarget` computes the deceleration distance `1/2` in the
simple-accept scenario. -/
theorem scenario_decel (env : Env) (hexact : ∀ q, env.round q = q) (calls : Nat) :
    (sampleTarget scenarioConfig env calls).1.decelleration_distance = 1 / 2 := by
  unfold sampleTarget
  split <;> norm_num [scenarioConfig, hexact]

/-- In double arithmetic `sampleTarget` computes the deceleration distance `1/2` in the
simple-accept scenario, whatever the values of `rand()`. -/
theorem scenario_double_decel (env : Env) (calls : Nat) :
    (sampleTarget scenarioConfig env.ieee calls).1.decelleration_distance = 1 / 2 := by
  have h1 : roundDouble 1 = 1 := roundDouble_eval_exact _ 1 0 (by norm_num)
  have h2 : roundDouble (1 / 2) = 1 / 2 := roundDouble_eval_exact _ 1 (-1) (by norm_num)
  unfold sampleTarget
  split <;> norm_num [scenarioConfig, ieee_round, roundDouble_zero, h1, h2]

/-- In double arithmetic `sampleTarget` computes the deceleration distance `1/2` for the
default parameters, whatever the values of `rand()`. -/
theorem default_double_decel (env : Env) (calls : Nat) :
    (sampleTarget defaultConfig env.ieee calls).1.decelleration_distance = 1 / 2 := by
  have h1 : roundDouble 1 = 1 := roundDouble_eval_exact _ 1 0 (by norm_num)
  have h2 : roundDouble (1 / 2) = 1 / 2 := roundDouble_eval_exact _ 1 (-1) (by norm_num)
  unfold sampleTarget
  split <;> norm_num [defaultConfig, ieee_round, roundDouble_zero, h1, h2]

/-- In double arithmetic `sampleTarget` computes the deceleration distance `2 ^ (-32)` for
`fastConfig`, whatever the values of `rand()`. -/
theorem fast_decel (env : Env) (calls : Nat) :
    (sampleTarget fastConfig env.ieee calls).1.decelleration_distance = 1 / 4294967296 := by
  have h1 : roundDouble 1 = 1 := roundDouble_eval_exact _ 1 0 (by norm_num)
  have h2 : roundDouble (1 / 2147483648) = 1 / 2147483648 :=
    roundDouble_eval_exact _ 1 (-31) (by norm_num)
  have h3 : roundDouble (1 / 4294967296) = 1 / 4294967296 :=
    roundDouble_eval_exact _ 1 (-32) (by norm_num)
  unfold sampleTarget
  split <;> norm_num [fastConfig, ieee_round, roundDouble_zero, h1, h2, h3]

/-- The velocity step of `underflowConfig` rounds to zero. -/
theorem underflow_velocity_step :
    roundDouble (underflowConfig.p_a_max_ / underflowConfig.p_sampling_rate_) = 0 := by
  apply roundDouble_underflow
  rw [abs_of_pos (by norm_num [underflowConfig])]
  norm_num [underflowConfig]

/-- With `underflowConfig` a tick from distance and velocity zero leaves both at zero. -/
theorem underflow_step (env : Env) (decel t : ℚ) :
    tickStep underflowConfig env.ieee decel (0, 0, t)
      = (0, 0, roundDouble (t + roundDouble (1 / underflowConfig.p_sampling_rate_))) := by
  have hv : nextVelocity underflowConfig env.ieee decel 0 0 = 0 := by
    unfold nextVelocity
    rw [ieee_round, underflow_velocity_step]
    split <;> norm_num [roundDouble_zero, underflowConfig]
  simp only [tickStep, hv, ieee_round, zero_div, roundDouble_zero, add_zero]

/-- With `underflowConfig` and an oracle that is true everywhere the loop of
`buildTrajectory` is never left, however much fuel it gets. -/
theorem underflow_stuck (env : Env) (start_pos direction : Vec3) (yaw decel : ℚ) :
    ∀ (fuel : Nat) (t : ℚ) (seg : TrajectorySegment),
      buildLoop underflowConfig env.ieee (fun _ => true) start_pos direction yaw decel fuel
        0 0 t seg = none := by
  intro fuel
  induction fuel with
  | zero =>
    intro t seg
    exact buildLoop_zero _ _ _ _ _ _ _ _ _ _ _ (le_refl 0)
  | succ fuel ih =>
    intro t seg
    rw [buildLoop_succ _ _ _ _ _ _ _ _ _ _ _ _ (le_refl 0)]
    simp only [Bool.not_true, Bool.false_eq_true, if_false, underflow_step]
    exact ih _ _

/-- The call of `expandSegment` on the example target in the simple-accept scenario, in
double arithmetic and with an oracle that is true everywhere: the first attempt is
accepted. -/
theorem scenario_double_expand (env : Env) :
    expandSegment scenarioConfig env.ieee (fun _ => true) 21 exampleTarget [7]
      = some ⟨true,
          .mk [⟨⟨0, 0, 0⟩, 0, 0⟩]
            [.mk [⟨⟨-1, 0, 0⟩, 0, 0⟩] [] false,
              .mk (scenarioDoubleTicks.map (waypointOf env.ieee ⟨0, 0, 0⟩
                (sampleTarget scenarioConfig env.ieee 0).1.direction
                (sampleTarget scenarioConfig env.ieee 0).1.yaw)) [] false] true,
          [7, 1], 1, 1⟩ := by
  have step1 : expandStep scenarioConfig env.ieee (fun _ => true) 21 ⟨0, 0, 0⟩
      ⟨.mk [⟨⟨0, 0, 0⟩, 0, 0⟩] [.mk [⟨⟨-1, 0, 0⟩, 0, 0⟩] [] false, TrajectorySegment.fresh] true,
        [7], 1, 0, 0, 0⟩
      = some ⟨.mk [⟨⟨0, 0, 0⟩, 0, 0⟩]
          [.mk [⟨⟨-1, 0, 0⟩, 0, 0⟩] [] false,
            .mk (scenarioDoubleTicks.map (waypointOf env.ieee ⟨0, 0, 0⟩
              (sampleTarget scenarioConfig env.ieee 0).1.direction
              (sampleTarget scenarioConfig env.ieee 0).1.yaw)) [] false,
            TrajectorySegment.fresh]
          true, [7, 1], 2, 1, 1, (sampleTarget scenarioConfig env.ieee 0).2⟩ := by
    have hb := scenario_double_run env ⟨0, 0, 0⟩
      (sampleTarget scenarioConfig env.ieee 0).1.direction
      (sampleTarget scenarioConfig env.ieee 0).1.yaw
    rw [← scenario_double_decel env 0] at hb
    simp [expandStep, hb, TrajectorySegment.children, TrajectorySegment.setChild,
      TrajectorySegment.spawnChild]
  unfold expandSegment
  simp only [exampleTarget, TrajectorySegment.setVisited, TrajectorySegment.spawnChild,
    TrajectorySegment.trajectory, List.getLast?, List.getLast, List.length_cons,
    List.length_nil, List.cons_append, List.nil_append]
  rw [expandLoop_eq, if_pos (by norm_num [scenarioConfig]), step1]
  simp only
  rw [expandLoop_eq, if_neg (by norm_num [scenarioConfig])]
  simp [TrajectorySegment.children, TrajectorySegment.popChild]

/-- The call of `expandSegment` on the example target with `underflowConfig`, in double
arithmetic and with an oracle that is true everywhere, does not return, however much fuel
its simulation gets. -/
theorem underflow_expand (env : Env) (fuel : Nat) :
    expandSegment underflowConfig env.ieee (fun _ => true) fuel exampleTarget [] = none := by
  have step1 : expandStep underflowConfig env.ieee (fun _ => true) fuel ⟨0, 0, 0⟩
      ⟨.mk [⟨⟨0, 0, 0⟩, 0, 0⟩] [.mk [⟨⟨-1, 0, 0⟩, 0, 0⟩] [] false, TrajectorySegment.fresh] true,
        [], 1, 0, 0, 0⟩ = none := by
    simp [expandStep, buildTrajectory, underflow_stuck, TrajectorySegment.children]
  unfold expandSegment
  simp only [exampleTarget, TrajectorySegment.setVisited, TrajectorySegment.spawnChild,
    TrajectorySegment.trajectory, List.getLast?, List.getLast, List.length_cons,
    List.length_nil, List.cons_append, List.nil_append]
  rw [expandLoop_eq, if_pos (by norm_num [underflowConfig]), step1]

/-- Whatever the oracle, the loop of `buildTrajectory` returns within the fuel with which
the list of its tick values is complete. -/
theorem buildLoop_returns_of_trace (cfg : RandomLinear) (env : Env) (orc : Oracle)
    (start_pos direction : Vec3) (yaw decel : ℚ) :
    ∀ (fuel : Nat) (x v t : ℚ) (l : List (ℚ × ℚ × ℚ)) (seg : TrajectorySegment),
      tickTrace cfg env decel fuel x v t = some l →
      ∃ r, buildLoop cfg env orc start_pos direction yaw decel fuel x v t seg = some r := by
  intro fuel
  induction fuel with
  | zero =>
    intro x v t l seg h
    by_cases hv : 0 ≤ v
    · rw [tickTrace.eq_def] at h
      simp only [hv, if_true] at h
      cases h
    · exact ⟨_, buildLoop_neg _ _ _ _ _ _ _ _ _ _ _ _ hv⟩
  | succ fuel ih =>
    intro x v t l seg h
    by_cases hv : 0 ≤ v
    · rw [tickTrace, if_pos hv] at h
      cases hrest : tickTrace cfg env decel fuel (tickStep cfg env decel (x, v, t)).1
          (tickStep cfg env decel (x, v, t)).2.1 (tickStep cfg env decel (x, v, t)).2.2 with
      | none =>
        rw [hrest] at h
        cases h
      | some l2 =>
        rw [buildLoop_succ _ _ _ _ _ _ _ _ _ _ _ _ hv]
        split
        · exact ⟨_, rfl⟩
        · exact ih _ _ _ l2 _ hrest
    · exact ⟨_, buildLoop_neg _ _ _ _ _ _ _ _ _ _ _ _ hv⟩

/-- With the default parameters and in double arithmetic, `expandSegment` returns on every
target with a non-empty trajectory, whatever the oracle and the values of `rand()`, when
each simulation gets fuel for 40 ticks. -/
theorem default_double_returns (env : Env) (orc : Oracle) (target : TrajectorySegment)
    (out0 : List Nat) (htraj : target.trajectory ≠ []) :
    ∃ res, expandSegment defaultConfig env.ieee orc 40 target out0 = some res := by
  apply expandSegment_returns_of defaultConfig env.ieee orc 40 target out0 htraj
  intro start_pos calls
  rw [default_double_decel]
  exact buildLoop_returns_of_trace defaultConfig env.ieee orc start_pos _ _ (1 / 2) 40 0 0 0
    defaultDoubleTicks _ (default_double_trace env)

end RandomLinear

end trajectory_generators

/-! ## Claims about `RandomLinear` -/

namespace trajectory_generators

namespace RandomLinear

/-- C2: whenever `RandomLinear.expandSegment` returns, every segment it pushed to
`new_segments` is a child of the target all of whose waypoint positions are traversable
under the oracle, and its trajectory is exactly what `buildTrajectory` produces on an empty
segment in its one successful attempt (nothing is left over from an earlier failed attempt
on the reused segment). -/
theorem expandSegment_accepted_traversable (cfg : RandomLinear) (env : Env) (orc : Oracle)
    (fuel : Nat) (target : TrajectorySegment) (out0 : List Nat) (res : ExpandResult)
    (hret : expandSegment cfg env orc fuel target out0 = some res) :
    ∃ last handles, target.trajectory.getLast? = some last ∧
      res.new_segments = out0 ++ handles ∧
      ∀ h ∈ handles, ∃ child, res.target.children[h]? = some child ∧
        (∀ p ∈ child.trajectory, orc p.position_W = true) ∧
        Accepted cfg env orc fuel last.position_W child := by
  obtain ⟨last, accepted, hl, ht, hout, _, _, hacc, _⟩ :=
    expandSegment_spec cfg env orc fuel target out0 res hret
  refine ⟨last, _, hl, hout, ?_⟩
  intro h hh
  obtain ⟨c, hc, hmem⟩ := getElem?_append_range target.children accepted h hh
  refine ⟨c, ?_, (accepted_traversable cfg env orc fuel _ c (hacc c hmem)).1, hacc c hmem⟩
  rw [ht]
  exact hc

/-- Witness for C2: the example call, whose first attempt fails and whose second attempt is
accepted. -/
theorem expandSegment_accepted_traversable_witness :
    ∃ last handles, exampleTarget.trajectory.getLast? = some last ∧
      [7, 1] = [7] ++ handles ∧
      ∀ h ∈ handles, ∃ child,
        (TrajectorySegment.mk [⟨⟨0, 0, 0⟩, 0, 0⟩]
          [.mk [⟨⟨-1, 0, 0⟩, 0, 0⟩] [] false, exampleChild] true).children[h]? = some child ∧
        (∀ p ∈ child.trajectory, halfSpace p.position_W = true) ∧
        Accepted exampleConfig exampleEnv halfSpace 3 last.position_W child :=
  expandSegment_accepted_traversable exampleConfig exampleEnv halfSpace 3 exampleTarget [7] _
    example_run

/-- C3: when `RandomLinear.expandSegment` returns, `target.children` is the former children,
unchanged and in order, followed by the accepted children in acceptance order; the target's
trajectory is unchanged; `new_segments` has gained exactly the handles (indices) of the
accepted children in the same order, each resolving to its child; every accepted child has
a non-empty trajectory; and no child added by the call has an empty trajectory. -/
theorem expandSegment_children_layout (cfg : RandomLinear) (env : Env) (orc : Oracle)
    (fuel : Nat) (target : TrajectorySegment) (out0 : List Nat) (res : ExpandResult)
    (hret : expandSegment cfg env orc fuel target out0 = some res) :
    ∃ accepted, res.target.children = target.children ++ accepted ∧
      res.target.trajectory = target.trajectory ∧
      res.new_segments = out0 ++ List.range' target.children.length accepted.length ∧
      (∀ i, i < accepted.length →
        res.target.children[target.children.length + i]? = accepted[i]?) ∧
      (∀ c ∈ accepted, c.trajectory ≠ []) ∧
      (∀ i c, target.children.length ≤ i → res.target.children[i]? = some c →
        c.trajectory ≠ []) := by
  obtain ⟨last, accepted, _, ht, hout, _, _, hacc, _⟩ :=
    expandSegment_spec cfg env orc fuel target out0 res hret
  have hne : ∀ c ∈ accepted, c.trajectory ≠ [] :=
    fun c hc => (accepted_traversable cfg env orc fuel _ c (hacc c hc)).2
  refine ⟨accepted, by rw [ht]; rfl, by rw [ht]; rfl, hout, ?_, hne, ?_⟩
  · intro i _
    rw [ht, children_mk]
    rw [List.getElem?_append_right (Nat.le_add_right _ _), Nat.add_sub_cancel_left]
  · intro i c hi hc
    rw [ht, children_mk] at hc
    rw [List.getElem?_append_right hi] at hc
    exact hne c (List.getElem?_mem hc)

/-- Witness for C3: the example call. -/
theorem expandSegment_children_layout_witness :
    ∃ accepted,
      (TrajectorySegment.mk [⟨⟨0, 0, 0⟩, 0, 0⟩]
          [.mk [⟨⟨-1, 0, 0⟩, 0, 0⟩] [] false, exampleChild] true).children
        = exampleTarget.children ++ accepted ∧
      (TrajectorySegment.mk [⟨⟨0, 0, 0⟩, 0, 0⟩]
          [.mk [⟨⟨-1, 0, 0⟩, 0, 0⟩] [] false, exampleChild] true).trajectory
        = exampleTarget.trajectory ∧
      [7, 1] = [7] ++ List.range' exampleTarget.children.length accepted.length ∧
      (∀ i, i < accepted.length →
        (TrajectorySegment.mk [⟨⟨0, 0, 0⟩, 0, 0⟩]
          [.mk [⟨⟨-1, 0, 0⟩, 0, 0⟩] [] false, exampleChild] true).children[
            exampleTarget.children.length + i]? = accepted[i]?) ∧
      (∀ c ∈ accepted, c.trajectory ≠ []) ∧
      (∀ i c, exampleTarget.children.length ≤ i →
        (TrajectorySegment.mk [⟨⟨0, 0, 0⟩, 0, 0⟩]
          [.mk [⟨⟨-1, 0, 0⟩, 0, 0⟩] [] false, exampleChild] true).children[i]? = some c →
        c.trajectory ≠ []) :=
  expandSegment_children_layout exampleConfig exampleEnv halfSpace 3 exampleTarget [7] _
    example_run

/-- C4: when `RandomLinear.expandSegment` returns, `target.tg_visited` is true whatever the
outcome, and the returned flag is true if and only if at least one child was appended to
`target.children` (false exactly when none was appended). -/
theorem expandSegment_result_flag (cfg : RandomLinear) (env : Env) (orc : Oracle)
    (fuel : Nat) (target : TrajectorySegment) (out0 : List Nat) (res : ExpandResult)
    (hret : expandSegment cfg env orc fuel target out0 = some res) :
    res.target.tg_visited = true ∧
      (res.result = true ↔ target.children.length + 1 ≤ res.target.children.length) ∧
      (res.result = false ↔ res.target.children.length = target.children.length) := by
  obtain ⟨last, accepted, _, ht, _, hvalid, hres, _⟩ :=
    expandSegment_spec cfg env orc fuel target out0 res hret
  rw [ht, hres, hvalid, children_mk]
  simp only [TrajectorySegment.tg_visited, List.length_append,
    decide_eq_true_eq, decide_eq_false_iff_not, true_and]
  constructor <;> constructor <;> intro h <;> omega

/-- Witness for C4: the example call returns `true` and has appended one child. -/
theorem expandSegment_result_flag_witness :
    (TrajectorySegment.mk [⟨⟨0, 0, 0⟩, 0, 0⟩]
        [.mk [⟨⟨-1, 0, 0⟩, 0, 0⟩] [] false, exampleChild] true).tg_visited = true ∧
      (true = true ↔ exampleTarget.children.length + 1 ≤
        (TrajectorySegment.mk [⟨⟨0, 0, 0⟩, 0, 0⟩]
          [.mk [⟨⟨-1, 0, 0⟩, 0, 0⟩] [] false, exampleChild] true).children.length) ∧
      (true = false ↔
        (TrajectorySegment.mk [⟨⟨0, 0, 0⟩, 0, 0⟩]
          [.mk [⟨⟨-1, 0, 0⟩, 0, 0⟩] [] false, exampleChild] true).children.length
          = exampleTarget.children.length) :=
  expandSegment_result_flag exampleConfig exampleEnv halfSpace 3 exampleTarget [7] _
    example_run

/-- C5 fails on the code as stated: `underflowConfig` has `n_segments = max_tries = 1` and
positive `v_max`, `a_max = 2 ^ (-1000)` and `sampling_rate = 2 ^ 100`, which are doubles,
but in double arithmetic the velocity step `a_max / sampling_rate = 2 ^ (-1100)` rounds to
zero. With an oracle that is true everywhere the velocity and the distance then stay at
zero, so the loop of `buildTrajectory` is never left, whatever the start position, the
direction and the deceleration distance, and the call of `expandSegment` does not return:
it does not accept exactly one child in exactly one attempt. The environment plays no
part in this; the statement is made for the example environment and the example target. -/
theorem expandSegment_underflow :
    1 ≤ underflowConfig.p_n_segments_ ∧ 1 ≤ underflowConfig.p_max_tries_ ∧
      0 < underflowConfig.p_v_max_ ∧ 0 < underflowConfig.p_a_max_ ∧
      0 < underflowConfig.p_sampling_rate_ ∧
      roundDouble underflowConfig.p_v_max_ = underflowConfig.p_v_max_ ∧
      roundDouble underflowConfig.p_a_max_ = underflowConfig.p_a_max_ ∧
      roundDouble underflowConfig.p_sampling_rate_ = underflowConfig.p_sampling_rate_ ∧
      roundDouble (underflowConfig.p_a_max_ / underflowConfig.p_sampling_rate_) = 0 ∧
      (∀ (start_pos direction : Vec3) (yaw decel : ℚ) (fuel : Nat) (seg : TrajectorySegment),
        buildTrajectory underflowConfig exampleEnv.ieee (fun _ => true) start_pos direction yaw
          decel fuel seg = none) ∧
      ∀ fuel, expandSegment underflowConfig exampleEnv.ieee (fun _ => true) fuel
        exampleTarget [] = none := by
  refine ⟨by decide, by decide, by norm_num [underflowConfig], by norm_num [underflowConfig],
    by norm_num [underflowConfig], ?_, ?_, ?_, underflow_velocity_step, ?_,
    underflow_expand exampleEnv⟩
  · exact roundDouble_eval_exact _ 1 0 (by norm_num [underflowConfig])
  · exact roundDouble_eval_exact _ 1 (-1000) (by norm_num [underflowConfig])
  · exact roundDouble_eval_exact _ 1 100 (by norm_num [underflowConfig])
  · intro start_pos direction yaw decel fuel seg
    exact underflow_stuck exampleEnv start_pos direction yaw decel fuel 0 seg

/-- C5, amended: for `n_segments >= 1` and `max_tries >= 1`, every call of
`RandomLinear.expandSegment` that returns has made at most `max_tries` sampling attempts
(`counter`) and accepted at most `n_segments` children (`valid_segments`, which is the
number of children appended and of handles pushed), and with an oracle that is true
everywhere and `n_segments <= max_tries` it has accepted exactly `n_segments` children in
exactly `n_segments` attempts, whatever the rounding of the arithmetic. In exact arithmetic
the call does return for positive `v_max`, `a_max`, `sampling_rate` and a target with a
non-empty trajectory, once the simulations get enough fuel. In double arithmetic it need
not return for such parameters, but it does for the default parameters, where no
simulation takes more than 40 ticks. -/
theorem expandSegment_retry_bound (cfg : RandomLinear) (env : Env) (orc : Oracle)
    (target : TrajectorySegment) (out0 : List Nat) (hn : 1 ≤ cfg.p_n_segments_)
    (hm : 1 ≤ cfg.p_max_tries_) :
    (∀ (fuel : Nat) (res : ExpandResult),
      expandSegment cfg env orc fuel target out0 = some res →
        res.counter ≤ cfg.p_max_tries_ ∧
        res.valid_segments ≤ cfg.p_n_segments_ ∧
        (res.target.children.length : Int) = target.children.length + res.valid_segments ∧
        (res.new_segments.length : Int) = out0.length + res.valid_segments ∧
        ((∀ p, orc p = true) → cfg.p_n_segments_ ≤ cfg.p_max_tries_ →
          res.valid_segments = cfg.p_n_segments_ ∧ res.counter = cfg.p_n_segments_)) ∧
      ((∀ q, env.round q = q) → 0 < cfg.p_v_max_ → 0 < cfg.p_a_max_ →
        0 < cfg.p_sampling_rate_ → target.trajectory ≠ [] →
        ∃ fuel0, ∀ fuel, fuel0 ≤ fuel →
          ∃ res, expandSegment cfg env orc fuel target out0 = some res) ∧
      (target.trajectory ≠ [] →
        ∃ res, expandSegment defaultConfig env.ieee orc 40 target out0 = some res) := by
  refine ⟨?_, ?_, default_double_returns env orc target out0⟩
  · intro fuel res hres
    obtain ⟨last, accepted, _, ht, hout, hvalid, _, _, _, hcm, hvn, hexit, hall⟩ :=
      expandSegment_spec cfg env orc fuel target out0 res hres
    have hcm2 : res.counter ≤ cfg.p_max_tries_ := by
      rw [max_eq_left (by omega)] at hcm
      exact hcm
    have hvn2 : res.valid_segments ≤ cfg.p_n_segments_ := by
      rw [max_eq_left (by omega)] at hvn
      exact hvn
    refine ⟨hcm2, hvn2, ?_, ?_, ?_⟩
    · rw [ht, children_mk, List.length_append, hvalid]
      push_cast
      rfl
    · rw [hout, List.length_append, List.length_range', hvalid]
      push_cast
      rfl
    · intro horc hle
      have heq := hall horc
      have hnot : ¬ (res.valid_segments < cfg.p_n_segments_ ∧
          res.valid_segments < cfg.p_max_tries_) := by
        rw [heq]
        rw [heq] at hexit
        exact hexit
      have hge : cfg.p_n_segments_ ≤ res.valid_segments := by
        by_contra hlt
        exact hnot ⟨by omega, by omega⟩
      constructor
      · omega
      · omega
  · intro hexact hvm ha hs htraj
    exact ⟨fuelNeeded cfg env 0 cfg.p_max_tries_.toNat, fun fuel hfuel =>
      expandSegment_returns cfg env orc fuel target out0 hexact hvm ha hs htraj hfuel⟩

/-- Witness for C5, amended: the call on the example target in the simple-accept scenario,
in double arithmetic and with an oracle that is true everywhere, returns after one attempt
with one accepted child; the same call returns in exact arithmetic, and the call with the
default parameters returns in double arithmetic. -/
theorem expandSegment_retry_bound_witness :
    (∃ res, expandSegment scenarioConfig exampleEnv.ieee (fun _ => true) 21 exampleTarget [7]
        = some res ∧
      res.valid_segments = 1 ∧ res.counter = 1 ∧
      res.counter ≤ scenarioConfig.p_max_tries_ ∧
      res.valid_segments ≤ scenarioConfig.p_n_segments_ ∧
      (res.target.children.length : Int)
        = exampleTarget.children.length + res.valid_segments ∧
      (res.new_segments.length : Int) = [7].length + res.valid_segments ∧
      ((∀ p, (fun _ => true : Oracle) p = true) →
        scenarioConfig.p_n_segments_ ≤ scenarioConfig.p_max_tries_ →
        res.valid_segments = scenarioConfig.p_n_segments_ ∧
          res.counter = scenarioConfig.p_n_segments_)) ∧
      (∃ fuel0, ∀ fuel, fuel0 ≤ fuel →
        ∃ res, expandSegment scenarioConfig exampleEnv.exact (fun _ => true) fuel
          exampleTarget [7] = some res) ∧
      ∃ res, expandSegment defaultConfig exampleEnv.ieee (fun _ => true) 40 exampleTarget [7]
        = some res :=
  ⟨⟨_, scenario_double_expand exampleEnv, rfl, rfl,
      (expandSegment_retry_bound scenarioConfig exampleEnv.ieee (fun _ => true) exampleTarget
        [7] (by decide) (by decide)).1 21 _ (scenario_double_expand exampleEnv)⟩,
    (expandSegment_retry_bound scenarioConfig exampleEnv.exact (fun _ => true) exampleTarget
      [7] (by decide) (by decide)).2.1 (exact_round exampleEnv) (by norm_num [scenarioConfig])
      (by norm_num [scenarioConfig]) (by norm_num [scenarioConfig])
      (by simp [exampleTarget, TrajectorySegment.trajectory]),
    (expandSegment_retry_bound scenarioConfig exampleEnv (fun _ => true) exampleTarget
      [7] (by decide) (by decide)).2.2 (by simp [exampleTarget, TrajectorySegment.trajectory])⟩

/-- C10, evaluated on the code in the simple-accept scenario in exact arithmetic:
`sampleTarget` gives the deceleration distance `1/2`, and with an oracle that is true
everywhere `buildTrajectory` returns `true` after 21 ticks with the waypoints of
`scenarioTicks`. The waypoint at distance exactly `1` along the direction is the one before
the last (tick 20, velocity `0`); the loop then runs one more tick with velocity `-1/10`, so
the final waypoint is `start_pos + 99/100 * direction`, which for the direction `(1, 0, 0)`
differs from `start_pos + 1 * direction`. -/
theorem scenario_final_waypoint (env : Env) (start_pos direction : Vec3) (yaw : ℚ)
    (calls : Nat) :
    (sampleTarget scenarioConfig env.exact calls).1.decelleration_distance = 1 / 2 ∧
      buildTrajectory scenarioConfig env.exact (fun _ => true) start_pos direction yaw (1 / 2)
          21 TrajectorySegment.fresh
        = some (true,
            .mk (scenarioTicks.map (waypointOf env.exact start_pos direction yaw)) [] false) ∧
      ((scenarioTicks.map (waypointOf env.exact start_pos direction yaw))[19]?).map
          (fun p => p.position_W)
        = some (start_pos.add (Vec3.smul 1 direction)) ∧
      ((scenarioTicks.map (waypointOf env.exact start_pos direction yaw)).getLast?).map
          (fun p => p.position_W)
        = some (start_pos.add (Vec3.smul (99 / 100) direction)) ∧
      (⟨0, 0, 0⟩ : Vec3).add (Vec3.smul (99 / 100) ⟨1, 0, 0⟩)
        ≠ (⟨0, 0, 0⟩ : Vec3).add (Vec3.smul 1 ⟨1, 0, 0⟩) := by
  refine ⟨scenario_decel env.exact (exact_round env) calls,
    scenario_run env.exact (exact_round env) start_pos direction yaw, rfl, rfl, ?_⟩
  norm_num [Vec3.add, Vec3.smul]

/-- C11: `RandomLinear.checkParamsValid` rejects, with the message of the first violated
constraint in this order: `max_distance <= 0`, then `max_distance < min_distance`, then
`n_segments < 1`, then `max_tries < 1`; so it returns `false` whenever one of the four
holds. `max_distance = min_distance > 0` is not rejected by these checks, and when none of
the four is violated the result is exactly that of the base-class check. -/
theorem checkParamsValid_checks (cfg : RandomLinear) (base : String → Bool × String)
    (msg : String) :
    (cfg.p_max_distance_ ≤ 0 →
        checkParamsValid cfg base msg = (false, "max_distance expected > 0.0")) ∧
      (0 < cfg.p_max_distance_ → cfg.p_max_distance_ < cfg.p_min_distance_ →
        checkParamsValid cfg base msg
          = (false, "max_distance needs to be larger than min_distance")) ∧
      (0 < cfg.p_max_distance_ → cfg.p_min_distance_ ≤ cfg.p_max_distance_ →
        cfg.p_n_segments_ < 1 →
        checkParamsValid cfg base msg = (false, "n_segments expected > 0")) ∧
      (0 < cfg.p_max_distance_ → cfg.p_min_distance_ ≤ cfg.p_max_distance_ →
        1 ≤ cfg.p_n_segments_ → cfg.p_max_tries_ < 1 →
        checkParamsValid cfg base msg = (false, "max_tries expected > 0")) ∧
      (cfg.p_max_distance_ ≤ 0 ∨ cfg.p_max_distance_ < cfg.p_min_distance_ ∨
          cfg.p_n_segments_ < 1 ∨ cfg.p_max_tries_ < 1 →
        (checkParamsValid cfg base msg).1 = false) ∧
      (cfg.p_max_distance_ = cfg.p_min_distance_ → 0 < cfg.p_max_distance_ →
        1 ≤ cfg.p_n_segments_ → 1 ≤ cfg.p_max_tries_ →
        checkParamsValid cfg base msg = base msg) ∧
      (0 < cfg.p_max_distance_ → cfg.p_min_distance_ ≤ cfg.p_max_distance_ →
        1 ≤ cfg.p_n_segments_ → 1 ≤ cfg.p_max_tries_ →
        checkParamsValid cfg base msg = base msg) := by
  refine ⟨?_, ?_, ?_, ?_, checkParamsValid_reject cfg base msg, ?_,
    checkParamsValid_pass cfg base msg⟩
  · intro h1
    unfold checkParamsValid
    rw [if_pos h1]
  · intro h1 h2
    unfold checkParamsValid
    rw [if_neg (not_le.mpr h1), if_pos h2]
  · intro h1 h2 h3
    unfold checkParamsValid
    rw [if_neg (not_le.mpr h1), if_neg (not_lt.mpr h2), if_pos h3]
  · intro h1 h2 h3 h4
    unfold checkParamsValid
    rw [if_neg (not_le.mpr h1), if_neg (not_lt.mpr h2), if_neg (not_lt.mpr h3), if_pos h4]
  · intro h1 h2 h3 h4
    exact checkParamsValid_pass cfg base msg h2 (le_of_eq h1.symm) h3 h4

/-- Witness for C11: the example parameters (`min_distance = max_distance = 1`, one segment,
three tries) pass the four checks, so the result is that of the base-class check. -/
theorem checkParamsValid_checks_witness :
    checkParamsValid exampleConfig (fun m => (true, m)) "" = (fun m => (true, m)) "" :=
  (checkParamsValid_checks exampleConfig (fun m => (true, m)) "").2.2.2.2.2.1
    (by simp [exampleConfig]) (by simp [exampleConfig]) (by decide) (by decide)

/-- C12 fails on the code: with a sampling rate of zero, the other parameters at their
defaults and a base-class check that accepts, `checkParamsValid` returns `true` and leaves
the error message as it was. -/
theorem checkParamsValid_accepts_zero_rate :
    zeroRateConfig.p_sampling_rate_ ≤ 0 ∧
      checkParamsValid zeroRateConfig (fun m => (true, m)) "" = (true, "") := by
  constructor
  · simp [zeroRateConfig]
  · unfold checkParamsValid
    norm_num [zeroRateConfig]

/-- C12, amended: `checkParamsValid` never inspects the sampling rate. Its result is the
same for every value of `sampling_rate`; a configuration, whatever its sampling rate, that
passes the four checks on `max_distance`, `min_distance`, `n_segments` and `max_tries` gets
the result of the base-class check, and any other configuration is rejected. -/
theorem checkParamsValid_ignores_rate (cfg : RandomLinear) (base : String → Bool × String)
    (msg : String) (rate : ℚ) :
    checkParamsValid { cfg with p_sampling_rate_ := rate } base msg
        = checkParamsValid cfg base msg ∧
      (0 < cfg.p_max_distance_ → cfg.p_min_distance_ ≤ cfg.p_max_distance_ →
        1 ≤ cfg.p_n_segments_ → 1 ≤ cfg.p_max_tries_ →
        checkParamsValid { cfg with p_sampling_rate_ := rate } base msg = base msg) ∧
      (¬ (0 < cfg.p_max_distance_ ∧ cfg.p_min_distance_ ≤ cfg.p_max_distance_ ∧
          1 ≤ cfg.p_n_segments_ ∧ 1 ≤ cfg.p_max_tries_) →
        (checkParamsValid { cfg with p_sampling_rate_ := rate } base msg).1 = false) := by
  have hsame : checkParamsValid { cfg with p_sampling_rate_ := rate } base msg
      = checkParamsValid cfg base msg := rfl
  refine ⟨hsame, ?_, ?_⟩
  · intro h1 h2 h3 h4
    rw [hsame]
    exact checkParamsValid_pass cfg base msg h1 h2 h3 h4
  · intro h
    rw [hsame]
    apply checkParamsValid_reject cfg base msg
    by_contra hcon
    push_neg at hcon
    exact h ⟨hcon.1, hcon.2.1, hcon.2.2.1, hcon.2.2.2⟩

/-- Witness for C12, amended: the default parameters with sampling rate `-1` are accepted
when the base-class check accepts. -/
theorem checkParamsValid_ignores_rate_witness :
    checkParamsValid { zeroRateConfig with p_sampling_rate_ := -1 } (fun m => (true, m)) ""
      = (fun m => (true, m)) "" :=
  (checkParamsValid_ignores_rate zeroRateConfig (fun m => (true, m)) "" (-1)).2.1
    (by simp [zeroRateConfig]) (by simp [zeroRateConfig]) (by decide) (by decide)

/-- C13: forced dead-end. For every target with a non-empty trajectory, every configuration
and every sequence of random samples, if the oracle is false for every point then
`RandomLinear.expandSegment` returns (each attempt needs a single tick), returns `false`,
leaves `target.children` and the target's trajectory exactly as before the call, appends
nothing to `new_segments`, and leaves `target.tg_visited == true`. -/
theorem expandSegment_dead_end (cfg : RandomLinear) (env : Env) (orc : Oracle) (fuel : Nat)
    (target : TrajectorySegment) (out0 : List Nat) (htraj : target.trajectory ≠ [])
    (horc : ∀ p, orc p = false) (hfuel : 1 ≤ fuel) :
    ∃ res, expandSegment cfg env orc fuel target out0 = some res ∧
      res.result = false ∧
      res.target.children = target.children ∧
      res.target.trajectory = target.trajectory ∧
      res.target.tg_visited = true ∧
      res.new_segments = out0 ∧
      res.valid_segments = 0 := by
  obtain ⟨f, rfl⟩ : ∃ f, fuel = f + 1 := ⟨fuel - 1, by omega⟩
  cases target with
  | mk traj old v =>
    rw [trajectory_mk] at htraj
    obtain ⟨last, hl⟩ : ∃ last, traj.getLast? = some last :=
      ⟨traj.getLast htraj, List.getLast?_eq_getLast _ htraj⟩
    obtain ⟨counter2, calls2, hloop⟩ := expandLoop_blocked cfg env orc f last.position_W traj
      old out0 horc _ 0 0 (le_refl _)
    refine ⟨⟨false, .mk traj old true, out0, 0, counter2⟩, ?_, rfl, rfl, rfl, rfl, rfl, rfl⟩
    unfold expandSegment
    simp only [TrajectorySegment.setVisited, TrajectorySegment.spawnChild, trajectory_mk, hl,
      hloop]
    simp [TrajectorySegment.children, TrajectorySegment.popChild]

/-- Witness for C13: the example target under the oracle that is false everywhere. -/
theorem expandSegment_dead_end_witness :
    ∃ res, expandSegment exampleConfig exampleEnv (fun _ => false) 1 exampleTarget [7]
        = some res ∧
      res.result = false ∧
      res.target.children = exampleTarget.children ∧
      res.target.trajectory = exampleTarget.trajectory ∧
      res.target.tg_visited = true ∧
      res.new_segments = [7] ∧
      res.valid_segments = 0 :=
  expandSegment_dead_end exampleConfig exampleEnv (fun _ => false) 1 exampleTarget [7]
    (by simp [exampleTarget, TrajectorySegment.trajectory]) (fun _ => rfl) (le_refl 1)

/-- C17: termination of the simulation in exact arithmetic. For positive `v_max`, `a_max`
and `sampling_rate`, the loop of `buildTrajectory` is left after at most `ticksBound` ticks,
for every deceleration distance, start position, direction, oracle and segment; hence, on a
target with a non-empty trajectory, `expandSegment` returns once the simulations get enough
fuel, after at most `max_tries` attempts (none if `max_tries` is not positive). -/
theorem simulation_terminates (cfg : RandomLinear) (hvm : 0 < cfg.p_v_max_)
    (ha : 0 < cfg.p_a_max_) (hs : 0 < cfg.p_sampling_rate_) :
    (∀ (env : Env) (orc : Oracle) (start_pos direction : Vec3) (yaw decel : ℚ)
        (seg : TrajectorySegment) (fuel : Nat), ticksBound cfg decel ≤ fuel →
        ∃ r, buildTrajectory cfg env.exact orc start_pos direction yaw decel fuel seg
          = some r) ∧
      (∀ (env : Env) (orc : Oracle) (target : TrajectorySegment) (out0 : List Nat),
        target.trajectory ≠ [] →
        ∃ fuel0, ∀ fuel, fuel0 ≤ fuel →
          ∃ res, expandSegment cfg env.exact orc fuel target out0 = some res ∧
            0 ≤ res.counter ∧ res.counter ≤ max cfg.p_max_tries_ 0) := by
  constructor
  · intro env orc start_pos direction yaw decel seg fuel hfuel
    exact buildTrajectory_returns cfg env.exact orc start_pos direction yaw decel
      (exact_round env) hvm ha hs fuel hfuel seg
  · intro env orc target out0 htraj
    refine ⟨fuelNeeded cfg env.exact 0 cfg.p_max_tries_.toNat, fun fuel hfuel => ?_⟩
    obtain ⟨res, hres⟩ := expandSegment_returns cfg env.exact orc fuel target out0
      (exact_round env) hvm ha hs htraj hfuel
    obtain ⟨last, accepted, _, _, _, hvalid, _, _, hvc, hcm, _⟩ :=
      expandSegment_spec cfg env.exact orc fuel target out0 res hres
    refine ⟨res, hres, ?_, hcm⟩
    have : (0 : Int) ≤ accepted.length := Int.natCast_nonneg _
    omega

/-- Witness for C17: the parameters of the simple-accept scenario. -/
theorem simulation_terminates_witness :
    (∀ (env : Env) (orc : Oracle) (start_pos direction : Vec3) (yaw decel : ℚ)
        (seg : TrajectorySegment) (fuel : Nat), ticksBound scenarioConfig decel ≤ fuel →
        ∃ r, buildTrajectory scenarioConfig env.exact orc start_pos direction yaw decel fuel
          seg = some r) ∧
      (∀ (env : Env) (orc : Oracle) (target : TrajectorySegment) (out0 : List Nat),
        target.trajectory ≠ [] →
        ∃ fuel0, ∀ fuel, fuel0 ≤ fuel →
          ∃ res, expandSegment scenarioConfig env.exact orc fuel target out0 = some res ∧
            0 ≤ res.counter ∧ res.counter ≤ max scenarioConfig.p_max_tries_ 0) :=
  simulation_terminates scenarioConfig (by simp [scenarioConfig]) (by simp [scenarioConfig])
    (by simp [scenarioConfig])

/-- C15 fails on the code as stated, in two ways. With `fastConfig`, whose sampling rate is
`2 ^ 31` Hz, and the deceleration distance `2 ^ (-32)` that `sampleTarget` computes for it,
`buildTrajectory` returns in double arithmetic a trajectory of three waypoints whose time
stamps are `0`, `0` and `1` ns, so the elapsed times do not increase from the first to the
second waypoint. And in the simple-accept scenario, with the sampling rate `10`,
`buildTrajectory` returns in double arithmetic a trajectory of 21 waypoints whose eighth
time stamp is `799999999` ns, whereas `8/10` s converted to nanoseconds by truncation is
`800000000` ns: the accumulated time `t_curr` is a rounded sum, not `i / sampling_rate`.
Both runs start at the origin with the direction `(1, 0, 0)`; the tick values and the time
stamps do not depend on the start, the direction or the environment. -/
theorem timestamps_repeat :
    0 < fastConfig.p_sampling_rate_ ∧
      (sampleTarget fastConfig exampleEnv.ieee 0).1.decelleration_distance = 1 / 4294967296 ∧
      buildTrajectory fastConfig exampleEnv.ieee (fun _ => true) ⟨0, 0, 0⟩ ⟨1, 0, 0⟩ 0
          (1 / 4294967296) 3 TrajectorySegment.fresh
        = some (true,
            .mk (fastTicks.map (waypointOf exampleEnv.ieee ⟨0, 0, 0⟩ ⟨1, 0, 0⟩ 0)) [] false) ∧
      (fastTicks.map (waypointOf exampleEnv.ieee ⟨0, 0, 0⟩ ⟨1, 0, 0⟩ 0)).map
          (fun p => p.time_from_start_ns) = [0, 0, 1] ∧
      0 < scenarioConfig.p_sampling_rate_ ∧
      (sampleTarget scenarioConfig exampleEnv.ieee 0).1.decelleration_distance = 1 / 2 ∧
      buildTrajectory scenarioConfig exampleEnv.ieee (fun _ => true) ⟨0, 0, 0⟩ ⟨1, 0, 0⟩ 0
          (1 / 2) 21 TrajectorySegment.fresh
        = some (true,
            .mk (scenarioDoubleTicks.map (waypointOf exampleEnv.ieee ⟨0, 0, 0⟩ ⟨1, 0, 0⟩ 0)) []
              false) ∧
      (scenarioDoubleTicks.map (waypointOf exampleEnv.ieee ⟨0, 0, 0⟩ ⟨1, 0, 0⟩ 0)).map
          (fun p => p.time_from_start_ns)
        = [100000000, 200000000, 300000000, 400000000, 500000000, 600000000, 700000000,
          799999999, 899999999, 999999999, 1099999999, 1200000000, 1300000000, 1400000000,
          1500000000, 1600000000, 1700000000, 1800000000, 1900000000, 2000000000,
          2100000000] ∧
      toInt64 (8 / scenarioConfig.p_sampling_rate_ * 1000000000) = 800000000 := by
  refine ⟨by norm_num [fastConfig], fast_decel exampleEnv 0,
    fast_run exampleEnv ⟨0, 0, 0⟩ ⟨1, 0, 0⟩ 0, fast_stamps exampleEnv ⟨0, 0, 0⟩ ⟨1, 0, 0⟩ 0,
    by norm_num [scenarioConfig], scenario_double_decel exampleEnv 0,
    scenario_double_run exampleEnv ⟨0, 0, 0⟩ ⟨1, 0, 0⟩ 0,
    scenario_double_stamps exampleEnv ⟨0, 0, 0⟩ ⟨1, 0, 0⟩ 0, ?_⟩
  norm_num [scenarioConfig, toInt64]

/-- C15, amended: in every trajectory produced by a successful `buildTrajectory` with
`sampling_rate > 0`, whatever the rounding of the arithmetic, at least one waypoint is
appended and the `i`-th appended waypoint (counting from 1) carries the time stamp
`static_cast<int64_t>(t_i * 1.0e9)`, where the product is rounded and `t_i` is the
accumulated time: `t_0 = 0` and `t_(i+1)` is the rounded sum of `t_i` and the rounded
`1 / sampling_rate`. The accumulated times never decrease, and the time stamps never
decrease as long as they are in the range of `int64_t`; consecutive time stamps can be
equal. In exact arithmetic `t_i` is `i / sampling_rate`. In the scenario with
`sampling_rate = 10` the first waypoint's time stamp is 100000000 ns, in double arithmetic
as in exact arithmetic. -/
theorem waypoint_timestamps (cfg : RandomLinear) (env : Env) (orc : Oracle)
    (start_pos direction : Vec3) (yaw decel : ℚ) (fuel : Nat) (seg r : TrajectorySegment)
    (hs : 0 < cfg.p_sampling_rate_) (hlaws : env.RoundingLaws)
    (hret : buildTrajectory cfg env orc start_pos direction yaw decel fuel seg
      = some (true, r)) :
    (∃ added, r.trajectory = seg.trajectory ++ added ∧ added ≠ [] ∧
      (∀ (i : Nat) (p : TrajectoryPoint), added[i]? = some p →
        p.time_from_start_ns
          = toInt64 (env.round ((tickState cfg env decel (i + 1)).2.2 * 1000000000))) ∧
      (∀ (i j : Nat) (p q : TrajectoryPoint), i ≤ j → added[i]? = some p → added[j]? = some q →
        env.round ((tickState cfg env decel (j + 1)).2.2 * 1000000000) < 9223372036854775808 →
        p.time_from_start_ns ≤ q.time_from_start_ns)) ∧
      (tickState cfg env decel 0).2.2 = 0 ∧
      (∀ n, (tickState cfg env decel (n + 1)).2.2
        = env.round ((tickState cfg env decel n).2.2 + env.round (1 / cfg.p_sampling_rate_))) ∧
      (∀ n, (tickState cfg env decel n).2.2 ≤ (tickState cfg env decel (n + 1)).2.2) ∧
      ((∀ q, env.round q = q) →
        ∀ n : Nat, (tickState cfg env decel n).2.2 = n / cfg.p_sampling_rate_) ∧
      (∀ (env2 : Env) (start2 direction2 : Vec3) (yaw2 decel2 : ℚ),
        (waypointOf env2.ieee start2 direction2 yaw2
          (tickState scenarioConfig env2.ieee decel2 1)).time_from_start_ns = 100000000) ∧
      toInt64 (1 / scenarioConfig.p_sampling_rate_ * 1000000000) = 100000000 := by
  have hs1 : 0 ≤ 1 / cfg.p_sampling_rate_ := (div_pos one_pos hs).le
  obtain ⟨k, hk, _, _, htrue, _⟩ := buildTrajectory_run cfg env orc start_pos direction yaw
    decel fuel seg r true hret
  obtain ⟨_, _, hr⟩ := htrue rfl
  have htime : ∀ i p, ((List.range k).map (fun i => waypointOf env start_pos direction yaw
      (tickState cfg env decel (i + 1))))[i]? = some p →
      p.time_from_start_ns
        = toInt64 (env.round ((tickState cfg env decel (i + 1)).2.2 * 1000000000)) := by
    intro i p hp
    obtain ⟨_, rfl⟩ := getElem?_map_range _ k i p hp
    rfl
  have hnonneg : ∀ n, 0 ≤ env.round ((tickState cfg env decel n).2.2 * 1000000000) := by
    intro n
    have h0 := tickState_time_nonneg cfg env decel hlaws hs1 n
    have := hlaws.2.1 0 ((tickState cfg env decel n).2.2 * 1000000000) (by positivity)
    rwa [hlaws.1] at this
  refine ⟨⟨_, hr, ?_, htime, ?_⟩, rfl, fun n => ?_,
    tickState_time_step cfg env decel hlaws hs1,
    fun hexact n => tickState_time cfg env hexact decel n, ?_, ?_⟩
  · intro hnil
    have hlen := congrArg List.length hnil
    simp only [List.length_map, List.length_range, List.length_nil] at hlen
    omega
  · intro i j p q hij hp hq hrange
    rw [htime i p hp, htime j q hq]
    apply toInt64_mono _ _ (hnonneg _) _ hrange
    apply hlaws.2.1
    have := tickState_time_mono cfg env decel hlaws hs1 (i + 1) (j + 1) (by omega)
    linarith
  · rw [tickState_succ]
    rfl
  · intro env2 start2 direction2 yaw2 decel2
    have h1 : roundDouble (1 / 10) = 3602879701896397 / 36028797018963968 :=
      roundDouble_eval_near _ _ (-4) 7205759403792794 (by norm_num)
    have h2 : roundDouble (3602879701896397 / 36028797018963968)
        = 3602879701896397 / 36028797018963968 :=
      roundDouble_eval_exact _ 3602879701896397 (-55) (by norm_num)
    have h3 : roundDouble (7036874417766400390625 / 70368744177664) = 100000000 :=
      roundDouble_eval_near _ _ 26 6710886400000000 (by norm_num)
    have ht : (tickState scenarioConfig env2.ieee decel2 1).2.2
        = 3602879701896397 / 36028797018963968 := by
      rw [tickState_succ]
      norm_num [tickState, tickStep, scenarioConfig, ieee_round, h1, h2]
    simp only [waypointOf, ht, ieee_round]
    norm_num [toInt64, h3]
  · norm_num [scenarioConfig, toInt64]

/-- Witness for C15, amended: the run of the simple-accept scenario in double arithmetic,
and the accumulated times of the scenario in exact arithmetic. -/
theorem waypoint_timestamps_witness :
    ((∃ added,
      (TrajectorySegment.mk
          (scenarioDoubleTicks.map (waypointOf exampleEnv.ieee ⟨0, 0, 0⟩ ⟨1, 0, 0⟩ 0))
          [] false).trajectory = TrajectorySegment.fresh.trajectory ++ added ∧ added ≠ [] ∧
      (∀ (i : Nat) (p : TrajectoryPoint), added[i]? = some p →
        p.time_from_start_ns
          = toInt64 (exampleEnv.ieee.round
            ((tickState scenarioConfig exampleEnv.ieee (1 / 2) (i + 1)).2.2 * 1000000000))) ∧
      (∀ (i j : Nat) (p q : TrajectoryPoint), i ≤ j → added[i]? = some p → added[j]? = some q →
        exampleEnv.ieee.round
            ((tickState scenarioConfig exampleEnv.ieee (1 / 2) (j + 1)).2.2 * 1000000000)
          < 9223372036854775808 →
        p.time_from_start_ns ≤ q.time_from_start_ns)) ∧
      (tickState scenarioConfig exampleEnv.ieee (1 / 2) 0).2.2 = 0 ∧
      (∀ n, (tickState scenarioConfig exampleEnv.ieee (1 / 2) (n + 1)).2.2
        = exampleEnv.ieee.round ((tickState scenarioConfig exampleEnv.ieee (1 / 2) n).2.2
          + exampleEnv.ieee.round (1 / scenarioConfig.p_sampling_rate_))) ∧
      (∀ n, (tickState scenarioConfig exampleEnv.ieee (1 / 2) n).2.2
        ≤ (tickState scenarioConfig exampleEnv.ieee (1 / 2) (n + 1)).2.2) ∧
      ((∀ q, exampleEnv.ieee.round q = q) →
        ∀ n : Nat, (tickState scenarioConfig exampleEnv.ieee (1 / 2) n).2.2
          = n / scenarioConfig.p_sampling_rate_) ∧
      (∀ (env2 : Env) (start2 direction2 : Vec3) (yaw2 decel2 : ℚ),
        (waypointOf env2.ieee start2 direction2 yaw2
          (tickState scenarioConfig env2.ieee decel2 1)).time_from_start_ns = 100000000) ∧
      toInt64 (1 / scenarioConfig.p_sampling_rate_ * 1000000000) = 100000000) ∧
      ∀ n : Nat, (tickState scenarioConfig exampleEnv.exact (1 / 2) n).2.2
        = n / scenarioConfig.p_sampling_rate_ :=
  ⟨waypoint_timestamps scenarioConfig exampleEnv.ieee (fun _ => true) ⟨0, 0, 0⟩ ⟨1, 0, 0⟩ 0
      (1 / 2) 21 TrajectorySegment.fresh _ (by simp [scenarioConfig]) (ieee_laws exampleEnv)
      (scenario_double_run exampleEnv ⟨0, 0, 0⟩ ⟨1, 0, 0⟩ 0),
    (waypoint_timestamps scenarioConfig exampleEnv.exact (fun _ => true) ⟨0, 0, 0⟩ ⟨1, 0, 0⟩ 0
      (1 / 2) 21 TrajectorySegment.fresh _ (by simp [scenarioConfig])
      (exact_laws _ (exact_round exampleEnv))
      (scenario_run _ (exact_round exampleEnv) ⟨0, 0, 0⟩ ⟨1, 0, 0⟩ 0)).2.2.2.2.1
      (exact_round exampleEnv)⟩

/-- C18 fails on the code as stated: in the simple-accept scenario (`v_max = a_max = 1`,
`sampling_rate = 10`, deceleration distance `1/2`) `buildTrajectory` computes in double
arithmetic the velocities `3602879701896397 / 2 ^ 54` at tick 2 and
`1351079888211149 / 2 ^ 52` at tick 3. Their difference `3602879701896398 / 2 ^ 55` is
larger than `a_max / sampling_rate = 1/10`, and also larger than the double
`3602879701896397 / 2 ^ 55` that the code computes for `a_max / sampling_rate`: the sum
`v_curr + a_max / sampling_rate` is rounded, here upwards. The run starts at the origin
with the direction `(1, 0, 0)`; the velocities do not depend on the start, the direction
or the environment. -/
theorem velocity_step_exceeds :
    0 < scenarioConfig.p_v_max_ ∧ 0 < scenarioConfig.p_a_max_ ∧
      0 < scenarioConfig.p_sampling_rate_ ∧
      buildTrajectory scenarioConfig exampleEnv.ieee (fun _ => true) ⟨0, 0, 0⟩ ⟨1, 0, 0⟩ 0
          (1 / 2) 21 TrajectorySegment.fresh
        = some (true,
            .mk (scenarioDoubleTicks.map (waypointOf exampleEnv.ieee ⟨0, 0, 0⟩ ⟨1, 0, 0⟩ 0)) []
              false) ∧
      (tickState scenarioConfig exampleEnv.ieee (1 / 2) 2).2.1 = 3602879701896397 / 2 ^ 54 ∧
      (tickState scenarioConfig exampleEnv.ieee (1 / 2) 3).2.1 = 1351079888211149 / 2 ^ 52 ∧
      scenarioConfig.p_a_max_ / scenarioConfig.p_sampling_rate_
        < |(tickState scenarioConfig exampleEnv.ieee (1 / 2) 3).2.1
          - (tickState scenarioConfig exampleEnv.ieee (1 / 2) 2).2.1| ∧
      exampleEnv.ieee.round (scenarioConfig.p_a_max_ / scenarioConfig.p_sampling_rate_)
        < |(tickState scenarioConfig exampleEnv.ieee (1 / 2) 3).2.1
          - (tickState scenarioConfig exampleEnv.ieee (1 / 2) 2).2.1| := by
  have h2 : tickState scenarioConfig exampleEnv.ieee (1 / 2) 2
      = (1080863910568919 / 2 ^ 55, 3602879701896397 / 2 ^ 54, 3602879701896397 / 2 ^ 54) :=
    tickState_of_trace scenarioConfig exampleEnv.ieee (1 / 2) 21 scenarioDoubleTicks
      (scenario_double_trace exampleEnv) 1 _ rfl
  have h3 : tickState scenarioConfig exampleEnv.ieee (1 / 2) 3
      = (8646911284551353 / 2 ^ 57, 1351079888211149 / 2 ^ 52, 1351079888211149 / 2 ^ 52) :=
    tickState_of_trace scenarioConfig exampleEnv.ieee (1 / 2) 21 scenarioDoubleTicks
      (scenario_double_trace exampleEnv) 2 _ rfl
  have h1 : roundDouble (1 / 10) = 3602879701896397 / 36028797018963968 :=
    roundDouble_eval_near _ _ (-4) 7205759403792794 (by norm_num)
  have habs : |(1351079888211149 / 2 ^ 52 : ℚ) - 3602879701896397 / 2 ^ 54|
      = 3602879701896398 / 2 ^ 55 := by
    rw [abs_of_pos (by norm_num)]
    norm_num
  refine ⟨by norm_num [scenarioConfig], by norm_num [scenarioConfig],
    by norm_num [scenarioConfig], scenario_double_run exampleEnv ⟨0, 0, 0⟩ ⟨1, 0, 0⟩ 0,
    ?_, ?_, ?_, ?_⟩
  · rw [h2]
  · rw [h3]
  · rw [h2, h3]
    simp only [habs]
    norm_num [scenarioConfig]
  · rw [h2, h3]
    simp only [habs]
    norm_num [scenarioConfig, ieee_round, h1]

/-- C18, amended: velocity cap of the simulated profile. For positive `v_max`, `a_max` and
`sampling_rate`, with `v_max` a double, and every deceleration distance, the simulation
starts from `(x, v, t) = (0, 0, 0)` and at every tick the new velocity is at most `v_max`,
whatever the rounding of the arithmetic: it is the rounded sum of the previous velocity
and the rounded `a_max / sampling_rate`, capped at `v_max`, while the distance is below the
deceleration distance, and the rounded difference of the two otherwise; the distance
becomes the rounded sum of the distance and the rounded quotient of the new velocity by
`sampling_rate`. In exact arithmetic the velocity changes by at most
`a_max / sampling_rate` in magnitude and the distance advances by at most
`v_max / sampling_rate` per tick; in double arithmetic these two bounds hold only up to
rounding. Every returning call of `buildTrajectory` has executed the ticks `1, ..., k` for
some `k >= 1`, also when it fails at tick `k`; each tick asks the oracle about
`start_pos + x * direction`, and a successful call has appended the waypoints of the `k`
ticks. -/
theorem velocity_caps (cfg : RandomLinear) (env : Env) (decel : ℚ) (hvm : 0 < cfg.p_v_max_)
    (ha : 0 < cfg.p_a_max_) (hs : 0 < cfg.p_sampling_rate_) (hlaws : env.RoundingLaws)
    (hrep : env.round cfg.p_v_max_ = cfg.p_v_max_) :
    tickState cfg env decel 0 = (0, 0, 0) ∧
      (∀ n, (tickState cfg env decel (n + 1)).2.1 ≤ cfg.p_v_max_) ∧
      (∀ n, (tickState cfg env decel (n + 1)).2.1
          = (if (tickState cfg env decel n).1 < decel then
              min (env.round ((tickState cfg env decel n).2.1
                + env.round (cfg.p_a_max_ / cfg.p_sampling_rate_))) cfg.p_v_max_
            else env.round ((tickState cfg env decel n).2.1
              - env.round (cfg.p_a_max_ / cfg.p_sampling_rate_))) ∧
        (tickState cfg env decel (n + 1)).1
          = env.round ((tickState cfg env decel n).1
            + env.round ((tickState cfg env decel (n + 1)).2.1 / cfg.p_sampling_rate_))) ∧
      ((∀ q, env.round q = q) →
        ∀ n, |(tickState cfg env decel (n + 1)).2.1 - (tickState cfg env decel n).2.1|
            ≤ cfg.p_a_max_ / cfg.p_sampling_rate_ ∧
          (tickState cfg env decel (n + 1)).1 - (tickState cfg env decel n).1
            ≤ cfg.p_v_max_ / cfg.p_sampling_rate_) ∧
      (∀ (orc : Oracle) (start_pos direction : Vec3) (yaw : ℚ) (fuel : Nat)
        (seg r : TrajectorySegment) (flag : Bool),
        buildTrajectory cfg env orc start_pos direction yaw decel fuel seg = some (flag, r) →
        ∃ k, 1 ≤ k ∧
          (∀ i, i < k → 0 ≤ (tickState cfg env decel i).2.1) ∧
          (∀ i, 1 ≤ i → i < k →
            orc (positionAt env start_pos direction (tickState cfg env decel i).1) = true) ∧
          (flag = true →
            orc (positionAt env start_pos direction (tickState cfg env decel k).1) = true ∧
            (tickState cfg env decel k).2.1 < 0 ∧
            r.trajectory = seg.trajectory ++ (List.range k).map (fun i =>
              waypointOf env start_pos direction yaw (tickState cfg env decel (i + 1)))) ∧
          (flag = false →
            orc (positionAt env start_pos direction (tickState cfg env decel k).1) = false ∧
            r.trajectory = [])) := by
  have hδ : 0 ≤ cfg.p_a_max_ / cfg.p_sampling_rate_ := (div_pos ha hs).le
  refine ⟨rfl, fun n => tickState_velocity_le cfg env decel hlaws hrep hvm.le hδ (n + 1),
    fun n => ⟨?_, ?_⟩, fun hexact n => ⟨?_, ?_⟩, ?_⟩
  · rw [tickState_succ]
    rfl
  · rw [tickState_succ]
    rfl
  · exact tickState_velocity_step cfg env hexact decel hvm.le hδ n
  · rw [tickState_advance cfg env hexact]
    exact div_le_div_of_nonneg_right
      (tickState_velocity_le cfg env decel hlaws hrep hvm.le hδ (n + 1)) hs.le
  · intro orc start_pos direction yaw fuel seg r flag hret
    exact buildTrajectory_run cfg env orc start_pos direction yaw decel fuel seg r flag hret

/-- Witness for C18, amended: the parameters of the simple-accept scenario with the
deceleration distance `1/2`, in double arithmetic, and the two bounds of exact arithmetic
for the same parameters. -/
theorem velocity_caps_witness :
    (tickState scenarioConfig exampleEnv.ieee (1 / 2) 0 = (0, 0, 0) ∧
      (∀ n, (tickState scenarioConfig exampleEnv.ieee (1 / 2) (n + 1)).2.1
        ≤ scenarioConfig.p_v_max_) ∧
      (∀ n, (tickState scenarioConfig exampleEnv.ieee (1 / 2) (n + 1)).2.1
          = (if (tickState scenarioConfig exampleEnv.ieee (1 / 2) n).1 < 1 / 2 then
              min (exampleEnv.ieee.round ((tickState scenarioConfig exampleEnv.ieee (1 / 2) n).2.1
                + exampleEnv.ieee.round
                  (scenarioConfig.p_a_max_ / scenarioConfig.p_sampling_rate_)))
                scenarioConfig.p_v_max_
            else exampleEnv.ieee.round ((tickState scenarioConfig exampleEnv.ieee (1 / 2) n).2.1
              - exampleEnv.ieee.round
                (scenarioConfig.p_a_max_ / scenarioConfig.p_sampling_rate_))) ∧
        (tickState scenarioConfig exampleEnv.ieee (1 / 2) (n + 1)).1
          = exampleEnv.ieee.round ((tickState scenarioConfig exampleEnv.ieee (1 / 2) n).1
            + exampleEnv.ieee.round
              ((tickState scenarioConfig exampleEnv.ieee (1 / 2) (n + 1)).2.1
                / scenarioConfig.p_sampling_rate_))) ∧
      ((∀ q, exampleEnv.ieee.round q = q) →
        ∀ n, |(tickState scenarioConfig exampleEnv.ieee (1 / 2) (n + 1)).2.1
              - (tickState scenarioConfig exampleEnv.ieee (1 / 2) n).2.1|
            ≤ scenarioConfig.p_a_max_ / scenarioConfig.p_sampling_rate_ ∧
          (tickState scenarioConfig exampleEnv.ieee (1 / 2) (n + 1)).1
              - (tickState scenarioConfig exampleEnv.ieee (1 / 2) n).1
            ≤ scenarioConfig.p_v_max_ / scenarioConfig.p_sampling_rate_) ∧
      (∀ (orc : Oracle) (start_pos direction : Vec3) (yaw : ℚ) (fuel : Nat)
        (seg r : TrajectorySegment) (flag : Bool),
        buildTrajectory scenarioConfig exampleEnv.ieee orc start_pos direction yaw (1 / 2) fuel
          seg = some (flag, r) →
        ∃ k, 1 ≤ k ∧
          (∀ i, i < k → 0 ≤ (tickState scenarioConfig exampleEnv.ieee (1 / 2) i).2.1) ∧
          (∀ i, 1 ≤ i → i < k →
            orc (positionAt exampleEnv.ieee start_pos direction
              (tickState scenarioConfig exampleEnv.ieee (1 / 2) i).1) = true) ∧
          (flag = true →
            orc (positionAt exampleEnv.ieee start_pos direction
              (tickState scenarioConfig exampleEnv.ieee (1 / 2) k).1) = true ∧
            (tickState scenarioConfig exampleEnv.ieee (1 / 2) k).2.1 < 0 ∧
            r.trajectory = seg.trajectory ++ (List.range k).map (fun i =>
              waypointOf exampleEnv.ieee start_pos direction yaw
                (tickState scenarioConfig exampleEnv.ieee (1 / 2) (i + 1)))) ∧
          (flag = false →
            orc (positionAt exampleEnv.ieee start_pos direction
              (tickState scenarioConfig exampleEnv.ieee (1 / 2) k).1) = false ∧
            r.trajectory = []))) ∧
      ∀ n, |(tickState scenarioConfig exampleEnv.exact (1 / 2) (n + 1)).2.1
            - (tickState scenarioConfig exampleEnv.exact (1 / 2) n).2.1|
          ≤ scenarioConfig.p_a_max_ / scenarioConfig.p_sampling_rate_ ∧
        (tickState scenarioConfig exampleEnv.exact (1 / 2) (n + 1)).1
            - (tickState scenarioConfig exampleEnv.exact (1 / 2) n).1
          ≤ scenarioConfig.p_v_max_ / scenarioConfig.p_sampling_rate_ :=
  ⟨velocity_caps scenarioConfig exampleEnv.ieee (1 / 2) (by simp [scenarioConfig])
      (by simp [scenarioConfig]) (by simp [scenarioConfig]) (ieee_laws exampleEnv)
      (roundDouble_eval_exact _ 1 0 (by norm_num [scenarioConfig])),
    (velocity_caps scenarioConfig exampleEnv.exact (1 / 2) (by simp [scenarioConfig])
      (by simp [scenarioConfig]) (by simp [scenarioConfig])
      (exact_laws _ (exact_round exampleEnv)) rfl).2.2.2.1 (exact_round exampleEnv)⟩

end RandomLinear

end trajectory_generators

end mav_active_3d_planning
